import Mathlib

/-!
# The C emitter of c2c (`c2c/CGenerator/CCodeGenerator.cpp`)

A shallow embedding of the emission routines of `CCodeGenerator` and theorems
about them.

* The two output buffers `hbuf` and `cbuf` are the state (`Buffers`); a
  `StringBuilder&` parameter is a `Sink` that selects one of the two.
* An emission routine is a function `Buffers → Option Buffers`; `none` is an
  abort (`assert(0)`, or an `llvm::cast` to the wrong class).
* `mode`, `no_local_prefix` and the current-module cursor `curmod` are read
  from a `CCodeGenerator` record; `generate` sets `curmod` to the name of the
  AST being emitted before it calls any emission routine.
* Text is `String`, one `Char` per byte.
-/

namespace C2C

/-! ## Output buffers (`Utils/StringBuilder.h`) -/

/-- The two buffers owned by the emitter: `hbuf` (header) and `cbuf` (source). -/
structure Buffers where
  hbuf : String
  cbuf : String
deriving DecidableEq, Repr

/-- Which buffer a `StringBuilder& output` argument refers to. -/
inductive Sink where
  | hbuf
  | cbuf
deriving DecidableEq, Repr

/-- Modelled from the spec: `StringBuilder::operator<<` (Utils/StringBuilder.h is not
among the sources) is an append to the byte buffer (spec 4.1). -/
def Buffers.put (b : Buffers) (output : Sink) (s : String) : Buffers :=
  match output with
  | Sink.hbuf => Buffers.mk (b.hbuf ++ s) b.cbuf
  | Sink.cbuf => Buffers.mk b.hbuf (b.cbuf ++ s)

/-- Both buffers empty: the state of a fresh emitter. -/
def Buffers.empty : Buffers := Buffers.mk "" ""

/-- Buffer-wise concatenation: `b` followed by the text `d` appended to it. -/
def Buffers.append (b d : Buffers) : Buffers :=
  Buffers.mk (b.hbuf ++ d.hbuf) (b.cbuf ++ d.cbuf)

instance : Append Buffers := ⟨Buffers.append⟩

/-- An emission step: it transforms the buffers, or aborts. -/
abbrev Emit := Buffers → Option Buffers

/-- The statement `output << s`. -/
def write (output : Sink) (s : String) : Emit := fun b => some (b.put output s)

/-- Modelled from the spec: `StringBuilder::indent(n)` appends `n` spaces (spec 4.1). -/
def indent (output : Sink) (n : Nat) : Emit :=
  write output (String.mk (List.replicate n (Char.ofNat 32)))

/-- A failed `assert` or `llvm::cast`. -/
def abort : Emit := fun _ => none

/-- No statement executed. -/
def skip : Emit := fun b => some b

/-- The statement `if (c) output << s;`. -/
def writeIf (c : Bool) (output : Sink) (s : String) : Emit :=
  if c then write output s else skip

/-- The text that an emission step appends to each buffer, observed by running
it on empty buffers. -/
def appended (f : Emit) : Option Buffers := f Buffers.empty

/-- Modelled from the spec: the constant `INDENT` of Utils/constants.h (not among the
sources); the spec's scenarios indent by four spaces. -/
def INDENT : Nat := 4

/-! ## The AST (consumed, not owned) -/

/-- Modelled from the spec: the enum `Mode` of CGenerator/CCodeGenerator.h (not among
the sources); spec 4.3 gives its two values. -/
inductive Mode where
  | SINGLE_FILE
  | MULTI_FILE
deriving DecidableEq, Repr

/-- Modelled from the spec: a module descriptor (AST/Module.h is not among the
sources): name, plain-C flag and mangling name `c_name` (spec 3). -/
structure Module where
  name : String
  isPlainC : Bool
  cname : String
deriving DecidableEq, Repr

/-- Modelled from the spec: the declaration kinds of AST/Decl.h (not among the
sources), as the `switch` statements of the emitter list them. -/
inductive DeclKind where
  | DECL_FUNC
  | DECL_VAR
  | DECL_ENUMVALUE
  | DECL_ALIASTYPE
  | DECL_STRUCTTYPE
  | DECL_ENUMTYPE
  | DECL_FUNCTIONTYPE
  | DECL_ARRAYVALUE
  | DECL_IMPORT
deriving DecidableEq, Repr

/-- Modelled from the spec: the builtin kinds of AST/Type.h (not among the sources),
in the order that the comments of the table `builtin2cname` give. -/
inductive BuiltinKind where
  | Int8
  | Int16
  | Int32
  | Int64
  | UInt8
  | UInt16
  | UInt32
  | UInt64
  | Float32
  | Float64
  | Bool
  | Void
deriving DecidableEq, Repr

/-- The numeric value of a builtin kind, used as the index into `builtin2cname`. -/
def BuiltinKind.toNat : BuiltinKind → Nat
  | Int8 => 0
  | Int16 => 1
  | Int32 => 2
  | Int64 => 3
  | UInt8 => 4
  | UInt16 => 5
  | UInt32 => 6
  | UInt64 => 7
  | Float32 => 8
  | Float64 => 9
  | Bool => 10
  | Void => 11

/-- Modelled from the spec: the unary opcodes of AST/Expr.h (not among the sources)
that `EmitUnaryOperator` distinguishes; `UO_Other` stands for every opcode that
reaches its `default:` label. -/
inductive UnaryOpcode where
  | UO_PostInc
  | UO_PostDec
  | UO_PreInc
  | UO_PreDec
  | UO_AddrOf
  | UO_Deref
  | UO_Plus
  | UO_Minus
  | UO_Not
  | UO_LNot
  | UO_Other
deriving DecidableEq, Repr

mutual
/-- Modelled from the spec: a qualified type (AST/Type.h is not among the sources;
spec 3): the `const` flag and the type class with its payload. Struct, enum and
function types keep the name of the declaration they refer to; an alias type keeps
the name of its declaration and the type it refers to; an unresolved type keeps the
text `printLiteral` prints. -/
inductive QualType where
  | builtin (isConst : Bool) (kind : BuiltinKind)
  | pointer (isConst : Bool) (pointee : QualType)
  | array (isConst : Bool) (element : QualType) (sizeExpr : Option Expr)
  | unresolved (isConst : Bool) (literal : String)
  | alias (isConst : Bool) (declName : String) (refType : QualType)
  | struct (isConst : Bool) (declName : String)
  | enum (isConst : Bool) (declName : String)
  | function (isConst : Bool) (declName : String)
  | package (isConst : Bool)
/-- Modelled from the spec: what the emitter reads through a back-reference to a
declaration (AST/Decl.h is not among the sources): its kind, its name, its module
(absent for a local declaration) and its type. -/
inductive Decl where
  | mk (kind : DeclKind) (name : String) (module : Option Module) (type : QualType)
/-- Modelled from the spec: expressions (AST/Expr.h is not among the sources; spec 3),
with the fields that `EmitExpr` reads. A floating literal keeps its `%f` rendering;
a binary or unary operator keeps the spelling `OpCode2str` gives its opcode. -/
inductive Expr where
  | integerLiteral (value : Int)
  | floatingLiteral (text : String)
  | booleanLiteral (value : Bool)
  | characterLiteral (value : Nat)
  | stringLiteral (value : String)
  | nil
  | call (fn : Expr) (args : List Expr)
  | identifier (name : String) (decl : Decl)
  | initList (values : List Expr)
  | type (t : QualType)
  | decl (hasLocalQualifier : Bool) (declType : QualType) (name : String)
      (initValue : Option Expr)
  | binaryOperator (opcodeStr : String) (lhs rhs : Expr)
  | conditionalOperator (cond lhs rhs : Expr)
  | unaryOperator (opcode : UnaryOpcode) (opcodeStr : String) (e : Expr)
  | builtin (isSizeof : Bool) (e : Expr)
  | arraySubscript (base index : Expr)
  | member (isModulePrefix : Bool) (decl : Decl) (base : Expr) (isArrow : Bool)
      (memberName : String)
  | paren (e : Expr)
end

/-- The `getKind()` of a referenced declaration. -/
def Decl.kind : Decl → DeclKind
  | Decl.mk k _ _ _ => k

/-- The `getName()` of a referenced declaration. -/
def Decl.name : Decl → String
  | Decl.mk _ n _ _ => n

/-- The `getModule()` of a referenced declaration, `none` for a null pointer. -/
def Decl.module : Decl → Option Module
  | Decl.mk _ _ m _ => m

/-- The `getType()` of a referenced declaration. -/
def Decl.type : Decl → QualType
  | Decl.mk _ _ _ t => t

/-- The flag `QualType::isConstQualified()`. -/
def QualType.isConstQualified : QualType → Bool
  | QualType.builtin c _ => c
  | QualType.pointer c _ => c
  | QualType.array c _ _ => c
  | QualType.unresolved c _ => c
  | QualType.alias c _ _ => c
  | QualType.struct c _ => c
  | QualType.enum c _ => c
  | QualType.function c _ => c
  | QualType.package c => c

/-- Modelled from the spec: `QualType::getCanonicalType()` (AST/Type.h is not among the
sources) resolves aliases (spec 3: canonical after alias resolution). -/
def QualType.getCanonicalType : QualType → QualType
  | QualType.alias _ _ r => r.getCanonicalType
  | t => t

/-- Modelled from the spec: `QualType::isArrayType()`; the type is an array once its
aliases are resolved (the comment in `EmitTypePostName`: the type can be an AliasType). -/
def QualType.isArrayType (t : QualType) : Bool :=
  match t.getCanonicalType with
  | QualType.array _ _ _ => true
  | _ => false

/-- The test `values[i]->getKind() == EXPR_INITLIST`. -/
def Expr.isInitList : Expr → Bool
  | Expr.initList _ => true
  | _ => false

/-- The emitter's configuration and cursor: the fields of `CCodeGenerator` that the
emission routines read. -/
structure CCodeGenerator where
  filename : String
  curmod : String
  mode : Mode
  no_local_prefix : Bool
deriving DecidableEq, Repr

/-! ## Name mangling -/

/-- Modelled from the spec: `GenUtils::addName` (Utils/GenUtils.cpp is not among the
sources). Spec 4.2: a mangled name is module, underscore, name, and `main` is never
prefixed. -/
def GenUtils.addName (modName name : String) (buffer : Sink) : Emit :=
  if name = "main" then write buffer name
  else write buffer (modName ++ "_" ++ name)

/-- The method `CCodeGenerator::addPrefix`. -/
def addPrefix (G : CCodeGenerator) (modName name : String) (buffer : Sink) : Emit :=
  if modName = "" then write buffer name
  else if CCodeGenerator.no_local_prefix G = true ∧ modName = G.curmod then write buffer name
  else GenUtils.addName modName name buffer

/-- The method `CCodeGenerator::EmitDecl`. -/
def EmitDecl (G : CCodeGenerator) (D : Decl) (output : Sink) : Emit :=
  match D.module with
  | some M => addPrefix G M.cname D.name output
  | none => write output D.name

/-! ## Literals -/

/-- The cast `(int)` applied to the 64-bit value of an integer literal. -/
def castToInt (v : Int) : Int := (v + 2147483648) % 4294967296 - 2147483648

/-- One step of the `switch (*cp)` of `EmitStringLiteral`. -/
def escapeChar (c : Char) : String :=
  if c = Char.ofNat 10 then "\\n"
  else if c = Char.ofNat 13 then "\\r"
  else if c = Char.ofNat 9 then "\\t"
  else if c = Char.ofNat 27 then "\\033"
  else String.singleton c

/-- The method `CCodeGenerator::EmitStringLiteral`. -/
def EmitStringLiteral (input : String) (output : Sink) : Emit :=
  write output "\"" >=> write output (String.join (input.data.map escapeChar))
    >=> write output "\""

/-- The table `builtin2cname`. -/
def builtin2cname : List String :=
  ["char", "short", "int", "long long", "unsigned char", "unsigned short",
   "unsigned int", "unsigned long long", "float", "double", "int", "void"]

/-- The statement `output << builtin2cname[kind]`; an index outside the table aborts. -/
def writeBuiltin (kind : BuiltinKind) (output : Sink) : Emit :=
  match builtin2cname.get? kind.toNat with
  | some s => write output s
  | none => abort

/-! ## Expressions and types -/

mutual
/-- The method `CCodeGenerator::EmitExpr`, with `EmitBinaryOperator`,
`EmitConditionalOperator`, `EmitUnaryOperator`, `EmitMemberExpr`, `EmitDeclExpr`,
`EmitCallExpr` and `EmitIdentifierExpr` in place at their case. -/
def EmitExpr (G : CCodeGenerator) : Expr → Sink → Emit
  | Expr.integerLiteral v, output => write output (toString (castToInt v))
  | Expr.floatingLiteral t, output => write output t
  | Expr.booleanLiteral v, _ => write Sink.cbuf (if v then "1" else "0")
  | Expr.characterLiteral v, output =>
      write output "'" >=> write output (String.singleton (Char.ofNat (v % 256)))
        >=> write output "'"
  | Expr.stringLiteral s, output => EmitStringLiteral s output
  | Expr.nil, output => write output "NULL"
  | Expr.call fn args, output =>
      EmitExpr G fn output >=> write output "(" >=> EmitCallArgs G args true output
        >=> write output ")"
  | Expr.identifier _ D, output => EmitDecl G D output
  | Expr.initList values, output =>
      write output "\x7b " >=> EmitInitValues G values true output >=> write output " \x7d"
  | Expr.type t, output => EmitTypePreName G t output >=> EmitTypePostName G t output
  | Expr.decl hasLocal t name init, output =>
      indent output 0 >=> writeIf hasLocal output "static " >=> EmitTypePreName G t output
        >=> write output " " >=> write output name >=> EmitTypePostName G t output
        >=> EmitInitValue G init output
  | Expr.binaryOperator op lhs rhs, output =>
      EmitExpr G lhs output >=> write output " " >=> write output op >=> write output " "
        >=> EmitExpr G rhs output
  | Expr.conditionalOperator c lhs rhs, output =>
      EmitExpr G c output >=> write output " ? " >=> EmitExpr G lhs output
        >=> write output " : " >=> EmitExpr G rhs output
  | Expr.unaryOperator opcode op e, output =>
      match opcode with
      | UnaryOpcode.UO_PostInc => EmitExpr G e output >=> write output op
      | UnaryOpcode.UO_PostDec => EmitExpr G e output >=> write output op
      | UnaryOpcode.UO_Other => abort
      | _ => write output op >=> EmitExpr G e output
  | Expr.builtin isSizeof e, output =>
      if isSizeof then
        write output "sizeof(" >=> EmitExpr G e output >=> write output ")"
      else
        match e with
        | Expr.identifier name D =>
            match D.kind with
            | DeclKind.DECL_FUNC => abort
            | DeclKind.DECL_VAR =>
                if D.type.isArrayType then
                  write output "sizeof(" >=> write output name >=> write output ")/sizeof("
                    >=> write output name >=> write output "[0])"
                else abort
            | DeclKind.DECL_ENUMVALUE => skip
            | _ => abort
        | _ => abort
  | Expr.arraySubscript base index, output =>
      EmitExpr G base output >=> write output "[" >=> EmitExpr G index output
        >=> write output "]"
  | Expr.member isModulePrefix D base isArrow memberName, output =>
      if isModulePrefix then EmitDecl G D output
      else
        EmitExpr G base Sink.cbuf >=> write Sink.cbuf (if isArrow then "->" else ".")
          >=> write Sink.cbuf memberName
  | Expr.paren e, _ =>
      write Sink.cbuf "(" >=> EmitExpr G e Sink.cbuf >=> write Sink.cbuf ")"
/-- The argument loop of `EmitCallExpr`; `first` is `i == 0`. -/
def EmitCallArgs (G : CCodeGenerator) : List Expr → Bool → Sink → Emit
  | [], _, _ => skip
  | a :: rest, first, output =>
      writeIf (!first) output ", " >=> EmitExpr G a output >=> EmitCallArgs G rest false output
/-- The loop of the `EXPR_INITLIST` case; `first` is `i == 0`, and `i != size - 1`
is that there are values left. -/
def EmitInitValues (G : CCodeGenerator) : List Expr → Bool → Sink → Emit
  | [], _, _ => skip
  | v :: rest, first, output =>
      writeIf (first && v.isInitList) output "\n" >=> EmitExpr G v output
        >=> writeIf (!rest.isEmpty) output ", " >=> writeIf v.isInitList output "\n"
        >=> EmitInitValues G rest false output
/-- The statement `if (init) { output << " = "; EmitExpr(init, output); }`. -/
def EmitInitValue (G : CCodeGenerator) : Option Expr → Sink → Emit
  | none, _ => skip
  | some e, output => write output " = " >=> EmitExpr G e output
/-- The method `CCodeGenerator::EmitTypePreName`. -/
def EmitTypePreName (G : CCodeGenerator) : QualType → Sink → Emit
  | QualType.builtin c kind, output => writeIf c output "const " >=> writeBuiltin kind output
  | QualType.pointer c pointee, output =>
      writeIf c output "const " >=> EmitTypePreName G pointee output >=> write output "*"
  | QualType.array c element _, output =>
      writeIf c output "const " >=> EmitTypePreName G element output
  | QualType.unresolved c literal, output => writeIf c output "const " >=> write output literal
  | QualType.alias c _ refType, output =>
      writeIf c output "const " >=> EmitTypePreName G refType output
  | QualType.struct c declName, output => writeIf c output "const " >=> write output declName
  | QualType.enum c declName, output => writeIf c output "const " >=> write output declName
  | QualType.function c declName, output => writeIf c output "const " >=> write output declName
  | QualType.package c, output => writeIf c output "const " >=> abort
/-- The method `CCodeGenerator::EmitTypePostName`. The source tests `isArrayType()`
and then works on the canonical type; an alias has the canonical type of the type
it refers to, so the alias case continues with that type. -/
def EmitTypePostName (G : CCodeGenerator) : QualType → Sink → Emit
  | QualType.array _ element sizeExpr, output =>
      EmitTypePostName G element output >=> write output "["
        >=> EmitSizeExpr G sizeExpr output >=> write output "]"
  | QualType.alias _ _ refType, output => EmitTypePostName G refType output
  | _, _ => skip
/-- The statement `if (A->getSizeExpr()) EmitExpr(A->getSizeExpr(), output);`. -/
def EmitSizeExpr (G : CCodeGenerator) : Option Expr → Sink → Emit
  | none, _ => skip
  | some e, output => EmitExpr G e output
end

/-! ## Declarations and statements of the AST -/

/-- Modelled from the spec: a variable declaration (AST/Decl.h is not among the
sources; spec 3): a module-level variable, a function argument or a struct
member. -/
structure VarDecl where
  name : String
  type : QualType
  initValue : Option Expr
  isPublic : Bool
  hasLocalQualifier : Bool

/-- Modelled from the spec: statements (AST/Stmt.h is not among the sources; spec 3).
An expression used as a statement is `exprStmt`; the conditions of `while` and `do`
and the init part of `for` are statements that the emitter casts to `Expr`. -/
inductive Stmt where
  | returnStmt (e : Option Expr)
  | exprStmt (e : Expr)
  | ifStmt (cond : Expr) (thenStmt : Stmt) (elseStmt : Option Stmt)
  | whileStmt (cond : Stmt) (body : Stmt)
  | doStmt (cond : Stmt) (body : Stmt)
  | forStmt (init : Option Stmt) (cond : Option Expr) (incr : Option Expr) (body : Stmt)
  | switchStmt (cond : Expr) (cases : List Stmt)
  | caseStmt (cond : Expr) (stmts : List Stmt)
  | defaultStmt (stmts : List Stmt)
  | breakStmt
  | continueStmt
  | labelStmt (name : String) (subStmt : Stmt)
  | gotoStmt (name : String)
  | compoundStmt (stmts : List Stmt)

/-- Modelled from the spec: a function declaration (spec 3); `body` holds the
statements of its compound body. -/
structure FunctionDecl where
  name : String
  returnType : QualType
  args : List VarDecl
  isVariadic : Bool
  isPublic : Bool
  body : List Stmt

mutual
/-- Modelled from the spec: a struct or union declaration (spec 3). -/
inductive StructTypeDecl where
  | mk (name : String) (isStruct : Bool) (isGlobal : Bool) (isPublic : Bool)
      (members : List MemberDecl)
/-- Modelled from the spec: a member of a struct (spec 3): a variable, a nested
struct or union, or a declaration of another kind (which `EmitStructType`
rejects). -/
inductive MemberDecl where
  | var (V : VarDecl)
  | structType (S : StructTypeDecl)
  | other (kind : DeclKind)
end

/-- Modelled from the spec: an enum constant with its optional initialiser (spec 3). -/
structure EnumConstantDecl where
  name : String
  initValue : Option Expr

/-- Modelled from the spec: an enum type declaration (spec 3). -/
structure EnumTypeDecl where
  name : String
  isPublic : Bool
  constants : List EnumConstantDecl

/-- Modelled from the spec: a type declaration as `EmitTypeDecl` receives it (spec 3):
alias, struct or union, enum, or function type. -/
inductive TypeDecl where
  | aliasType (name : String) (type : QualType) (isPublic : Bool)
  | structType (S : StructTypeDecl)
  | enumType (E : EnumTypeDecl)
  | functionType (F : FunctionDecl) (isPublic : Bool)

/-- The flag `isPublic()` of a struct declaration. -/
def StructTypeDecl.isPublic : StructTypeDecl → Bool
  | StructTypeDecl.mk _ _ _ p _ => p

/-- The flag `isGlobal()` of a struct declaration. -/
def StructTypeDecl.isGlobal : StructTypeDecl → Bool
  | StructTypeDecl.mk _ _ g _ _ => g

/-- The flag `isPublic()` of a type declaration. -/
def TypeDecl.isPublic : TypeDecl → Bool
  | TypeDecl.aliasType _ _ p => p
  | TypeDecl.structType S => S.isPublic
  | TypeDecl.enumType E => E.isPublic
  | TypeDecl.functionType _ p => p

/-! ## Variables, arguments, types -/

/-- The method `CCodeGenerator::EmitVarDecl`. -/
def EmitVarDecl (G : CCodeGenerator) (D : VarDecl) (output : Sink) (ind : Nat) : Emit :=
  indent output ind >=> EmitTypePreName G D.type output >=> write output " "
    >=> write output D.name >=> EmitTypePostName G D.type output
    >=> EmitInitValue G D.initValue output

/-- The loop of `EmitFunctionArgs`; `count` is its counter. -/
def EmitArgsLoop (G : CCodeGenerator) : List VarDecl → Int → Sink → Emit
  | [], _, _ => skip
  | A :: rest, count, output =>
      EmitVarDecl G A output 0 >=> writeIf (decide (count ≠ 1)) output ", "
        >=> EmitArgsLoop G rest (count - 1) output

/-- The method `CCodeGenerator::EmitFunctionArgs`. -/
def EmitFunctionArgs (G : CCodeGenerator) (F : FunctionDecl) (output : Sink) : Emit :=
  write output "("
    >=> EmitArgsLoop G F.args ((F.args.length : Int) + (if F.isVariadic then 1 else 0)) output
    >=> writeIf F.isVariadic output "..." >=> write output ")"

/-- The method `CCodeGenerator::EmitFunctionProto`. -/
def EmitFunctionProto (G : CCodeGenerator) (F : FunctionDecl) (output : Sink) : Emit :=
  writeIf (decide (G.mode = Mode.SINGLE_FILE ∧ F.name ≠ "main")) output "static "
    >=> EmitTypePreName G F.returnType output >=> EmitTypePostName G F.returnType output
    >=> write output " " >=> addPrefix G G.curmod F.name output
    >=> EmitFunctionArgs G F output

/-- The method `CCodeGenerator::EmitVariable`. -/
def EmitVariable (G : CCodeGenerator) (V : VarDecl) : Emit :=
  (if V.isPublic = true ∧ G.mode ≠ Mode.SINGLE_FILE then
      write Sink.hbuf "extern " >=> EmitTypePreName G V.type Sink.hbuf
        >=> write Sink.hbuf " " >=> addPrefix G G.curmod V.name Sink.hbuf
        >=> EmitTypePostName G V.type Sink.hbuf
        >=> write Sink.hbuf ";\n" >=> write Sink.hbuf "\n"
    else write Sink.cbuf "static ")
    >=> EmitTypePreName G V.type Sink.cbuf >=> write Sink.cbuf " "
    >=> addPrefix G G.curmod V.name Sink.cbuf >=> EmitTypePostName G V.type Sink.cbuf
    >=> EmitInitValue G V.initValue Sink.cbuf
    >=> write Sink.cbuf ";\n" >=> write Sink.cbuf "\n"

mutual
/-- The method `CCodeGenerator::EmitStructType`. -/
def EmitStructType (G : CCodeGenerator) : StructTypeDecl → Sink → Nat → Emit
  | StructTypeDecl.mk name isStruct isGlobal _ members, out, ind =>
      indent out ind >=> writeIf isGlobal out "typedef "
        >=> write out (if isStruct then "struct " else "union ") >=> write out "\x7b\n"
        >=> EmitStructMembers G members out ind
        >=> indent out ind >=> write out "\x7d"
        >=> (if name ≠ "" then write out " " >=> write out name else skip)
        >=> write out ";\n" >=> writeIf isGlobal out "\n"
/-- The member loop of `EmitStructType`. -/
def EmitStructMembers (G : CCodeGenerator) : List MemberDecl → Sink → Nat → Emit
  | [], _, _ => skip
  | MemberDecl.var V :: rest, out, ind =>
      EmitVarDecl G V out (ind + INDENT) >=> write out ";\n"
        >=> EmitStructMembers G rest out ind
  | MemberDecl.structType S :: rest, out, ind =>
      EmitStructType G S out (ind + INDENT) >=> EmitStructMembers G rest out ind
  | MemberDecl.other _ :: _, _, _ => abort
end

/-- The constant loop of `EmitEnumType`. -/
def EmitEnumConstants (G : CCodeGenerator) : List EnumConstantDecl → Sink → Emit
  | [], _ => skip
  | C :: rest, output =>
      indent output INDENT >=> addPrefix G G.curmod C.name output
        >=> EmitInitValue G C.initValue output >=> write output ",\n"
        >=> EmitEnumConstants G rest output

/-- The method `CCodeGenerator::EmitEnumType`. -/
def EmitEnumType (G : CCodeGenerator) (E : EnumTypeDecl) (output : Sink) : Emit :=
  write output "typedef enum \x7b\n" >=> EmitEnumConstants G E.constants output
    >=> write output "\x7d " >=> write output E.name >=> write output ";\n\n"

/-- The method `CCodeGenerator::EmitFunctionType`. -/
def EmitFunctionType (G : CCodeGenerator) (F : FunctionDecl) (output : Sink) : Emit :=
  write output "typedef " >=> EmitTypePreName G F.returnType output
    >=> EmitTypePostName G F.returnType output
    >=> write output " (*" >=> write output F.name >=> write output ")"
    >=> EmitFunctionArgs G F output >=> write output ";\n\n"

/-- The method `CCodeGenerator::EmitTypeDecl`; `out` is the buffer it selects. -/
def EmitTypeDecl (G : CCodeGenerator) (T : TypeDecl) : Emit :=
  let out : Sink := if T.isPublic then Sink.hbuf else Sink.cbuf
  match T with
  | TypeDecl.aliasType name type _ =>
      write out "typedef " >=> EmitTypePreName G type out >=> write out " "
        >=> addPrefix G G.curmod name out >=> EmitTypePostName G type out
        >=> write out ";\n\n"
  | TypeDecl.structType S => EmitStructType G S (if T.isPublic then Sink.hbuf else Sink.cbuf) 0
  | TypeDecl.enumType E => EmitEnumType G E (if T.isPublic then Sink.hbuf else Sink.cbuf)
  | TypeDecl.functionType F _ =>
      EmitFunctionType G F (if T.isPublic then Sink.hbuf else Sink.cbuf)

/-! ## Statements -/

/-- The test `S->getKind() == STMT_COMPOUND`. -/
def Stmt.isCompound : Stmt → Bool
  | Stmt.compoundStmt _ => true
  | _ => false

/-- The cast `cast<Expr>(S)` of a statement; it fails on every other statement. -/
def Stmt.castExpr : Stmt → Option Expr
  | Stmt.exprStmt e => some e
  | _ => none

/-- The statement `EmitExpr(cast<Expr>(S), cbuf)`. -/
def EmitCastExpr (G : CCodeGenerator) (S : Stmt) : Emit :=
  match S.castExpr with
  | some e => EmitExpr G e Sink.cbuf
  | none => abort

/-- The statement `if (E) { cbuf << ' '; EmitExpr(E, cbuf); }`, used for the value
of `return` and for the condition and increment of `for`. -/
def EmitOptExpr (G : CCodeGenerator) : Option Expr → Emit
  | none => skip
  | some e => write Sink.cbuf " " >=> EmitExpr G e Sink.cbuf

/-- The text of `EmitCompoundStmt` around the statements `inner` of the block. -/
def compoundBlock (inner : Emit) (ind : Nat) (startOnNewLine : Bool) : Emit :=
  (if startOnNewLine then indent Sink.cbuf ind else skip) >=> write Sink.cbuf "\x7b\n"
    >=> inner >=> indent Sink.cbuf ind >=> write Sink.cbuf "\x7d\n"

mutual
/-- The method `CCodeGenerator::EmitStmt`, with `EmitIfStmt`, `EmitWhileStmt`,
`EmitDoStmt`, `EmitForStmt` and `EmitSwitchStmt` in place at their case. -/
def EmitStmt (G : CCodeGenerator) : Stmt → Nat → Emit
  | Stmt.returnStmt e, ind =>
      indent Sink.cbuf ind >=> write Sink.cbuf "return" >=> EmitOptExpr G e
        >=> write Sink.cbuf ";\n"
  | Stmt.exprStmt e, ind =>
      indent Sink.cbuf ind >=> EmitExpr G e Sink.cbuf >=> write Sink.cbuf ";\n"
  | Stmt.ifStmt cond thenStmt elseStmt, ind =>
      indent Sink.cbuf ind >=> write Sink.cbuf "if (" >=> EmitExpr G cond Sink.cbuf
        >=> write Sink.cbuf ")\n" >=> EmitStmt G thenStmt ind
        >=> EmitElse G elseStmt ind
  | Stmt.whileStmt cond body, ind =>
      indent Sink.cbuf ind >=> write Sink.cbuf "while (" >=> EmitCastExpr G cond
        >=> write Sink.cbuf ") " >=> (if body.isCompound then EmitCompoundCast G body ind false else EmitStmt G body 0)
  | Stmt.doStmt cond body, ind =>
      indent Sink.cbuf ind >=> write Sink.cbuf "do " >=> (if body.isCompound then EmitCompoundCast G body ind false else EmitStmt G body 0)
        >=> indent Sink.cbuf ind >=> write Sink.cbuf "while (" >=> EmitCastExpr G cond
        >=> write Sink.cbuf ");\n"
  | Stmt.forStmt init cond incr body, ind =>
      indent Sink.cbuf ind >=> write Sink.cbuf "for ("
        >=> (match init with
             | some i => EmitCastExpr G i
             | none => skip)
        >=> write Sink.cbuf ";" >=> EmitOptExpr G cond
        >=> write Sink.cbuf ";" >=> EmitOptExpr G incr
        >=> write Sink.cbuf ") " >=> (if body.isCompound then EmitCompoundCast G body ind false else EmitStmt G body 0)
  | Stmt.switchStmt cond cases, ind =>
      indent Sink.cbuf ind >=> write Sink.cbuf "switch (" >=> EmitExpr G cond Sink.cbuf
        >=> write Sink.cbuf ") \x7b\n" >=> EmitCases G cases ind
        >=> indent Sink.cbuf ind >=> write Sink.cbuf "\x7d\n"
  | Stmt.caseStmt _ _, _ => abort
  | Stmt.defaultStmt _, _ => abort
  | Stmt.breakStmt, ind => indent Sink.cbuf ind >=> write Sink.cbuf "break;\n"
  | Stmt.continueStmt, ind => indent Sink.cbuf ind >=> write Sink.cbuf "continue;\n"
  | Stmt.labelStmt name subStmt, ind =>
      write Sink.cbuf name >=> write Sink.cbuf ":\n" >=> EmitStmt G subStmt ind
  | Stmt.gotoStmt name, ind =>
      indent Sink.cbuf ind >=> write Sink.cbuf "goto " >=> write Sink.cbuf name
        >=> write Sink.cbuf ";\n"
  | Stmt.compoundStmt stmts, ind =>
      compoundBlock (EmitStmtList G stmts (ind + INDENT)) ind true
/-- The call `EmitCompoundStmt(cast<CompoundStmt>(S), indent, startOnNewLine)`. -/
def EmitCompoundCast (G : CCodeGenerator) : Stmt → Nat → Bool → Emit
  | Stmt.compoundStmt stmts, ind, startOnNewLine =>
      compoundBlock (EmitStmtList G stmts (ind + INDENT)) ind startOnNewLine
  | _, _, _ => abort
/-- The loop `for (i...) EmitStmt(Stmts[i], indent)`. -/
def EmitStmtList (G : CCodeGenerator) : List Stmt → Nat → Emit
  | [], _ => skip
  | S :: rest, ind => EmitStmt G S ind >=> EmitStmtList G rest ind
/-- The statement `if (I->getElse()) { ... }` of `EmitIfStmt`. -/
def EmitElse (G : CCodeGenerator) : Option Stmt → Nat → Emit
  | none, _ => skip
  | some S, ind => indent Sink.cbuf ind >=> write Sink.cbuf "else\n" >=> EmitStmt G S ind
/-- The case loop of `EmitSwitchStmt`. -/
def EmitCases (G : CCodeGenerator) : List Stmt → Nat → Emit
  | [], _ => skip
  | Stmt.caseStmt cond stmts :: rest, ind =>
      indent Sink.cbuf (ind + INDENT) >=> write Sink.cbuf "case "
        >=> EmitExpr G cond Sink.cbuf >=> write Sink.cbuf ":\n"
        >=> EmitStmtList G stmts (ind + INDENT + INDENT) >=> EmitCases G rest ind
  | Stmt.defaultStmt stmts :: rest, ind =>
      indent Sink.cbuf (ind + INDENT) >=> write Sink.cbuf "default:\n"
        >=> EmitStmtList G stmts (ind + INDENT + INDENT) >=> EmitCases G rest ind
  | _ :: _, _ => abort
end

/-- The method `CCodeGenerator::EmitCompoundStmt`. -/
def EmitCompoundStmt (G : CCodeGenerator) (stmts : List Stmt) (ind : Nat)
    (startOnNewLine : Bool) : Emit :=
  compoundBlock (EmitStmtList G stmts (ind + INDENT)) ind startOnNewLine

/-- The method `CCodeGenerator::EmitFunction`. -/
def EmitFunction (G : CCodeGenerator) (F : FunctionDecl) : Emit :=
  (if G.mode = Mode.SINGLE_FILE then
      EmitFunctionProto G F Sink.hbuf >=> write Sink.hbuf ";\n\n"
    else if F.isPublic then
      EmitFunctionProto G F Sink.hbuf >=> write Sink.hbuf ";\n\n"
    else write Sink.cbuf "static ")
    >=> EmitFunctionProto G F Sink.cbuf >=> write Sink.cbuf " "
    >=> EmitCompoundStmt G F.body 0 false >=> write Sink.cbuf "\n"

/-! ## The driver: `generate` and `EmitIncludes` -/

/-- Modelled from the spec: an import declaration (AST/Decl.h is not among the
sources; spec 3), with the name of the imported module. -/
structure ImportDecl where
  moduleName : String

/-- Modelled from the spec: the AST of one module (AST/AST.h is not among the
sources): its module name and its imports, types, variables and functions, each in
declaration order. -/
structure AST where
  moduleName : String
  imports : List ImportDecl
  types : List TypeDecl
  vars : List VarDecl
  functions : List FunctionDecl

/-- Modelled from the spec: the resolved module map `Modules` (spec 6: name to module
descriptor), seen through `modules.find(name)`; `none` is `modules.end()`. -/
abbrev Modules := String → Option Module

/-- The order `std::less<std::string>` of a `std::set<std::string>`: lexicographic
on the characters, which is the order `<` of `String`. -/
def strLess (x y : String) : Prop := x.data < y.data

instance (x y : String) : Decidable (strLess x y) := by
  unfold strLess; infer_instance

/-- The call `set.insert(x)` on a `std::set<std::string>`, the set being the
ascending sequence of its elements: `x` is put at its place unless it is there. -/
def setInsert (x : String) : List String → List String
  | [] => [x]
  | y :: ys =>
      if strLess x y then x :: y :: ys
      else if x = y then y :: ys
      else y :: setInsert x ys

/-- The inner loop of `EmitIncludes` over the imports of one AST; the state is the
pair `systemIncludes`, `localIncludes`, and `none` is the failed
`assert(iter != modules.end())`. -/
def collectImports (G : CCodeGenerator) (modules : Modules) :
    List ImportDecl → List String × List String → Option (List String × List String)
  | [], acc => some acc
  | D :: rest, acc =>
      match modules D.moduleName with
      | none => none
      | some P =>
          if P.isPlainC then collectImports G modules rest (setInsert P.name acc.1, acc.2)
          else if G.mode = Mode.MULTI_FILE then
            collectImports G modules rest (acc.1, setInsert P.name acc.2)
          else collectImports G modules rest acc

/-- The outer loop of `EmitIncludes` over the ASTs. -/
def collectIncludes (G : CCodeGenerator) (modules : Modules) :
    List AST → List String × List String → Option (List String × List String)
  | [], acc => some acc
  | ast :: rest, acc =>
      match collectImports G modules ast.imports acc with
      | none => none
      | some acc1 => collectIncludes G modules rest acc1

/-- One of the two output loops of `EmitIncludes`, over the elements of a set in
ascending order: `cbuf << before << *iter << after`, where `before` is `#include <`
or `#include "` and `after` closes the line. -/
def EmitIncludeLoop (before after : String) : List String → Emit
  | [] => skip
  | n :: rest =>
      write Sink.cbuf before >=> write Sink.cbuf n >=> write Sink.cbuf after
        >=> EmitIncludeLoop before after rest

/-- The method `CCodeGenerator::EmitIncludes`; `modules` and `entries` are the
fields of the emitter with these names. -/
def EmitIncludes (G : CCodeGenerator) (modules : Modules) (entries : List AST) : Emit :=
  match collectIncludes G modules entries ([], []) with
  | none => abort
  | some acc =>
      EmitIncludeLoop "#include <" ".h>\n" acc.1
        >=> EmitIncludeLoop "#include \"" ".h\"\n" acc.2
        >=> write Sink.cbuf "\n"

/-- Modelled from the spec: one character of `GenUtils::toCapital` (Utils/GenUtils.cpp
is not among the sources). Spec 4.2: uppercased, dots replaced with underscores. -/
def GenUtils.capitalChar (c : Char) : Char :=
  if c = Char.ofNat 46 then Char.ofNat 95 else c.toUpper

/-- Modelled from the spec: the text `GenUtils::toCapital` derives from a file name,
the include-guard token (spec 4.2). -/
def GenUtils.capital (input : String) : String :=
  String.mk (input.data.map GenUtils.capitalChar)

/-- Modelled from the spec: `GenUtils::toCapital(input, output)` appends that token
to the buffer. -/
def GenUtils.toCapital (input : String) (output : Sink) : Emit :=
  write output (GenUtils.capital input)

/-- The assignment `curmod = &ast->getModuleName()`. -/
def CCodeGenerator.withCurmod (G : CCodeGenerator) (moduleName : String) : CCodeGenerator :=
  CCodeGenerator.mk G.filename moduleName G.mode (CCodeGenerator.no_local_prefix G)

/-- A loop `for (i = 0; i < n; i++) emit(item(i))` over the items of a list. -/
def forEach {α : Type} (emit : α → Emit) : List α → Emit
  | [] => skip
  | x :: rest => emit x >=> forEach emit rest

/-- One of the three passes of `generate`: for every AST in `entries`, set `curmod`
to its module name and emit its items in order. -/
def generatePass {α : Type} (G : CCodeGenerator) (items : AST → List α)
    (emit : CCodeGenerator → α → Emit) : List AST → Emit
  | [] => skip
  | ast :: rest =>
      forEach (emit (G.withCurmod ast.moduleName)) (items ast)
        >=> generatePass G items emit rest

/-- The part of `generate` between the include guard and `#endif`: the includes,
then the types, the variables and the functions of all ASTs. -/
def generateBody (G : CCodeGenerator) (modules : Modules) (entries : List AST) : Emit :=
  EmitIncludes G modules entries
    >=> generatePass G AST.types EmitTypeDecl entries
    >=> generatePass G AST.vars EmitVariable entries
    >=> generatePass G AST.functions EmitFunction entries

/-- The method `CCodeGenerator::generate`. -/
def generate (G : CCodeGenerator) (modules : Modules) (entries : List AST) : Emit :=
  write Sink.hbuf "#ifndef " >=> GenUtils.toCapital G.filename Sink.hbuf
    >=> write Sink.hbuf "_H\n"
    >=> write Sink.hbuf "#define " >=> GenUtils.toCapital G.filename Sink.hbuf
    >=> write Sink.hbuf "_H\n" >=> write Sink.hbuf "\n"
    >=> generateBody G modules entries
    >=> write Sink.hbuf "#endif\n"

/-! ## The legacy path: `Stmt.cpp` and `Type.cpp` -/

/-- A legacy routine works on the one `StringBuilder& buffer` it is given; `none` is
an abort (a failed `assert`, a null pointer dereferenced). -/
abbrev LegacyEmit := String → Option String

/-- The statement `buffer << s`. -/
def lwrite (s : String) : LegacyEmit := fun buffer => some (buffer ++ s)

/-- The statement `buffer.indent(n)`. -/
def lindent (n : Nat) : LegacyEmit := lwrite (String.mk (List.replicate n (Char.ofNat 32)))

/-- No statement executed on the buffer. -/
def lskip : LegacyEmit := fun buffer => some buffer

/-- A failed `assert`, or a call through a null pointer. -/
def labort : LegacyEmit := fun _ => none

mutual
/-- The methods `generateC(indent, buffer)` of `Stmt.cpp`: `ReturnStmt`, `IfStmt`,
`WhileStmt`, `DoStmt` (it only prints a TODO note to stdout), `BreakStmt`,
`ContinueStmt` and `CompoundStmt`. `Expr::generateC` is defined outside the sources
and is the parameter `exprC`; the statement classes that `Stmt.cpp` does not define
are left to the parameter `otherC`. -/
def Stmt.generateC (exprC : Expr → Nat → LegacyEmit) (otherC : Stmt → Nat → LegacyEmit) :
    Stmt → Nat → LegacyEmit
  | Stmt.returnStmt value, indent =>
      lindent indent >=> lwrite "return"
        >=> (match value with
             | some v => lwrite " " >=> exprC v 0
             | none => lskip)
        >=> lwrite ";\n"
  | Stmt.ifStmt cond thenStmt elseStmt, indent =>
      lindent indent >=> lwrite "if (" >=> exprC cond 0 >=> lwrite ")\n"
        >=> Stmt.generateC exprC otherC thenStmt indent
        >=> generateCElse exprC otherC elseStmt indent
  | Stmt.whileStmt cond body, indent =>
      lindent indent >=> lwrite "while(" >=> Stmt.generateC exprC otherC cond 0
        >=> lwrite ")\n" >=> Stmt.generateC exprC otherC body indent
  | Stmt.doStmt _ _, _ => lskip
  | Stmt.breakStmt, indent => lindent indent >=> lwrite "break;\n"
  | Stmt.continueStmt, indent => lindent indent >=> lwrite "continue;\n"
  | Stmt.compoundStmt stmts, indent =>
      lindent indent >=> lwrite "\x7b\n" >=> generateCList exprC otherC stmts (indent + INDENT)
        >=> lindent indent >=> lwrite "\x7d\n"
  | Stmt.exprStmt e, indent => exprC e indent
  | Stmt.forStmt init cond incr body, indent =>
      otherC (Stmt.forStmt init cond incr body) indent
  | Stmt.switchStmt cond cases, indent => otherC (Stmt.switchStmt cond cases) indent
  | Stmt.caseStmt cond stmts, indent => otherC (Stmt.caseStmt cond stmts) indent
  | Stmt.defaultStmt stmts, indent => otherC (Stmt.defaultStmt stmts) indent
  | Stmt.labelStmt name subStmt, indent => otherC (Stmt.labelStmt name subStmt) indent
  | Stmt.gotoStmt name, indent => otherC (Stmt.gotoStmt name) indent
/-- The statement `if (SubExprs[ELSE]) { ... }` of `IfStmt::generateC`. -/
def generateCElse (exprC : Expr → Nat → LegacyEmit) (otherC : Stmt → Nat → LegacyEmit) :
    Option Stmt → Nat → LegacyEmit
  | none, _ => lskip
  | some S, indent =>
      lindent indent >=> lwrite "else\n" >=> Stmt.generateC exprC otherC S indent
/-- The loop `for (i...) Body[i]->generateC(indent + INDENT, buffer)` of
`CompoundStmt::generateC`. -/
def generateCList (exprC : Expr → Nat → LegacyEmit) (otherC : Stmt → Nat → LegacyEmit) :
    List Stmt → Nat → LegacyEmit
  | [], _ => lskip
  | S :: rest, indent =>
      Stmt.generateC exprC otherC S indent >=> generateCList exprC otherC rest indent
end

/-- A `const char*` as held by the field `name` of the legacy class `Type`: the
address stored in the pointer and the text found at that address. `==` on two such
values in the source compares the addresses; `buffer << name` writes the text. -/
structure NamePtr where
  addr : Nat
  text : String

/-- The class `Type` of the legacy path with the fields that `isCompatible` and
`printName` of `Type.cpp` read (Type.h is not among the sources): the kind, the name
of a builtin (a `const char*`), the expression of a user type, the referred type of
a pointer, array or qualifier, the size expression of an array (`none` is the null
pointer) and the three qualifier flags. -/
inductive LegacyType where
  | builtin (name : NamePtr)
  | user (userType : Expr)
  | struct
  | union
  | enum
  | func
  | pointer (refType : LegacyType)
  | array (refType : LegacyType) (arrayExpr : Option Expr)
  | qualifier (isLocal isVolatile isConst : Bool) (refType : LegacyType)

/-- The method `Type::isCompatible`; `none` is a failed `assert(0 && "TODO")`. In the
BUILTIN case `name == t2.name` compares the two `const char*` pointers, not the
texts they point to. -/
def LegacyType.isCompatible : LegacyType → LegacyType → Option Bool
  | LegacyType.builtin name, LegacyType.builtin name2 => some (name.addr == name2.addr)
  | LegacyType.builtin _, _ => some false
  | LegacyType.user _, _ => none
  | LegacyType.struct, LegacyType.struct => none
  | LegacyType.struct, _ => some false
  | LegacyType.union, LegacyType.union => none
  | LegacyType.union, _ => some false
  | LegacyType.enum, LegacyType.enum => none
  | LegacyType.enum, _ => some false
  | LegacyType.func, LegacyType.func => none
  | LegacyType.func, _ => some false
  | LegacyType.pointer refType, LegacyType.pointer refType2 => refType.isCompatible refType2
  | LegacyType.pointer _, _ => some false
  | LegacyType.array refType _, LegacyType.array refType2 _ => refType.isCompatible refType2
  | LegacyType.array _ _, _ => some false
  | LegacyType.qualifier _ _ _ _, _ => some false

/-- The function `printArray` of `Type.cpp`. The `else` governs `buffer << '['` only:
`expr->print(0, buffer)` and `buffer << ']'` are executed in both cases, and with a
null `expr` the call goes through the null pointer. `Expr::print` is defined outside
the sources and is the parameter `exprPrint`. -/
def printArray (exprPrint : Expr → Nat → LegacyEmit) : Option Expr → LegacyEmit
  | none => lwrite "[]" >=> labort >=> lwrite "]"
  | some expr => lwrite "[" >=> exprPrint expr 0 >=> lwrite "]"

/-- The function `printQualifier` of `Type.cpp`, the flags `TYPE_LOCAL`,
`TYPE_VOLATILE` and `TYPE_CONST` tested in this order. -/
def printQualifier (isLocal isVolatile isConst : Bool) : LegacyEmit :=
  (if isLocal then lwrite "local " else lskip)
    >=> (if isVolatile then lwrite "volatile " else lskip)
    >=> (if isConst then lwrite "const " else lskip)

/-- The method `Type::printName`; `exprC` is `Expr::generateC`. -/
def LegacyType.printName (exprC exprPrint : Expr → Nat → LegacyEmit) :
    LegacyType → LegacyEmit
  | LegacyType.builtin name => lwrite name.text
  | LegacyType.struct => labort
  | LegacyType.union => labort
  | LegacyType.enum => labort
  | LegacyType.func => labort
  | LegacyType.user userType => exprC userType 0
  | LegacyType.pointer refType =>
      LegacyType.printName exprC exprPrint refType >=> lwrite "*"
  | LegacyType.array refType arrayExpr =>
      LegacyType.printName exprC exprPrint refType >=> printArray exprPrint arrayExpr
  | LegacyType.qualifier isLocal isVolatile isConst refType =>
      printQualifier isLocal isVolatile isConst
        >=> LegacyType.printName exprC exprPrint refType

/-! ## Predicates used in the statements -/

/-- Emission routine `f`, called with sink `output`, only appends: on every `b` it
aborts, or returns `b` followed by a text `d` that does not depend on `b`; and when
the sink is the source buffer, nothing is appended to the header. -/
def Frame (output : Sink) (f : Emit) : Prop :=
  ∃ d : Option Buffers, (∀ b, f b = d.map (fun x => b ++ x)) ∧
    (output = Sink.cbuf → ∀ x, d = some x → x.hbuf = "")

/-- Routine `f` appends the same text to whichever sink it is given, and nothing
else; `none` is an abort. -/
def Uniform (f : Sink → Emit) : Prop :=
  ∃ t : Option String, ∀ output b, f output b = t.map (fun s => b.put output s)

/-- A step that appends to the source buffer only: it aborts whatever the buffers
are, or leaves the header as it is and appends one text to the source. -/
def SourceOnly (f : Emit) : Prop :=
  ∃ t : Option String, ∀ b, f b = t.map (fun s => Buffers.mk b.hbuf (b.cbuf ++ s))

/-- The header text of every completed run of `f` on empty buffers ends with `s`. -/
def HeaderEnds (f : Emit) (s : String) : Prop :=
  ∀ x, appended f = some x → ∃ y, x.hbuf = y ++ s

/-- The expression is an integer literal. -/
def Expr.isIntegerLiteral : Expr → Bool
  | Expr.integerLiteral _ => true
  | _ => false

/-- An optional expression (array size, initialiser) is absent or an integer
literal. -/
def literalOrAbsent : Option Expr → Bool
  | none => true
  | some e => e.isIntegerLiteral

/-- Every array size expression of the type is absent or an integer literal. -/
def QualType.sizesAreLiteral : QualType → Bool
  | QualType.pointer _ pointee => pointee.sizesAreLiteral
  | QualType.array _ element sizeExpr => literalOrAbsent sizeExpr && element.sizesAreLiteral
  | QualType.alias _ _ refType => refType.sizesAreLiteral
  | _ => true

/-- The prototype of the function contains no expression other than integer
literals: the array sizes of the return type and of the argument types, and the
initialisers of the arguments, are integer literals or absent. -/
def FunctionDecl.protoIsLiteral (F : FunctionDecl) : Bool :=
  F.returnType.sizesAreLiteral &&
    F.args.all (fun A => A.type.sizesAreLiteral && literalOrAbsent A.initValue)

/-! ## Inputs of the scenarios -/

/-- The type `i32`. -/
def i32 : QualType := QualType.builtin false BuiltinKind.Int32

/-- Configuration of the spec's scenario 2: module `app`, single-file mode. -/
def appSingle : CCodeGenerator := CCodeGenerator.mk "app" "app" Mode.SINGLE_FILE false

/-- Module `app` in multi-file mode. -/
def appMulti : CCodeGenerator := CCodeGenerator.mk "app" "app" Mode.MULTI_FILE false

/-- Module `mod` in multi-file mode (scenario 1). -/
def modMulti : CCodeGenerator := CCodeGenerator.mk "mod" "mod" Mode.MULTI_FILE false

/-- Module `mod` in single-file mode. -/
def modSingle : CCodeGenerator := CCodeGenerator.mk "mod" "mod" Mode.SINGLE_FILE false

/-- Module `gfx` in multi-file mode (scenario 4). -/
def gfxMulti : CCodeGenerator := CCodeGenerator.mk "gfx" "gfx" Mode.MULTI_FILE false

/-- The function `func int main() { return 0; }` of scenario 2, not public. -/
def mainDecl : FunctionDecl :=
  FunctionDecl.mk "main" i32 [] false false [Stmt.returnStmt (some (Expr.integerLiteral 0))]

/-- The function `func void helper() {}` of scenario 2, not public. -/
def helperDecl : FunctionDecl :=
  FunctionDecl.mk "helper" (QualType.builtin false BuiltinKind.Void) [] false false []

/-- A public function `public func int get(int n) { return n; }`. -/
def getDecl : FunctionDecl :=
  FunctionDecl.mk "get" i32 [VarDecl.mk "n" i32 none false false] false true
    [Stmt.returnStmt (some (Expr.identifier "n" (Decl.mk DeclKind.DECL_VAR "n" none i32)))]

/-- A public function `public func int g(int x = (1)) {}`: the default value of its
argument is a parenthesised expression. -/
def parenArgDecl : FunctionDecl :=
  FunctionDecl.mk "g" i32
    [VarDecl.mk "x" i32 (some (Expr.paren (Expr.integerLiteral 1))) false false] false true []

/-- A public function `public func int sum(int[(4)] buf) {}`: the array size of its
argument is a parenthesised expression. -/
def parenSizeDecl : FunctionDecl :=
  FunctionDecl.mk "sum" i32
    [VarDecl.mk "buf" (QualType.array false i32 (some (Expr.paren (Expr.integerLiteral 4))))
      none false false] false true []

/-- A public `main` without arguments and with an empty body. -/
def publicMain : FunctionDecl := FunctionDecl.mk "main" i32 [] false true []

/-- The variable `public var: i32 = 7` of scenario 1. -/
def varDecl : VarDecl := VarDecl.mk "var" i32 (some (Expr.integerLiteral 7)) true false

/-- A variable `counter: i32` that is not public. -/
def privateVar : VarDecl := VarDecl.mk "counter" i32 none false false

/-- A type alias `type Buf i32[8]` that is not public. -/
def privateAlias : TypeDecl :=
  TypeDecl.aliasType "Buf" (QualType.array false i32 (some (Expr.integerLiteral 8))) false

/-- The public `enum Color { Red, Green = 5, Blue }` of scenario 4. -/
def colorEnum : TypeDecl :=
  TypeDecl.enumType (EnumTypeDecl.mk "Color" true
    [EnumConstantDecl.mk "Red" none,
     EnumConstantDecl.mk "Green" (some (Expr.integerLiteral 5)),
     EnumConstantDecl.mk "Blue" none])

/-- A public enum whose constant is initialised with the parenthesised literal
`(5)`. -/
def parenEnum : TypeDecl :=
  TypeDecl.enumType (EnumTypeDecl.mk "Color" true
    [EnumConstantDecl.mk "Green" (some (Expr.paren (Expr.integerLiteral 5)))])

/-- A public enum whose constant is initialised with the boolean literal `true`. -/
def boolEnum : TypeDecl :=
  TypeDecl.enumType (EnumTypeDecl.mk "Flag" true
    [EnumConstantDecl.mk "On" (some (Expr.booleanLiteral true))])

/-- The closed table of built-in types of the spec (4.5): the C name of each kind. -/
def builtinCName : BuiltinKind → String
  | BuiltinKind.Int8 => "char"
  | BuiltinKind.Int16 => "short"
  | BuiltinKind.Int32 => "int"
  | BuiltinKind.Int64 => "long long"
  | BuiltinKind.UInt8 => "unsigned char"
  | BuiltinKind.UInt16 => "unsigned short"
  | BuiltinKind.UInt32 => "unsigned int"
  | BuiltinKind.UInt64 => "unsigned long long"
  | BuiltinKind.Float32 => "float"
  | BuiltinKind.Float64 => "double"
  | BuiltinKind.Bool => "int"
  | BuiltinKind.Void => "void"

/-- The texts of a list one after the other. -/
def joinLines : List String → String
  | [] => ""
  | s :: rest => s ++ joinLines rest

/-- The text of an initialiser that is an integer literal or absent: ` = ` and the
literal as `EmitExpr` prints it, or nothing. -/
def initText : Option Expr → String
  | some (Expr.integerLiteral v) => " = " ++ toString (castToInt v)
  | _ => ""

/-- The line of one enum constant in the words of the spec (8, scenario 4): four
spaces, the constant mangled with module `m` (`main` is never prefixed), the
initialiser when there is one, a comma and a newline. -/
def enumConstantLine (m : String) (C : EnumConstantDecl) : String :=
  "    " ++ (if C.name = "main" then "main" else m ++ "_" ++ C.name)
    ++ initText C.initValue ++ ",\n"

/-- A variable `a` whose type is the array of 3 elements whose element type is the
array of 5 elements of `i32`. -/
def nested35 : VarDecl :=
  VarDecl.mk "a"
    (QualType.array false (QualType.array false i32 (some (Expr.integerLiteral 5)))
      (some (Expr.integerLiteral 3))) none false false

/-- A variable `a` whose type is the array of 5 elements whose element type is the
array of 3 elements of `i32`. -/
def nested53 : VarDecl :=
  VarDecl.mk "a"
    (QualType.array false (QualType.array false i32 (some (Expr.integerLiteral 3)))
      (some (Expr.integerLiteral 5))) none false false

/-- The declaration `enum Color { Red, Green = 5, Blue }` of scenario 4. -/
def colorDecl : EnumTypeDecl :=
  EnumTypeDecl.mk "Color" true
    [EnumConstantDecl.mk "Red" none,
     EnumConstantDecl.mk "Green" (some (Expr.integerLiteral 5)),
     EnumConstantDecl.mk "Blue" none]

/-- Module `n` is imported by an AST of the list. -/
def imported (entries : List AST) (n : String) : Prop :=
  ∃ ast ∈ entries, ∃ D ∈ ast.imports, D.moduleName = n

/-- Name `n` is the name of a module that an AST of the list imports and whose
plain-C flag is `plainC`. -/
def includedAs (modules : Modules) (entries : List AST) (plainC : Bool) (n : String) :
    Prop :=
  ∃ ast ∈ entries, ∃ D ∈ ast.imports, ∃ P,
    modules D.moduleName = some P ∧ P.isPlainC = plainC ∧ P.name = n

/-- The import declarations of all ASTs, in traversal order. -/
def allImports (entries : List AST) : List ImportDecl :=
  entries.flatMap AST.imports

/-- The AST with its import declarations replaced. -/
def AST.withImports (ast : AST) (imports : List ImportDecl) : AST :=
  AST.mk ast.moduleName imports ast.types ast.vars ast.functions

/-- The sequential composition of a list of emission steps, in list order. -/
def seqAll : List Emit → Emit
  | [] => skip
  | f :: rest => f >=> seqAll rest

/-- A module map with the plain-C modules `stdio` and `math` and the L module
`util`. -/
def stdModules : Modules := fun n =>
  if n = "stdio" then some (Module.mk "stdio" true "")
  else if n = "math" then some (Module.mk "math" true "")
  else if n = "util" then some (Module.mk "util" false "util")
  else none

/-- Scenario 6: module `app` imports `stdio` (plain C) and `util` (L). -/
def appImports : AST :=
  AST.mk "app" [ImportDecl.mk "stdio", ImportDecl.mk "util"] [] [] []

/-- Module `app` importing `util`, `stdio`, `math`, in this order. -/
def appUnsorted : AST :=
  AST.mk "app" [ImportDecl.mk "util", ImportDecl.mk "stdio", ImportDecl.mk "math"] [] [] []

/-- A module `app` with one public enum `State`, one public variable `count` and one
public function `get`. -/
def appUnit : AST :=
  AST.mk "app" []
    [TypeDecl.enumType (EnumTypeDecl.mk "State" true [EnumConstantDecl.mk "On" none])]
    [VarDecl.mk "count" i32 none true false]
    [getDecl]

/-- A module `util` with one public enum `Level`, one public variable `size` and one
public function `reset`. -/
def utilUnit : AST :=
  AST.mk "util" []
    [TypeDecl.enumType (EnumTypeDecl.mk "Level" true [EnumConstantDecl.mk "Low" none])]
    [VarDecl.mk "size" i32 none true false]
    [FunctionDecl.mk "reset" (QualType.builtin false BuiltinKind.Void) [] false true []]

/-- A module `types` that declares the enum of `parenEnum` and nothing else. -/
def typesOnly : AST := AST.mk "types" [] [parenEnum] [] []

/-- The escape rule of the spec (4.2) for one byte of a string literal: newline,
carriage return, tab and ESC become backslash `n`, backslash `r`, backslash `t` and
backslash `033`; every other byte is itself. -/
def escSpec (c : Char) : List Char :=
  if c.toNat = 10 then [Char.ofNat 92, Char.ofNat 110]
  else if c.toNat = 13 then [Char.ofNat 92, Char.ofNat 114]
  else if c.toNat = 9 then [Char.ofNat 92, Char.ofNat 116]
  else if c.toNat = 27 then [Char.ofNat 92, Char.ofNat 48, Char.ofNat 51, Char.ofNat 51]
  else [c]

/-- The type `i32[10]`. -/
def i32x10 : QualType := QualType.array false i32 (some (Expr.integerLiteral 10))

/-- Scenario 5: the local variable `buf: i32[10]`. -/
def localBuf : Decl := Decl.mk DeclKind.DECL_VAR "buf" none i32x10

/-- A variable `buf: i32[10]` at module scope in module `m`. -/
def moduleBuf : Decl :=
  Decl.mk DeclKind.DECL_VAR "buf" (some (Module.mk "m" false "m")) i32x10

/-- A local variable `n: i32`. -/
def localInt : Decl := Decl.mk DeclKind.DECL_VAR "n" none i32

/-- The enum constant `Red` of module `gfx`. -/
def redConstant : Decl :=
  Decl.mk DeclKind.DECL_ENUMVALUE "Red" (some (Module.mk "gfx" false "gfx"))
    (QualType.enum false "Color")

/-- A local variable `p` of struct type `Point`. -/
def localPoint : Decl := Decl.mk DeclKind.DECL_VAR "p" none (QualType.struct false "Point")

/-- The member expression `p.x`; `decl` is the member `x`. -/
def memberPX : Expr :=
  Expr.member false (Decl.mk DeclKind.DECL_VAR "x" none i32) (Expr.identifier "p" localPoint)
    false "x"

/-- The statement is a `case` or a `default`. -/
def Stmt.isCaseOrDefault : Stmt → Bool
  | Stmt.caseStmt _ _ => true
  | Stmt.defaultStmt _ => true
  | _ => false

/-- A text of `n` spaces. -/
def spaces (n : Nat) : String := String.mk (List.replicate n (Char.ofNat 32))

/-- The text `EmitExpr` appends to the source buffer for `e` when the source buffer is
the sink; `none` when it aborts. -/
def exprText (G : CCodeGenerator) (e : Expr) : Option String :=
  (appended (EmitExpr G e Sink.cbuf)).map Buffers.cbuf

/-- The header of a `for` statement in the words of the spec (4.8): `for (`, the init
text if present, `;`, a space and the condition text if present, `;`, a space and
the increment text if present, `) `; `none` when a part aborts. -/
def forHeader (G : CCodeGenerator) (init : Option Stmt) (cond incr : Option Expr) :
    Option String :=
  (match init with
   | none => some ""
   | some s => s.castExpr.bind (exprText G)).bind fun ti =>
  (match cond with
   | none => some ""
   | some e => (exprText G e).map (fun t => " " ++ t)).bind fun tc =>
  (match incr with
   | none => some ""
   | some e => (exprText G e).map (fun t => " " ++ t)).map fun tn =>
  "for (" ++ ti ++ ";" ++ tc ++ ";" ++ tn ++ ") "

/-- Emission step `f` completes on every buffer state and appends exactly the text
`r` to the buffer `output`. -/
def Renders (f : Emit) (output : Sink) (r : String) : Prop :=
  ∀ b, f b = some (b.put output r)

/-- The texts of a list joined by `sep`, with no leading or trailing separator. -/
def joinWith (sep : String) : List String → String
  | [] => ""
  | [a] => a
  | a :: b :: rest => a ++ sep ++ joinWith sep (b :: rest)

/-- The statement `x;` for the local variable `n`. -/
def useN : Stmt := Stmt.exprStmt (Expr.identifier "n" localInt)

/-- The statement `switch (n) { case 1: break; default: n; }`. -/
def switchN : Stmt :=
  Stmt.switchStmt (Expr.identifier "n" localInt)
    [Stmt.caseStmt (Expr.integerLiteral 1) [Stmt.breakStmt], Stmt.defaultStmt [useN]]

/-- A switch on `n` with a `break` as direct child after a `case`. -/
def switchBad : Stmt :=
  Stmt.switchStmt (Expr.identifier "n" localInt)
    [Stmt.caseStmt (Expr.integerLiteral 1) [], Stmt.breakStmt]

/-- The statement `for (n; n < 10; n++) n;` with an increment `n++`. -/
def forN : Stmt :=
  Stmt.forStmt (some useN)
    (some (Expr.binaryOperator "<" (Expr.identifier "n" localInt) (Expr.integerLiteral 10)))
    (some (Expr.unaryOperator UnaryOpcode.UO_PostInc "++" (Expr.identifier "n" localInt)))
    useN

/-- The function `void f(int x, int y, ...)`, variadic. -/
def variadicDecl : FunctionDecl :=
  FunctionDecl.mk "f" (QualType.builtin false BuiltinKind.Void)
    [VarDecl.mk "x" i32 none false false, VarDecl.mk "y" i32 none false false] true false []

/-- The text a routine appends to the sink it is given, observed on empty buffers with
the source buffer as sink; `none` when it aborts. -/
def textOf (f : Sink → Emit) : Option String :=
  (appended (f Sink.cbuf)).map Buffers.cbuf

/-- No part of the type is of the class `TC_PACKAGE`, which is not a type kind of the
spec (3) and which `EmitTypePreName` rejects. -/
def QualType.isSpecKind : QualType → Bool
  | QualType.pointer _ pointee => pointee.isSpecKind
  | QualType.array _ element _ => element.isSpecKind
  | QualType.alias _ _ refType => refType.isSpecKind
  | QualType.package _ => false
  | _ => true

mutual
/-- The members of the struct, at every depth, are variables and structs or unions
(spec 3); the variables have no initialiser, their array sizes are integer literals
or absent, and their types are of the kinds of the spec. -/
def StructTypeDecl.membersPlain : StructTypeDecl → Bool
  | StructTypeDecl.mk _ _ _ _ members => MemberDecl.allPlain members
/-- Every member of the list is plain in the sense of `membersPlain`. -/
def MemberDecl.allPlain : List MemberDecl → Bool
  | [] => true
  | MemberDecl.var V :: rest =>
      V.initValue.isNone && V.type.sizesAreLiteral && V.type.isSpecKind
        && MemberDecl.allPlain rest
  | MemberDecl.structType S :: rest => S.membersPlain && MemberDecl.allPlain rest
  | MemberDecl.other _ :: _ => false
end

mutual
/-- The text of a struct or union in the words of the spec (4.7) at indent `i`:
`i` spaces, `typedef ` iff global, `struct ` or `union `, an opening brace and a
newline, the members, `i` spaces, a closing brace, a space and the name iff the name
is not empty, `;` and a newline, and one more newline iff global. -/
def structText (G : CCodeGenerator) : StructTypeDecl → Nat → Option String
  | StructTypeDecl.mk name isStruct isGlobal _ members, i =>
      (membersText G members i).map fun ms =>
        spaces i ++ (if isGlobal then "typedef " else "")
          ++ (if isStruct then "struct " else "union ") ++ "\x7b\n" ++ ms
          ++ spaces i ++ "\x7d" ++ (if name ≠ "" then " " ++ name else "") ++ ";\n"
          ++ (if isGlobal then "\n" else "")
/-- The text of the members of a struct at indent `i`: a variable member is `i + 4`
spaces, the pre-name of its type, a space, its name, the post-name of its type, `;`
and a newline; a nested struct or union is its own text at indent `i + 4`. -/
def membersText (G : CCodeGenerator) : List MemberDecl → Nat → Option String
  | [], _ => some ""
  | MemberDecl.var V :: rest, i =>
      (textOf (EmitTypePreName G V.type)).bind fun pre =>
      (textOf (EmitTypePostName G V.type)).bind fun post =>
      (membersText G rest i).map fun ms =>
        spaces (i + 4) ++ pre ++ " " ++ V.name ++ post ++ ";\n" ++ ms
  | MemberDecl.structType S :: rest, i =>
      (structText G S (i + 4)).bind fun s =>
      (membersText G rest i).map fun ms => s ++ ms
  | MemberDecl.other _ :: _, _ => none
end

/-- Scenario 3: the public `struct S { i32 x; union { i8 a; i16 b; }; }`. -/
def structS : StructTypeDecl :=
  StructTypeDecl.mk "S" true true true
    [MemberDecl.var (VarDecl.mk "x" i32 none false false),
     MemberDecl.structType (StructTypeDecl.mk "" false false false
       [MemberDecl.var (VarDecl.mk "a" (QualType.builtin false BuiltinKind.Int8) none
          false false),
        MemberDecl.var (VarDecl.mk "b" (QualType.builtin false BuiltinKind.Int16) none
          false false)])]

/-- The text between the braces of an init list in the words of the spec (4.9), for
elements given as pairs of the flag that the element is itself an init list and its
text: the elements in order, `, ` after each but the last, a newline before the first
element when that one is an init list, and a newline after each element that is an
init list; `first` tells that the head of the list is the first element. -/
def initListBody : List (Bool × String) → Bool → String
  | [], _ => ""
  | (nested, t) :: rest, first =>
      (if first && nested then "\n" else "") ++ t ++ (if rest.isEmpty then "" else ", ")
        ++ (if nested then "\n" else "") ++ initListBody rest false

/-- The init list `{ 1, { 2 } }`, whose second element is an init list. -/
def nestedSecond : Expr :=
  Expr.initList [Expr.integerLiteral 1, Expr.initList [Expr.integerLiteral 2]]

/-- The init list `{ { 1 }, 2 }`, whose first element is an init list. -/
def nestedFirst : Expr :=
  Expr.initList [Expr.initList [Expr.integerLiteral 1], Expr.integerLiteral 2]

/-- The L module `util`, whose mangling prefix is its name. -/
def utilModule : Module := Module.mk "util" false "util"

/-- The function `helper` of module `util` as a use site sees it. -/
def utilHelper : Decl :=
  Decl.mk DeclKind.DECL_FUNC "helper" (some utilModule) (QualType.function false "helper")

/-- The variable `var` of module `util` as a use site sees it. -/
def utilVar : Decl := Decl.mk DeclKind.DECL_VAR "var" (some utilModule) i32

/-- The emitter with no-local-prefix set while it emits module `util`. -/
def utilLocal : CCodeGenerator := CCodeGenerator.mk "out" "util" Mode.MULTI_FILE true

/-- The emitter with no-local-prefix set while it emits module `app`. -/
def appLocal : CCodeGenerator := CCodeGenerator.mk "out" "app" Mode.MULTI_FILE true

mutual
/-- The statement tree is built only from Return, If, Break, Continue and Compound
nodes. -/
def Stmt.inCore : Stmt → Bool
  | Stmt.returnStmt _ => true
  | Stmt.ifStmt _ thenStmt elseStmt => thenStmt.inCore && inCoreOpt elseStmt
  | Stmt.breakStmt => true
  | Stmt.continueStmt => true
  | Stmt.compoundStmt stmts => inCoreList stmts
  | _ => false
/-- An absent statement, or one of the core fragment. -/
def inCoreOpt : Option Stmt → Bool
  | none => true
  | some S => S.inCore
/-- Every statement of the list is of the core fragment. -/
def inCoreList : List Stmt → Bool
  | [] => true
  | S :: rest => S.inCore && inCoreList rest
end

/-- An `Expr::generateC` that renders every expression to the text the live path
appends to the source buffer for it. -/
def sameExprC (G : CCodeGenerator) : Expr → Nat → LegacyEmit :=
  fun e _ buffer => (exprText G e).map (fun t => buffer ++ t)

/-- The statement `{ if (n) { return 0; } else break; continue; return; }`. -/
def coreBlock : Stmt :=
  Stmt.compoundStmt
    [Stmt.ifStmt (Expr.identifier "n" localInt)
       (Stmt.compoundStmt [Stmt.returnStmt (some (Expr.integerLiteral 0))])
       (some Stmt.breakStmt),
     Stmt.continueStmt, Stmt.returnStmt none]

/-- The legacy type `int[]`, an array of the builtin `int` without size expression. -/
def legacyIntArray : LegacyType :=
  LegacyType.array (LegacyType.builtin (NamePtr.mk 1 "int")) none

/-- The text `EmitExpr` prints for an array size that is an integer literal. -/
def sizeText : Option Expr → String
  | some (Expr.integerLiteral v) => toString (castToInt v)
  | _ => ""

/-- The type is built from builtin, pointer and array constructors, the array sizes
being integer literals. -/
def QualType.isPlain : QualType → Bool
  | QualType.builtin _ _ => true
  | QualType.pointer _ pointee => pointee.isPlain
  | QualType.array _ element sizeExpr =>
      (match sizeExpr with
       | some e => e.isIntegerLiteral
       | none => false) && element.isPlain
  | _ => false

/-- The number of array constructors in the type. -/
def QualType.arrayCount : QualType → Nat
  | QualType.pointer _ pointee => pointee.arrayCount
  | QualType.array _ element _ => element.arrayCount + 1
  | _ => 0

/-- The number of array constructors that are reached from the top of the type
through array constructors only. -/
def QualType.outerArrays : QualType → Nat
  | QualType.array _ element _ => element.outerArrays + 1
  | _ => 0

/-- No array constructor of the type occurs under a pointer. -/
def QualType.noArrayUnderPointer : QualType → Bool
  | QualType.pointer _ pointee => pointee.arrayCount == 0
  | QualType.array _ element _ => element.noArrayUnderPointer
  | _ => true

/-- The bracket pairs `[size]` of the array constructors reached from the top through
array constructors only, the innermost first. -/
def QualType.outerBrackets : QualType → List String
  | QualType.array _ element sizeExpr =>
      element.outerBrackets ++ ["[" ++ sizeText sizeExpr ++ "]"]
  | _ => []

/-- The pre-name of a type built from builtin, pointer and array constructors:
`const ` where the type is const-qualified, the C name of the builtin, a star for
each pointer. -/
def QualType.plainPre : QualType → String
  | QualType.builtin c kind => (if c then "const " else "") ++ builtinCName kind
  | QualType.pointer c pointee => (if c then "const " else "") ++ pointee.plainPre ++ "*"
  | QualType.array c element _ => (if c then "const " else "") ++ element.plainPre
  | _ => ""

/-- The text contains no bracket character. -/
def noBracket (s : String) : Prop :=
  Char.ofNat 91 ∉ s.data ∧ Char.ofNat 93 ∉ s.data

/-- The type `i32[10]*`, a pointer to an array. -/
def pointerToArray : QualType := QualType.pointer false i32x10

/-- The type of an array of 4 pointers to `i32[10]`. -/
def arrayOfPointers : QualType :=
  QualType.array false pointerToArray (some (Expr.integerLiteral 4))

/-- The number of occurrences of the character `c` in the text. -/
def countChar (c : Char) (s : String) : Nat := s.data.count c

/-! ## Buffers and the frame of an emission step -/

theorem Buffers.append_def (b d : Buffers) :
    b ++ d = Buffers.mk (b.hbuf ++ d.hbuf) (b.cbuf ++ d.cbuf) := rfl

@[simp] theorem Buffers.append_hbuf (b d : Buffers) : (b ++ d).hbuf = b.hbuf ++ d.hbuf := rfl

@[simp] theorem Buffers.append_cbuf (b d : Buffers) : (b ++ d).cbuf = b.cbuf ++ d.cbuf := rfl

@[simp] theorem Buffers.append_empty (b : Buffers) : b ++ Buffers.empty = b := by
  cases b; simp [Buffers.append_def, Buffers.empty]

@[simp] theorem Buffers.empty_append (b : Buffers) : Buffers.empty ++ b = b := by
  cases b; simp [Buffers.append_def, Buffers.empty]

theorem Buffers.append_assoc (a b c : Buffers) : a ++ b ++ c = a ++ (b ++ c) := by
  simp [Buffers.append_def, String.append_assoc]

theorem Buffers.put_eq_append (b : Buffers) (output : Sink) (s : String) :
    b.put output s = b ++ Buffers.empty.put output s := by
  cases b; cases output <;> simp [Buffers.put, Buffers.append_def, Buffers.empty]

@[simp] theorem Buffers.put_hbuf_cbuf (b : Buffers) (s : String) :
    (b.put Sink.cbuf s).hbuf = b.hbuf := rfl

@[simp] theorem Buffers.put_cbuf_cbuf (b : Buffers) (s : String) :
    (b.put Sink.cbuf s).cbuf = b.cbuf ++ s := rfl

@[simp] theorem Buffers.put_hbuf_hbuf (b : Buffers) (s : String) :
    (b.put Sink.hbuf s).hbuf = b.hbuf ++ s := rfl

@[simp] theorem Buffers.put_cbuf_hbuf (b : Buffers) (s : String) :
    (b.put Sink.hbuf s).cbuf = b.cbuf := rfl

theorem kleisli_apply (f g : Emit) (b : Buffers) : (f >=> g) b = (f b).bind g := rfl

theorem frame_eq_appended {output : Sink} {f : Emit} (h : Frame output f) (b : Buffers) :
    f b = (appended f).map (fun x => b ++ x) := by
  obtain ⟨d, hd, _⟩ := h
  have h0 : appended f = d := by
    unfold appended; rw [hd]; cases d <;> simp
  rw [h0, hd]

theorem frame_appended_hbuf {f : Emit} (h : Frame Sink.cbuf f) {x : Buffers}
    (hx : appended f = some x) : x.hbuf = "" := by
  obtain ⟨d, hd, hh⟩ := h
  have h0 : appended f = d := by
    unfold appended; rw [hd]; cases d <;> simp
  exact hh rfl x (h0 ▸ hx)

theorem frame_hbuf_eq {f : Emit} (h : Frame Sink.cbuf f) {b b' : Buffers}
    (hb : f b = some b') : b'.hbuf = b.hbuf := by
  rw [frame_eq_appended h b] at hb
  cases hx : appended f with
  | none => simp [hx] at hb
  | some x =>
    simp [hx] at hb
    rw [← hb]; simp [frame_appended_hbuf h hx]

theorem frame_of_cbuf {output : Sink} {f : Emit} (h : Frame Sink.cbuf f) : Frame output f := by
  obtain ⟨d, hd, hh⟩ := h
  exact ⟨d, hd, fun _ => hh rfl⟩

theorem frame_write {output : Sink} {s : String} : Frame output (write output s) := by
  refine ⟨some (Buffers.empty.put output s), ?_, ?_⟩
  · intro b; simp [C2C.write, Buffers.put_eq_append b]
  · intro h x hx
    subst h
    simp at hx
    rw [← hx]; rfl

theorem frame_write_cbuf {output : Sink} {s : String} : Frame output (C2C.write Sink.cbuf s) :=
  frame_of_cbuf frame_write

theorem frame_skip {output : Sink} : Frame output C2C.skip :=
  ⟨some Buffers.empty, by intro b; simp [C2C.skip], by intro _ x hx; simp at hx; rw [← hx]; rfl⟩

theorem frame_abort {output : Sink} : Frame output C2C.abort :=
  ⟨none, by intro b; simp [C2C.abort], by intro _ x hx; simp at hx⟩

theorem frame_ite {output : Sink} {c : Prop} [Decidable c] {f g : Emit}
    (hf : Frame output f) (hg : Frame output g) : Frame output (if c then f else g) := by
  split <;> assumption

theorem frame_writeIf {output : Sink} {c : Bool} {s : String} :
    Frame output (C2C.writeIf c output s) := by
  unfold C2C.writeIf; exact frame_ite frame_write frame_skip

theorem frame_indent {output : Sink} {n : Nat} : Frame output (C2C.indent output n) := by
  unfold C2C.indent; exact frame_write

theorem frame_indent_cbuf {output : Sink} {n : Nat} :
    Frame output (C2C.indent Sink.cbuf n) :=
  frame_of_cbuf frame_indent

theorem frame_comp {output : Sink} {f g : Emit} (hf : Frame output f) (hg : Frame output g) :
    Frame output (f >=> g) := by
  obtain ⟨df, hdf, hhf⟩ := hf
  obtain ⟨dg, hdg, hhg⟩ := hg
  refine ⟨df.bind (fun x => dg.map (fun y => x ++ y)), ?_, ?_⟩
  · intro b
    rw [kleisli_apply, hdf]
    cases df with
    | none => simp
    | some x =>
      simp only [Option.map_some', Option.some_bind]
      rw [hdg]
      cases dg <;> simp [Buffers.append_assoc]
  · intro h x hx
    cases df with
    | none => simp at hx
    | some u =>
      cases dg with
      | none => simp at hx
      | some v =>
        simp at hx
        rw [← hx]
        simp [hhf h u rfl, hhg h v rfl]

/-! ## Text that does not depend on the sink -/

theorem Buffers.put_put (b : Buffers) (output : Sink) (s t : String) :
    (b.put output s).put output t = b.put output (s ++ t) := by
  cases b; cases output <;> simp [Buffers.put, String.append_assoc]

theorem Buffers.put_empty (b : Buffers) (output : Sink) : b.put output "" = b := by
  cases b; cases output <;> simp [Buffers.put]

theorem uniform_write (s : String) : Uniform (fun output => write output s) :=
  ⟨some s, fun _ _ => rfl⟩

theorem uniform_writeIf (c : Bool) (s : String) : Uniform (fun output => writeIf c output s) := by
  cases c
  · exact ⟨some "", fun o b => by simp [writeIf, skip, Buffers.put_empty]⟩
  · exact ⟨some s, fun _ _ => rfl⟩

theorem uniform_skip : Uniform (fun _ => skip) :=
  ⟨some "", fun o b => by simp [skip, Buffers.put_empty]⟩

theorem uniform_comp {f g : Sink → Emit} (hf : Uniform f) (hg : Uniform g) :
    Uniform (fun output => f output >=> g output) := by
  obtain ⟨tf, htf⟩ := hf
  obtain ⟨tg, htg⟩ := hg
  refine ⟨tf.bind (fun x => tg.map (fun y => x ++ y)), fun o b => ?_⟩
  show (f o >=> g o) b = _
  rw [kleisli_apply, htf]
  cases tf with
  | none => simp
  | some x =>
    simp only [Option.map_some', Option.some_bind]
    rw [htg]
    cases tg <;> simp [Buffers.put_put]

/-- A sink-independent routine is determined by what it appends to the source
buffer when started on empty buffers. -/
theorem uniform_eq {f : Sink → Emit} (hf : Uniform f) {s : String}
    (hs : appended (f Sink.cbuf) = some (Buffers.mk "" s)) (output : Sink) (b : Buffers) :
    f output b = some (b.put output s) := by
  obtain ⟨t, ht⟩ := hf
  cases t with
  | none => simp [appended, ht] at hs
  | some x =>
    have hx : x = s := by
      simpa [appended, ht, Buffers.empty, Buffers.put] using hs
    rw [ht, hx]; rfl

theorem addPrefix_uniform (G : CCodeGenerator) (modName name : String) :
    Uniform (addPrefix G modName name) := by
  unfold addPrefix GenUtils.addName
  by_cases h1 : modName = ""
  · simp only [h1, if_true]; exact uniform_write name
  · by_cases h2 : CCodeGenerator.no_local_prefix G = true ∧ modName = G.curmod
    · simp only [h1, h2, if_false]; simpa using uniform_write name
    · by_cases h3 : name = "main"
      · simp only [h1, h2, h3, if_false, if_true]; simpa using uniform_write "main"
      · simp only [h1, h2, h3, if_false]; simpa using uniform_write (modName ++ "_" ++ name)

theorem writeBuiltin_uniform (kind : BuiltinKind) : Uniform (writeBuiltin kind) := by
  cases kind <;> exact ⟨some _, fun _ _ => rfl⟩

/-- The pre-name part of a type is the same text for every sink. -/
theorem EmitTypePreName_uniform (G : CCodeGenerator) :
    ∀ (t : QualType), Uniform (EmitTypePreName G t)
  | QualType.builtin c kind => by
      have h := uniform_comp (uniform_writeIf c "const ") (writeBuiltin_uniform kind)
      obtain ⟨t, ht⟩ := h
      exact ⟨t, fun o b => by rw [← ht]; simp [EmitTypePreName]⟩
  | QualType.pointer c pointee => by
      have h := uniform_comp (uniform_writeIf c "const ")
        (uniform_comp (EmitTypePreName_uniform G pointee) (uniform_write "*"))
      obtain ⟨t, ht⟩ := h
      exact ⟨t, fun o b => by rw [← ht]; simp [EmitTypePreName]⟩
  | QualType.array c element _ => by
      have h := uniform_comp (uniform_writeIf c "const ") (EmitTypePreName_uniform G element)
      obtain ⟨t, ht⟩ := h
      exact ⟨t, fun o b => by rw [← ht]; simp [EmitTypePreName]⟩
  | QualType.unresolved c literal => by
      have h := uniform_comp (uniform_writeIf c "const ") (uniform_write literal)
      obtain ⟨t, ht⟩ := h
      exact ⟨t, fun o b => by rw [← ht]; simp [EmitTypePreName]⟩
  | QualType.alias c _ refType => by
      have h := uniform_comp (uniform_writeIf c "const ") (EmitTypePreName_uniform G refType)
      obtain ⟨t, ht⟩ := h
      exact ⟨t, fun o b => by rw [← ht]; simp [EmitTypePreName]⟩
  | QualType.struct c declName => by
      have h := uniform_comp (uniform_writeIf c "const ") (uniform_write declName)
      obtain ⟨t, ht⟩ := h
      exact ⟨t, fun o b => by rw [← ht]; simp [EmitTypePreName]⟩
  | QualType.enum c declName => by
      have h := uniform_comp (uniform_writeIf c "const ") (uniform_write declName)
      obtain ⟨t, ht⟩ := h
      exact ⟨t, fun o b => by rw [← ht]; simp [EmitTypePreName]⟩
  | QualType.function c declName => by
      have h := uniform_comp (uniform_writeIf c "const ") (uniform_write declName)
      obtain ⟨t, ht⟩ := h
      exact ⟨t, fun o b => by rw [← ht]; simp [EmitTypePreName]⟩
  | QualType.package c =>
      ⟨none, fun o b => by cases c <;> simp [EmitTypePreName, kleisli_apply, writeIf, write, skip, abort]⟩

/-- A sink-independent routine only appends, to the sink it is given. -/
theorem uniform_frame {f : Sink → Emit} (hf : Uniform f) (output : Sink) :
    Frame output (f output) := by
  obtain ⟨t, ht⟩ := hf
  refine ⟨t.map (fun s => Buffers.empty.put output s), ?_, ?_⟩
  · intro b
    rw [ht]
    cases t <;> simp [Buffers.put_eq_append b]
  · intro h x hx
    subst h
    cases t with
    | none => simp at hx
    | some s => simp at hx; rw [← hx]; rfl

/-! ## Every routine only appends -/

theorem addPrefix_frame (G : CCodeGenerator) (modName name : String) (buffer : Sink) :
    Frame buffer (addPrefix G modName name buffer) :=
  uniform_frame (addPrefix_uniform G modName name) buffer

theorem EmitDecl_frame (G : CCodeGenerator) (D : Decl) (output : Sink) :
    Frame output (EmitDecl G D output) := by
  unfold EmitDecl
  split
  · exact addPrefix_frame G _ _ output
  · exact frame_write

theorem EmitStringLiteral_frame (input : String) (output : Sink) :
    Frame output (EmitStringLiteral input output) := by
  unfold EmitStringLiteral
  exact frame_comp frame_write (frame_comp frame_write frame_write)

theorem EmitTypePreName_frame (G : CCodeGenerator) (t : QualType) (output : Sink) :
    Frame output (EmitTypePreName G t output) :=
  uniform_frame (EmitTypePreName_uniform G t) output

mutual
/-- Emitting an expression only appends, and with the source buffer as sink it
leaves the header alone. -/
theorem EmitExpr_frame (G : CCodeGenerator) :
    ∀ (E : Expr) (output : Sink), Frame output (EmitExpr G E output)
  | Expr.integerLiteral v, output => by unfold EmitExpr; exact frame_write
  | Expr.floatingLiteral t, output => by unfold EmitExpr; exact frame_write
  | Expr.booleanLiteral v, output => by unfold EmitExpr; exact frame_write_cbuf
  | Expr.characterLiteral v, output => by
      unfold EmitExpr; exact frame_comp frame_write (frame_comp frame_write frame_write)
  | Expr.stringLiteral s, output => by unfold EmitExpr; exact EmitStringLiteral_frame s output
  | Expr.nil, output => by unfold EmitExpr; exact frame_write
  | Expr.call fn args, output => by
      unfold EmitExpr
      exact frame_comp (EmitExpr_frame G fn output)
        (frame_comp frame_write (frame_comp (EmitCallArgs_frame G args true output) frame_write))
  | Expr.identifier _ D, output => by unfold EmitExpr; exact EmitDecl_frame G D output
  | Expr.initList values, output => by
      unfold EmitExpr
      exact frame_comp frame_write
        (frame_comp (EmitInitValues_frame G values true output) frame_write)
  | Expr.type t, output => by
      unfold EmitExpr
      exact frame_comp (EmitTypePreName_frame G t output) (EmitTypePostName_frame G t output)
  | Expr.decl hasLocal t name init, output => by
      unfold EmitExpr
      exact frame_comp frame_indent (frame_comp frame_writeIf
        (frame_comp (EmitTypePreName_frame G t output) (frame_comp frame_write
          (frame_comp frame_write (frame_comp (EmitTypePostName_frame G t output)
            (EmitInitValue_frame G init output))))))
  | Expr.binaryOperator op lhs rhs, output => by
      unfold EmitExpr
      exact frame_comp (EmitExpr_frame G lhs output) (frame_comp frame_write
        (frame_comp frame_write (frame_comp frame_write (EmitExpr_frame G rhs output))))
  | Expr.conditionalOperator c lhs rhs, output => by
      unfold EmitExpr
      exact frame_comp (EmitExpr_frame G c output) (frame_comp frame_write
        (frame_comp (EmitExpr_frame G lhs output) (frame_comp frame_write
          (EmitExpr_frame G rhs output))))
  | Expr.unaryOperator opcode op e, output => by
      have ih := EmitExpr_frame G e output
      unfold EmitExpr
      cases opcode <;>
        first
        | exact frame_comp ih frame_write
        | exact frame_comp frame_write ih
        | exact frame_abort
  | Expr.builtin isSizeof e, output => by
      have ih := EmitExpr_frame G e output
      unfold EmitExpr
      split
      · exact frame_comp frame_write (frame_comp ih frame_write)
      · split
        · split
          · exact frame_abort
          · split
            · exact frame_comp frame_write (frame_comp frame_write (frame_comp frame_write
                (frame_comp frame_write frame_write)))
            · exact frame_abort
          · exact frame_skip
          · exact frame_abort
        · exact frame_abort
  | Expr.arraySubscript base index, output => by
      unfold EmitExpr
      exact frame_comp (EmitExpr_frame G base output) (frame_comp frame_write
        (frame_comp (EmitExpr_frame G index output) frame_write))
  | Expr.member isModulePrefix D base isArrow memberName, output => by
      have ih := EmitExpr_frame G base Sink.cbuf
      unfold EmitExpr
      split
      · exact EmitDecl_frame G D output
      · exact frame_of_cbuf (frame_comp ih (frame_comp frame_write frame_write))
  | Expr.paren e, output => by
      have ih := EmitExpr_frame G e Sink.cbuf
      unfold EmitExpr
      exact frame_of_cbuf (frame_comp frame_write (frame_comp ih frame_write))
theorem EmitCallArgs_frame (G : CCodeGenerator) :
    ∀ (args : List Expr) (first : Bool) (output : Sink),
      Frame output (EmitCallArgs G args first output)
  | [], _, output => by unfold EmitCallArgs; exact frame_skip
  | a :: rest, first, output => by
      unfold EmitCallArgs
      exact frame_comp frame_writeIf (frame_comp (EmitExpr_frame G a output)
        (EmitCallArgs_frame G rest false output))
theorem EmitInitValues_frame (G : CCodeGenerator) :
    ∀ (values : List Expr) (first : Bool) (output : Sink),
      Frame output (EmitInitValues G values first output)
  | [], _, output => by unfold EmitInitValues; exact frame_skip
  | v :: rest, first, output => by
      unfold EmitInitValues
      exact frame_comp frame_writeIf (frame_comp (EmitExpr_frame G v output)
        (frame_comp frame_writeIf (frame_comp frame_writeIf
          (EmitInitValues_frame G rest false output))))
theorem EmitInitValue_frame (G : CCodeGenerator) :
    ∀ (init : Option Expr) (output : Sink), Frame output (EmitInitValue G init output)
  | none, output => by unfold EmitInitValue; exact frame_skip
  | some e, output => by
      unfold EmitInitValue; exact frame_comp frame_write (EmitExpr_frame G e output)
theorem EmitTypePostName_frame (G : CCodeGenerator) :
    ∀ (t : QualType) (output : Sink), Frame output (EmitTypePostName G t output)
  | QualType.array _ element sizeExpr, output => by
      unfold EmitTypePostName
      exact frame_comp (EmitTypePostName_frame G element output) (frame_comp frame_write
        (frame_comp (EmitSizeExpr_frame G sizeExpr output) frame_write))
  | QualType.alias _ _ refType, output => by
      unfold EmitTypePostName; exact EmitTypePostName_frame G refType output
  | QualType.builtin _ _, output => by unfold EmitTypePostName; exact frame_skip
  | QualType.pointer _ _, output => by unfold EmitTypePostName; exact frame_skip
  | QualType.unresolved _ _, output => by unfold EmitTypePostName; exact frame_skip
  | QualType.struct _ _, output => by unfold EmitTypePostName; exact frame_skip
  | QualType.enum _ _, output => by unfold EmitTypePostName; exact frame_skip
  | QualType.function _ _, output => by unfold EmitTypePostName; exact frame_skip
  | QualType.package _, output => by unfold EmitTypePostName; exact frame_skip
theorem EmitSizeExpr_frame (G : CCodeGenerator) :
    ∀ (sizeExpr : Option Expr) (output : Sink), Frame output (EmitSizeExpr G sizeExpr output)
  | none, output => by unfold EmitSizeExpr; exact frame_skip
  | some e, output => by unfold EmitSizeExpr; exact EmitExpr_frame G e output
end

theorem EmitVarDecl_frame (G : CCodeGenerator) (D : VarDecl) (output : Sink) (ind : Nat) :
    Frame output (EmitVarDecl G D output ind) := by
  unfold EmitVarDecl
  exact frame_comp frame_indent (frame_comp (EmitTypePreName_frame G D.type output)
    (frame_comp frame_write (frame_comp frame_write
      (frame_comp (EmitTypePostName_frame G D.type output)
        (EmitInitValue_frame G D.initValue output)))))

theorem EmitArgsLoop_frame (G : CCodeGenerator) :
    ∀ (args : List VarDecl) (count : Int) (output : Sink),
      Frame output (EmitArgsLoop G args count output)
  | [], _, output => by unfold EmitArgsLoop; exact frame_skip
  | A :: rest, count, output => by
      unfold EmitArgsLoop
      exact frame_comp (EmitVarDecl_frame G A output 0) (frame_comp frame_writeIf
        (EmitArgsLoop_frame G rest (count - 1) output))

theorem EmitFunctionArgs_frame (G : CCodeGenerator) (F : FunctionDecl) (output : Sink) :
    Frame output (EmitFunctionArgs G F output) := by
  unfold EmitFunctionArgs
  exact frame_comp frame_write (frame_comp (EmitArgsLoop_frame G F.args _ output)
    (frame_comp frame_writeIf frame_write))

theorem EmitFunctionProto_frame (G : CCodeGenerator) (F : FunctionDecl) (output : Sink) :
    Frame output (EmitFunctionProto G F output) := by
  unfold EmitFunctionProto
  exact frame_comp frame_writeIf (frame_comp (EmitTypePreName_frame G F.returnType output)
    (frame_comp (EmitTypePostName_frame G F.returnType output) (frame_comp frame_write
      (frame_comp (addPrefix_frame G G.curmod F.name output)
        (EmitFunctionArgs_frame G F output)))))

mutual
theorem EmitStructType_frame (G : CCodeGenerator) :
    ∀ (S : StructTypeDecl) (out : Sink) (ind : Nat), Frame out (EmitStructType G S out ind)
  | StructTypeDecl.mk name isStruct isGlobal _ members, out, ind => by
      unfold EmitStructType
      exact frame_comp frame_indent (frame_comp frame_writeIf (frame_comp frame_write
        (frame_comp frame_write (frame_comp (EmitStructMembers_frame G members out ind)
          (frame_comp frame_indent (frame_comp frame_write
            (frame_comp (frame_ite (frame_comp frame_write frame_write) frame_skip)
              (frame_comp frame_write frame_writeIf))))))))
theorem EmitStructMembers_frame (G : CCodeGenerator) :
    ∀ (members : List MemberDecl) (out : Sink) (ind : Nat),
      Frame out (EmitStructMembers G members out ind)
  | [], out, _ => by unfold EmitStructMembers; exact frame_skip
  | MemberDecl.var V :: rest, out, ind => by
      unfold EmitStructMembers
      exact frame_comp (EmitVarDecl_frame G V out _) (frame_comp frame_write
        (EmitStructMembers_frame G rest out ind))
  | MemberDecl.structType S :: rest, out, ind => by
      unfold EmitStructMembers
      exact frame_comp (EmitStructType_frame G S out _) (EmitStructMembers_frame G rest out ind)
  | MemberDecl.other _ :: _, out, _ => by unfold EmitStructMembers; exact frame_abort
end

theorem EmitEnumConstants_frame (G : CCodeGenerator) :
    ∀ (constants : List EnumConstantDecl) (output : Sink),
      Frame output (EmitEnumConstants G constants output)
  | [], output => by unfold EmitEnumConstants; exact frame_skip
  | C :: rest, output => by
      unfold EmitEnumConstants
      exact frame_comp frame_indent (frame_comp (addPrefix_frame G G.curmod C.name output)
        (frame_comp (EmitInitValue_frame G C.initValue output) (frame_comp frame_write
          (EmitEnumConstants_frame G rest output))))

theorem EmitEnumType_frame (G : CCodeGenerator) (E : EnumTypeDecl) (output : Sink) :
    Frame output (EmitEnumType G E output) := by
  unfold EmitEnumType
  exact frame_comp frame_write (frame_comp (EmitEnumConstants_frame G E.constants output)
    (frame_comp frame_write (frame_comp frame_write frame_write)))

theorem EmitFunctionType_frame (G : CCodeGenerator) (F : FunctionDecl) (output : Sink) :
    Frame output (EmitFunctionType G F output) := by
  unfold EmitFunctionType
  exact frame_comp frame_write (frame_comp (EmitTypePreName_frame G F.returnType output)
    (frame_comp (EmitTypePostName_frame G F.returnType output) (frame_comp frame_write
      (frame_comp frame_write (frame_comp frame_write
        (frame_comp (EmitFunctionArgs_frame G F output) frame_write))))))

/-- The routine `EmitTypeDecl` with the buffer it selects as the sink. -/
theorem EmitTypeDecl_frame (G : CCodeGenerator) (T : TypeDecl) :
    Frame (if T.isPublic then Sink.hbuf else Sink.cbuf) (EmitTypeDecl G T) := by
  unfold EmitTypeDecl
  cases T with
  | aliasType name type p =>
      exact frame_comp frame_write (frame_comp (EmitTypePreName_frame G type _)
        (frame_comp frame_write (frame_comp (addPrefix_frame G G.curmod name _)
          (frame_comp (EmitTypePostName_frame G type _) frame_write))))
  | structType S => exact EmitStructType_frame G S _ 0
  | enumType E => exact EmitEnumType_frame G E _
  | functionType F p => exact EmitFunctionType_frame G F _

theorem EmitCastExpr_frame (G : CCodeGenerator) (S : Stmt) :
    Frame Sink.cbuf (EmitCastExpr G S) := by
  unfold EmitCastExpr
  split
  · exact EmitExpr_frame G _ Sink.cbuf
  · exact frame_abort

theorem EmitForPart_frame (G : CCodeGenerator) (e : Option Expr) :
    Frame Sink.cbuf (EmitOptExpr G e) := by
  cases e with
  | none => exact frame_skip
  | some e => exact frame_comp frame_write (EmitExpr_frame G e Sink.cbuf)

theorem compoundBlock_frame {inner : Emit} (h : Frame Sink.cbuf inner) (ind : Nat)
    (startOnNewLine : Bool) : Frame Sink.cbuf (compoundBlock inner ind startOnNewLine) := by
  unfold compoundBlock
  exact frame_comp (frame_ite frame_indent frame_skip) (frame_comp frame_write
    (frame_comp h (frame_comp frame_indent frame_write)))

mutual
/-- Statements are emitted to the source buffer only. -/
theorem EmitStmt_frame (G : CCodeGenerator) :
    ∀ (S : Stmt) (ind : Nat), Frame Sink.cbuf (EmitStmt G S ind)
  | Stmt.returnStmt e, ind => by
      unfold EmitStmt
      exact frame_comp frame_indent (frame_comp frame_write
        (frame_comp (EmitForPart_frame G e) frame_write))
  | Stmt.exprStmt e, ind => by
      unfold EmitStmt
      exact frame_comp frame_indent (frame_comp (EmitExpr_frame G e Sink.cbuf) frame_write)
  | Stmt.ifStmt cond thenStmt elseStmt, ind => by
      unfold EmitStmt
      exact frame_comp frame_indent (frame_comp frame_write
        (frame_comp (EmitExpr_frame G cond Sink.cbuf) (frame_comp frame_write
          (frame_comp (EmitStmt_frame G thenStmt ind) (EmitElse_frame G elseStmt ind)))))
  | Stmt.whileStmt cond body, ind => by
      unfold EmitStmt
      exact frame_comp frame_indent (frame_comp frame_write
        (frame_comp (EmitCastExpr_frame G cond) (frame_comp frame_write
          (frame_ite (EmitCompoundCast_frame G body ind false) (EmitStmt_frame G body 0)))))
  | Stmt.doStmt cond body, ind => by
      unfold EmitStmt
      exact frame_comp frame_indent (frame_comp frame_write
        (frame_comp (frame_ite (EmitCompoundCast_frame G body ind false) (EmitStmt_frame G body 0))
          (frame_comp frame_indent (frame_comp frame_write
            (frame_comp (EmitCastExpr_frame G cond) frame_write)))))
  | Stmt.forStmt init cond incr body, ind => by
      have hi : Frame Sink.cbuf (match init with
          | some i => EmitCastExpr G i
          | none => skip) := by
        cases init with
        | none => exact frame_skip
        | some i => exact EmitCastExpr_frame G i
      unfold EmitStmt
      exact frame_comp frame_indent (frame_comp frame_write (frame_comp hi
        (frame_comp frame_write (frame_comp (EmitForPart_frame G cond)
          (frame_comp frame_write (frame_comp (EmitForPart_frame G incr)
            (frame_comp frame_write
              (frame_ite (EmitCompoundCast_frame G body ind false)
                (EmitStmt_frame G body 0)))))))))
  | Stmt.switchStmt cond cases, ind => by
      unfold EmitStmt
      exact frame_comp frame_indent (frame_comp frame_write
        (frame_comp (EmitExpr_frame G cond Sink.cbuf) (frame_comp frame_write
          (frame_comp (EmitCases_frame G cases ind) (frame_comp frame_indent frame_write)))))
  | Stmt.caseStmt _ _, _ => by unfold EmitStmt; exact frame_abort
  | Stmt.defaultStmt _, _ => by unfold EmitStmt; exact frame_abort
  | Stmt.breakStmt, ind => by unfold EmitStmt; exact frame_comp frame_indent frame_write
  | Stmt.continueStmt, ind => by unfold EmitStmt; exact frame_comp frame_indent frame_write
  | Stmt.labelStmt name subStmt, ind => by
      unfold EmitStmt
      exact frame_comp frame_write (frame_comp frame_write (EmitStmt_frame G subStmt ind))
  | Stmt.gotoStmt name, ind => by
      unfold EmitStmt
      exact frame_comp frame_indent (frame_comp frame_write (frame_comp frame_write frame_write))
  | Stmt.compoundStmt stmts, ind => by
      unfold EmitStmt
      exact compoundBlock_frame (EmitStmtList_frame G stmts _) ind true
theorem EmitCompoundCast_frame (G : CCodeGenerator) :
    ∀ (S : Stmt) (ind : Nat) (startOnNewLine : Bool),
      Frame Sink.cbuf (EmitCompoundCast G S ind startOnNewLine)
  | Stmt.compoundStmt stmts, ind, startOnNewLine => by
      unfold EmitCompoundCast
      exact compoundBlock_frame (EmitStmtList_frame G stmts _) ind startOnNewLine
  | Stmt.returnStmt _, _, _ => by unfold EmitCompoundCast; exact frame_abort
  | Stmt.exprStmt _, _, _ => by unfold EmitCompoundCast; exact frame_abort
  | Stmt.ifStmt _ _ _, _, _ => by unfold EmitCompoundCast; exact frame_abort
  | Stmt.whileStmt _ _, _, _ => by unfold EmitCompoundCast; exact frame_abort
  | Stmt.doStmt _ _, _, _ => by unfold EmitCompoundCast; exact frame_abort
  | Stmt.forStmt _ _ _ _, _, _ => by unfold EmitCompoundCast; exact frame_abort
  | Stmt.switchStmt _ _, _, _ => by unfold EmitCompoundCast; exact frame_abort
  | Stmt.caseStmt _ _, _, _ => by unfold EmitCompoundCast; exact frame_abort
  | Stmt.defaultStmt _, _, _ => by unfold EmitCompoundCast; exact frame_abort
  | Stmt.breakStmt, _, _ => by unfold EmitCompoundCast; exact frame_abort
  | Stmt.continueStmt, _, _ => by unfold EmitCompoundCast; exact frame_abort
  | Stmt.labelStmt _ _, _, _ => by unfold EmitCompoundCast; exact frame_abort
  | Stmt.gotoStmt _, _, _ => by unfold EmitCompoundCast; exact frame_abort
theorem EmitStmtList_frame (G : CCodeGenerator) :
    ∀ (stmts : List Stmt) (ind : Nat), Frame Sink.cbuf (EmitStmtList G stmts ind)
  | [], _ => by unfold EmitStmtList; exact frame_skip
  | S :: rest, ind => by
      unfold EmitStmtList
      exact frame_comp (EmitStmt_frame G S ind) (EmitStmtList_frame G rest ind)
theorem EmitElse_frame (G : CCodeGenerator) :
    ∀ (elseStmt : Option Stmt) (ind : Nat), Frame Sink.cbuf (EmitElse G elseStmt ind)
  | none, _ => by unfold EmitElse; exact frame_skip
  | some S, ind => by
      unfold EmitElse
      exact frame_comp frame_indent (frame_comp frame_write (EmitStmt_frame G S ind))
theorem EmitCases_frame (G : CCodeGenerator) :
    ∀ (cases : List Stmt) (ind : Nat), Frame Sink.cbuf (EmitCases G cases ind)
  | [], _ => by unfold EmitCases; exact frame_skip
  | Stmt.caseStmt cond stmts :: rest, ind => by
      unfold EmitCases
      exact frame_comp frame_indent (frame_comp frame_write
        (frame_comp (EmitExpr_frame G cond Sink.cbuf) (frame_comp frame_write
          (frame_comp (EmitStmtList_frame G stmts _) (EmitCases_frame G rest ind)))))
  | Stmt.defaultStmt stmts :: rest, ind => by
      unfold EmitCases
      exact frame_comp frame_indent (frame_comp frame_write
        (frame_comp (EmitStmtList_frame G stmts _) (EmitCases_frame G rest ind)))
  | Stmt.returnStmt _ :: _, _ => by unfold EmitCases; exact frame_abort
  | Stmt.exprStmt _ :: _, _ => by unfold EmitCases; exact frame_abort
  | Stmt.ifStmt _ _ _ :: _, _ => by unfold EmitCases; exact frame_abort
  | Stmt.whileStmt _ _ :: _, _ => by unfold EmitCases; exact frame_abort
  | Stmt.doStmt _ _ :: _, _ => by unfold EmitCases; exact frame_abort
  | Stmt.forStmt _ _ _ _ :: _, _ => by unfold EmitCases; exact frame_abort
  | Stmt.switchStmt _ _ :: _, _ => by unfold EmitCases; exact frame_abort
  | Stmt.breakStmt :: _, _ => by unfold EmitCases; exact frame_abort
  | Stmt.continueStmt :: _, _ => by unfold EmitCases; exact frame_abort
  | Stmt.labelStmt _ _ :: _, _ => by unfold EmitCases; exact frame_abort
  | Stmt.gotoStmt _ :: _, _ => by unfold EmitCases; exact frame_abort
  | Stmt.compoundStmt _ :: _, _ => by unfold EmitCases; exact frame_abort
end

/-- A compound statement reached through `EmitStmt` is `EmitCompoundStmt` with the
opening brace on a fresh line. -/
theorem EmitStmt_compound (G : CCodeGenerator) (stmts : List Stmt) (ind : Nat) :
    EmitStmt G (Stmt.compoundStmt stmts) ind = EmitCompoundStmt G stmts ind true := by
  rw [EmitStmt, EmitCompoundStmt]

/-- The body of a loop that is a compound statement is `EmitCompoundStmt` with the
opening brace on the line of the loop header. -/
theorem EmitCompoundCast_compound (G : CCodeGenerator) (stmts : List Stmt) (ind : Nat)
    (startOnNewLine : Bool) :
    EmitCompoundCast G (Stmt.compoundStmt stmts) ind startOnNewLine
      = EmitCompoundStmt G stmts ind startOnNewLine := by
  rw [EmitCompoundCast, EmitCompoundStmt]

theorem EmitCompoundStmt_frame (G : CCodeGenerator) (stmts : List Stmt) (ind : Nat)
    (startOnNewLine : Bool) : Frame Sink.cbuf (EmitCompoundStmt G stmts ind startOnNewLine) := by
  unfold EmitCompoundStmt
  exact compoundBlock_frame (EmitStmtList_frame G stmts _) ind startOnNewLine

/-! ## Functions: decomposition of `EmitFunction` and `EmitFunctionProto` -/

theorem bind_appended {output : Sink} {f g : Emit} (hf : Frame output f) (b : Buffers) :
    (f >=> g) b = (appended f).bind (fun x => g (b ++ x)) := by
  rw [kleisli_apply, frame_eq_appended hf b]
  cases appended f <;> simp

/-- `EmitFunction` when it emits a prototype into the header: single-file mode, or
a public function. -/
theorem EmitFunction_with_proto (G : CCodeGenerator) (F : FunctionDecl) (b : Buffers)
    (h : G.mode = Mode.SINGLE_FILE ∨ F.isPublic = true) :
    EmitFunction G F b =
      (appended (EmitFunctionProto G F Sink.hbuf)).bind fun p =>
      (appended (EmitFunctionProto G F Sink.cbuf)).bind fun d =>
      (appended (EmitCompoundStmt G F.body 0 false)).map fun s =>
        Buffers.mk (b.hbuf ++ p.hbuf ++ ";\n\n")
          (b.cbuf ++ p.cbuf ++ d.cbuf ++ " " ++ s.cbuf ++ "\n") := by
  have hbranch : (if G.mode = Mode.SINGLE_FILE then
        EmitFunctionProto G F Sink.hbuf >=> write Sink.hbuf ";\n\n"
      else if F.isPublic then
        EmitFunctionProto G F Sink.hbuf >=> write Sink.hbuf ";\n\n"
      else write Sink.cbuf "static ")
      = (EmitFunctionProto G F Sink.hbuf >=> write Sink.hbuf ";\n\n") := by
    rcases h with h | h <;> simp [h]
  unfold EmitFunction
  rw [hbranch]
  rw [kleisli_apply, bind_appended (EmitFunctionProto_frame G F Sink.hbuf) b]
  cases hP : appended (EmitFunctionProto G F Sink.hbuf) with
  | none => simp
  | some p =>
    simp only [Option.some_bind, write]
    rw [bind_appended (EmitFunctionProto_frame G F Sink.cbuf)]
    cases hD : appended (EmitFunctionProto G F Sink.cbuf) with
    | none => simp
    | some d =>
      simp only [Option.some_bind]
      rw [kleisli_apply]
      simp only [write, Option.some_bind]
      rw [bind_appended (EmitCompoundStmt_frame G F.body 0 false)]
      cases hS : appended (EmitCompoundStmt G F.body 0 false) with
      | none => simp
      | some s =>
        have hd0 := frame_appended_hbuf (EmitFunctionProto_frame G F Sink.cbuf) hD
        have hs0 := frame_appended_hbuf (EmitCompoundStmt_frame G F.body 0 false) hS
        simp [write, Buffers.put, Buffers.append_def, hd0, hs0, String.append_assoc]

/-- `EmitFunction` when it emits no prototype: a non-public function in multi-file
mode. -/
theorem EmitFunction_without_proto (G : CCodeGenerator) (F : FunctionDecl) (b : Buffers)
    (hmode : G.mode = Mode.MULTI_FILE) (hpub : F.isPublic = false) :
    EmitFunction G F b =
      (appended (EmitFunctionProto G F Sink.cbuf)).bind fun d =>
      (appended (EmitCompoundStmt G F.body 0 false)).map fun s =>
        Buffers.mk b.hbuf (b.cbuf ++ "static " ++ d.cbuf ++ " " ++ s.cbuf ++ "\n") := by
  unfold EmitFunction
  simp only [hmode, hpub, if_false, reduceCtorEq, Bool.false_eq_true]
  rw [kleisli_apply]
  simp only [write, Option.some_bind]
  rw [bind_appended (EmitFunctionProto_frame G F Sink.cbuf)]
  cases hD : appended (EmitFunctionProto G F Sink.cbuf) with
  | none => simp
  | some d =>
    simp only [Option.some_bind]
    rw [kleisli_apply]
    simp only [write, Option.some_bind]
    rw [bind_appended (EmitCompoundStmt_frame G F.body 0 false)]
    cases hS : appended (EmitCompoundStmt G F.body 0 false) with
    | none => simp
    | some s =>
      have hd0 := frame_appended_hbuf (EmitFunctionProto_frame G F Sink.cbuf) hD
      have hs0 := frame_appended_hbuf (EmitCompoundStmt_frame G F.body 0 false) hS
      simp [write, Buffers.put, Buffers.append_def, hd0, hs0, String.append_assoc]

/-- The prototype as a text: an optional `static `, the return type, a space, the
name `addPrefix` gives, the arguments. -/
theorem EmitFunctionProto_text (G : CCodeGenerator) (F : FunctionDecl) (output : Sink)
    (b : Buffers) :
    EmitFunctionProto G F output b =
      (appended (EmitTypePreName G F.returnType output)).bind fun r =>
      (appended (EmitTypePostName G F.returnType output)).bind fun q =>
      (appended (addPrefix G G.curmod F.name output)).bind fun m =>
      (appended (EmitFunctionArgs G F output)).map fun a =>
        b ++ Buffers.empty.put output
            (if G.mode = Mode.SINGLE_FILE ∧ F.name ≠ "main" then "static " else "")
          ++ r ++ q ++ Buffers.empty.put output " " ++ m ++ a := by
  unfold EmitFunctionProto
  rw [kleisli_apply]
  have h1 : writeIf (decide (G.mode = Mode.SINGLE_FILE ∧ F.name ≠ "main")) output "static " b
      = some (b ++ Buffers.empty.put output
          (if G.mode = Mode.SINGLE_FILE ∧ F.name ≠ "main" then "static " else "")) := by
    unfold writeIf
    by_cases hc : G.mode = Mode.SINGLE_FILE ∧ F.name ≠ "main"
    · simp [hc, write, Buffers.put_eq_append b]
    · simp [hc, skip, Buffers.put_empty]
  rw [h1]
  simp only [Option.some_bind]
  rw [bind_appended (EmitTypePreName_frame G F.returnType output)]
  cases appended (EmitTypePreName G F.returnType output) with
  | none => simp
  | some r =>
    simp only [Option.some_bind]
    rw [bind_appended (EmitTypePostName_frame G F.returnType output)]
    cases appended (EmitTypePostName G F.returnType output) with
    | none => simp
    | some q =>
      simp only [Option.some_bind]
      rw [kleisli_apply]
      simp only [write, Option.some_bind]
      rw [bind_appended (addPrefix_frame G G.curmod F.name output)]
      cases appended (addPrefix G G.curmod F.name output) with
      | none => simp
      | some m =>
        simp only [Option.some_bind]
        rw [frame_eq_appended (EmitFunctionArgs_frame G F output)]
        cases appended (EmitFunctionArgs G F output) with
        | none => simp
        | some a =>
          cases output <;>
            simp [Buffers.put, Buffers.append_def, Buffers.empty, String.append_assoc]

theorem addPrefix_main (G : CCodeGenerator) (m : String) (output : Sink) :
    appended (addPrefix G m "main" output) = some (Buffers.empty.put output "main") := by
  unfold appended addPrefix GenUtils.addName
  by_cases h1 : m = ""
  · simp [h1, write]
  · by_cases h2 : CCodeGenerator.no_local_prefix G = true ∧ m = G.curmod
    · simp [h1, h2, write]
    · simp [h1, h2, write]

/-! ## Types and initialisers made of integer literals -/

theorem EmitSizeExpr_uniform (G : CCodeGenerator) (sizeExpr : Option Expr)
    (h : literalOrAbsent sizeExpr = true) : Uniform (EmitSizeExpr G sizeExpr) := by
  cases sizeExpr with
  | none => exact ⟨some "", fun o b => by simp [EmitSizeExpr, skip, Buffers.put_empty]⟩
  | some e =>
    cases e <;> simp [literalOrAbsent, Expr.isIntegerLiteral] at h
    exact ⟨some _, fun o b => by simp [EmitSizeExpr, EmitExpr]; rfl⟩

theorem EmitInitValue_uniform (G : CCodeGenerator) (init : Option Expr)
    (h : literalOrAbsent init = true) : Uniform (EmitInitValue G init) := by
  cases init with
  | none => exact ⟨some "", fun o b => by simp [EmitInitValue, skip, Buffers.put_empty]⟩
  | some e =>
    cases e <;> simp [literalOrAbsent, Expr.isIntegerLiteral] at h
    rename_i v
    have hu := uniform_comp (uniform_write " = ")
      (uniform_write (toString (castToInt v)))
    obtain ⟨t, ht⟩ := hu
    exact ⟨t, fun o b => by rw [← ht]; simp [EmitInitValue, EmitExpr]⟩

/-- With literal sizes the post-name part of a type is the same text for every
sink, and its emission does not abort. -/
theorem EmitTypePostName_uniform (G : CCodeGenerator) :
    ∀ (t : QualType), t.sizesAreLiteral = true → Uniform (EmitTypePostName G t)
  | QualType.array _ element sizeExpr, h => by
      simp [QualType.sizesAreLiteral] at h
      have h1 := EmitTypePostName_uniform G element h.2
      have hu := uniform_comp h1 (uniform_comp (uniform_write "[")
        (uniform_comp (EmitSizeExpr_uniform G sizeExpr h.1) (uniform_write "]")))
      obtain ⟨t, ht⟩ := hu
      exact ⟨t, fun o b => by rw [← ht]; simp [EmitTypePostName]⟩
  | QualType.alias _ _ refType, h => by
      simp [QualType.sizesAreLiteral] at h
      obtain ⟨t, ht⟩ := EmitTypePostName_uniform G refType h
      exact ⟨t, fun o b => by rw [← ht]; simp [EmitTypePostName]⟩
  | QualType.builtin _ _, _ =>
      ⟨some "", fun o b => by simp [EmitTypePostName, skip, Buffers.put_empty]⟩
  | QualType.pointer _ _, _ =>
      ⟨some "", fun o b => by simp [EmitTypePostName, skip, Buffers.put_empty]⟩
  | QualType.unresolved _ _, _ =>
      ⟨some "", fun o b => by simp [EmitTypePostName, skip, Buffers.put_empty]⟩
  | QualType.struct _ _, _ =>
      ⟨some "", fun o b => by simp [EmitTypePostName, skip, Buffers.put_empty]⟩
  | QualType.enum _ _, _ =>
      ⟨some "", fun o b => by simp [EmitTypePostName, skip, Buffers.put_empty]⟩
  | QualType.function _ _, _ =>
      ⟨some "", fun o b => by simp [EmitTypePostName, skip, Buffers.put_empty]⟩
  | QualType.package _, _ =>
      ⟨some "", fun o b => by simp [EmitTypePostName, skip, Buffers.put_empty]⟩

/-! ## Variables and type declarations -/

/-- The structural definition of `EmitTypePostName` is the source's: test
`isArrayType()`, take the canonical type, emit the element's post-name, then the
brackets around the optional size. -/
theorem EmitTypePostName_source (G : CCodeGenerator) :
    ∀ (t : QualType) (output : Sink), EmitTypePostName G t output =
      if t.isArrayType then
        match t.getCanonicalType with
        | QualType.array _ element sizeExpr =>
            EmitTypePostName G element output >=> write output "["
              >=> EmitSizeExpr G sizeExpr output >=> write output "]"
        | _ => abort
      else skip
  | QualType.alias _ _ refType, output => by
      have ih := EmitTypePostName_source G refType output
      rw [EmitTypePostName, ih]
      simp [QualType.isArrayType, QualType.getCanonicalType]
  | QualType.array _ element sizeExpr, output => by
      simp [EmitTypePostName, QualType.isArrayType, QualType.getCanonicalType]
  | QualType.builtin _ _, output => by
      simp [EmitTypePostName, QualType.isArrayType, QualType.getCanonicalType]
  | QualType.pointer _ _, output => by
      simp [EmitTypePostName, QualType.isArrayType, QualType.getCanonicalType]
  | QualType.unresolved _ _, output => by
      simp [EmitTypePostName, QualType.isArrayType, QualType.getCanonicalType]
  | QualType.struct _ _, output => by
      simp [EmitTypePostName, QualType.isArrayType, QualType.getCanonicalType]
  | QualType.enum _ _, output => by
      simp [EmitTypePostName, QualType.isArrayType, QualType.getCanonicalType]
  | QualType.function _ _, output => by
      simp [EmitTypePostName, QualType.isArrayType, QualType.getCanonicalType]
  | QualType.package _, output => by
      simp [EmitTypePostName, QualType.isArrayType, QualType.getCanonicalType]

theorem frame_sourceOnly {f : Emit} (h : Frame Sink.cbuf f) : SourceOnly f := by
  refine ⟨(appended f).map Buffers.cbuf, fun b => ?_⟩
  rw [frame_eq_appended h b]
  cases hx : appended f with
  | none => simp
  | some x =>
    have h0 := frame_appended_hbuf h hx
    simp [Buffers.append_def, h0]

theorem EmitVariable_frame_static (G : CCodeGenerator) (V : VarDecl)
    (h : ¬ (V.isPublic = true ∧ G.mode ≠ Mode.SINGLE_FILE)) :
    Frame Sink.cbuf (EmitVariable G V) := by
  unfold EmitVariable
  simp only [h, if_false]
  exact frame_comp frame_write (frame_comp (EmitTypePreName_frame G V.type Sink.cbuf)
    (frame_comp frame_write (frame_comp (addPrefix_frame G G.curmod V.name Sink.cbuf)
      (frame_comp (EmitTypePostName_frame G V.type Sink.cbuf)
        (frame_comp (EmitInitValue_frame G V.initValue Sink.cbuf)
          (frame_comp frame_write frame_write))))))

theorem EmitFunction_frame_private (G : CCodeGenerator) (F : FunctionDecl)
    (hmode : G.mode = Mode.MULTI_FILE) (hpub : F.isPublic = false) :
    Frame Sink.cbuf (EmitFunction G F) := by
  unfold EmitFunction
  simp only [hmode, hpub, if_false, reduceCtorEq, Bool.false_eq_true]
  exact frame_comp frame_write (frame_comp (EmitFunctionProto_frame G F Sink.cbuf)
    (frame_comp frame_write (frame_comp (EmitCompoundStmt_frame G F.body 0 false) frame_write)))

theorem appended_write_comp {output : Sink} (o : Sink) (s : String) {g : Emit}
    (hg : Frame output g) :
    appended (write o s >=> g) = (appended g).map (fun x => Buffers.empty.put o s ++ x) := by
  show (write o s >=> g) Buffers.empty = _
  rw [kleisli_apply]
  simp only [write, Option.some_bind]
  rw [frame_eq_appended hg]

theorem headerEnds_write (s : String) : HeaderEnds (write Sink.hbuf s) s := by
  intro x hx
  simp [appended, write, Buffers.put, Buffers.empty] at hx
  exact ⟨"", by rw [← hx]; simp⟩

theorem headerEnds_write_write (s t : String) :
    HeaderEnds (write Sink.hbuf s >=> write Sink.hbuf t) (s ++ t) := by
  intro x hx
  simp [appended, kleisli_apply, write, Buffers.put, Buffers.empty] at hx
  exact ⟨"", by rw [← hx]; simp⟩

theorem headerEnds_comp {o1 o2 : Sink} {f g : Emit} {s : String} (hf : Frame o1 f)
    (hg : Frame o2 g) (h : HeaderEnds g s) : HeaderEnds (f >=> g) s := by
  intro x hx
  have e : appended (f >=> g) = (appended f).bind (fun u => g (Buffers.empty ++ u)) :=
    bind_appended hf Buffers.empty
  rw [e] at hx
  cases hu : appended f with
  | none => simp [hu] at hx
  | some u =>
    simp only [hu, Option.some_bind, Buffers.empty_append] at hx
    rw [frame_eq_appended hg] at hx
    cases hv : appended g with
    | none => simp [hv] at hx
    | some v =>
      simp only [hv, Option.map_some', Option.some.injEq] at hx
      obtain ⟨y, hy⟩ := h v hv
      exact ⟨u.hbuf ++ y, by rw [← hx]; simp [hy, String.append_assoc]⟩

/-- A step that writes `s` to the header, then runs `g`, whose header text ends
with `e`: the header text is `s`, a middle part, `e`. -/
theorem header_shape {output : Sink} (s e : String) {g : Emit} (hg : Frame output g)
    (he : HeaderEnds g e) :
    ∀ d, appended (write Sink.hbuf s >=> g) = some d → ∃ decl, d.hbuf = s ++ decl ++ e := by
  intro d hd
  rw [appended_write_comp Sink.hbuf s hg] at hd
  cases hx : appended g with
  | none => simp [hx] at hd
  | some x =>
    simp only [hx, Option.map_some', Option.some.injEq] at hd
    obtain ⟨y, hy⟩ := he x hx
    exact ⟨y, by rw [← hd]; simp [Buffers.put, Buffers.empty, hy, String.append_assoc]⟩

/-- A public type declaration is emitted into the header as one `typedef`. -/
theorem EmitTypeDecl_public_typedef (G : CCodeGenerator) (T : TypeDecl)
    (hpub : T.isPublic = true)
    (hglobal : ∀ S, T = TypeDecl.structType S → S.isGlobal = true) :
    ∀ d, appended (EmitTypeDecl G T) = some d →
      ∃ decl, d.hbuf = "typedef " ++ decl ++ ";\n\n" := by
  cases T with
  | aliasType name type p =>
    simp only [TypeDecl.isPublic] at hpub
    subst hpub
    unfold EmitTypeDecl
    simp only [TypeDecl.isPublic, if_true]
    have w : ∀ s, Frame Sink.hbuf (write Sink.hbuf s) := fun s => frame_write
    have hpost := EmitTypePostName_frame G type Sink.hbuf
    have hend : HeaderEnds (EmitTypePostName G type Sink.hbuf >=> write Sink.hbuf ";\n\n")
        ";\n\n" := headerEnds_comp hpost frame_write (headerEnds_write _)
    exact header_shape "typedef " ";\n\n"
      (frame_comp (EmitTypePreName_frame G type Sink.hbuf) (frame_comp frame_write
        (frame_comp (addPrefix_frame G G.curmod name Sink.hbuf)
          (frame_comp hpost frame_write))))
      (headerEnds_comp (EmitTypePreName_frame G type Sink.hbuf)
        (frame_comp frame_write (frame_comp (addPrefix_frame G G.curmod name Sink.hbuf)
          (frame_comp hpost frame_write)))
        (headerEnds_comp (w _)
          (frame_comp (addPrefix_frame G G.curmod name Sink.hbuf) (frame_comp hpost frame_write))
          (headerEnds_comp (addPrefix_frame G G.curmod name Sink.hbuf)
            (frame_comp hpost frame_write) hend)))
  | enumType E =>
    simp only [TypeDecl.isPublic] at hpub
    unfold EmitTypeDecl
    simp only [TypeDecl.isPublic, hpub, if_true]
    unfold EmitEnumType
    have w : ∀ s, Frame Sink.hbuf (write Sink.hbuf s) := fun s => frame_write
    have hc := EmitEnumConstants_frame G E.constants Sink.hbuf
    have hend : HeaderEnds (write Sink.hbuf E.name >=> write Sink.hbuf ";\n\n") ";\n\n" :=
      headerEnds_comp (w _) (w _)
        (headerEnds_write _)
    intro d hd
    obtain ⟨decl, hdecl⟩ := header_shape "typedef enum \x7b\n" ";\n\n"
      (frame_comp hc (frame_comp frame_write (frame_comp frame_write frame_write)))
      (headerEnds_comp hc (frame_comp (w _)
          (frame_comp frame_write frame_write))
        (headerEnds_comp (w _)
          (frame_comp (w _) frame_write) hend)) d hd
    refine ⟨"enum \x7b\n" ++ decl, ?_⟩
    rw [hdecl]
    have e : "typedef enum \x7b\n" = "typedef " ++ "enum \x7b\n" := rfl
    rw [e]
    simp only [String.append_assoc]
  | functionType F p =>
    simp only [TypeDecl.isPublic] at hpub
    subst hpub
    unfold EmitTypeDecl
    simp only [TypeDecl.isPublic, if_true]
    unfold EmitFunctionType
    have h1 := EmitTypePreName_frame G F.returnType Sink.hbuf
    have h2 := EmitTypePostName_frame G F.returnType Sink.hbuf
    have h3 := EmitFunctionArgs_frame G F Sink.hbuf
    have w : ∀ s, Frame Sink.hbuf (write Sink.hbuf s) := fun s => frame_write
    have hend : HeaderEnds (EmitFunctionArgs G F Sink.hbuf >=> write Sink.hbuf ";\n\n")
        ";\n\n" := headerEnds_comp h3 (w _) (headerEnds_write _)
    have f5 := frame_comp h3 (w ";\n\n")
    have f4 := frame_comp (w ")") f5
    have f3 := frame_comp (w F.name) f4
    have f2 := frame_comp (w " (*") f3
    have f1 := frame_comp h2 f2
    exact header_shape "typedef " ";\n\n" (frame_comp h1 f1)
      (headerEnds_comp h1 f1 (headerEnds_comp h2 f2 (headerEnds_comp (w _) f3
        (headerEnds_comp (w _) f4 (headerEnds_comp (w _) f5 hend)))))
  | structType S =>
    have hg := hglobal S rfl
    cases S with
    | mk name isStruct isGlobal p members =>
      simp only [TypeDecl.isPublic, StructTypeDecl.isPublic] at hpub
      simp only [StructTypeDecl.isGlobal] at hg
      subst hpub
      subst hg
      unfold EmitTypeDecl
      simp only [TypeDecl.isPublic, StructTypeDecl.isPublic, if_true]
      unfold EmitStructType
      have w : ∀ s, Frame Sink.hbuf (write Sink.hbuf s) := fun s => frame_write
      have hm := EmitStructMembers_frame G members Sink.hbuf 0
      have hn : Frame Sink.hbuf
          (if name ≠ "" then write Sink.hbuf " " >=> write Sink.hbuf name else skip) :=
        frame_ite (frame_comp (w _) (w _)) frame_skip
      have hi : Frame Sink.hbuf (indent Sink.hbuf 0) := frame_indent
      have hend : HeaderEnds (write Sink.hbuf ";\n" >=> writeIf true Sink.hbuf "\n") ";\n\n" :=
        headerEnds_write_write ";\n" "\n"
      have f8 : Frame Sink.hbuf (write Sink.hbuf ";\n" >=> writeIf true Sink.hbuf "\n") :=
        frame_comp (w _) frame_writeIf
      have f7 := frame_comp hn f8
      have f6 := frame_comp (w "\x7d") f7
      have f5 := frame_comp hi f6
      have f4 := frame_comp hm f5
      have f3 := frame_comp (w "\x7b\n") f4
      have f2 := frame_comp (w (if isStruct then "struct " else "union ")) f3
      have hends : HeaderEnds _ ";\n\n" :=
        headerEnds_comp (w (if isStruct then "struct " else "union ")) f3
          (headerEnds_comp (w _) f4 (headerEnds_comp hm f5 (headerEnds_comp hi f6
            (headerEnds_comp (w _) f7 (headerEnds_comp hn f8 hend)))))
      intro d hd
      have hd2 : appended (write Sink.hbuf "typedef " >=>
          (write Sink.hbuf (if isStruct then "struct " else "union ") >=>
            write Sink.hbuf "\x7b\n" >=> EmitStructMembers G members Sink.hbuf 0 >=>
            indent Sink.hbuf 0 >=> write Sink.hbuf "\x7d" >=>
            (if name ≠ "" then write Sink.hbuf " " >=> write Sink.hbuf name else skip) >=>
            write Sink.hbuf ";\n" >=> writeIf true Sink.hbuf "\n")) = some d := by
        rw [← hd]
        show _ = (indent Sink.hbuf 0 >=> _) Buffers.empty
        rw [kleisli_apply]
        rfl
      exact header_shape "typedef " ";\n\n" f2 hends d hd2

/-- `EmitVariable` for a public variable in multi-file mode, as texts. `r`, `m`, `qc`
and `i` are the pre-name, the mangled name, the post-name and the initialiser part
as emitted into the source; `qh` is the post-name as emitted into the header. -/
theorem EmitVariable_extern (G : CCodeGenerator) (V : VarDecl) (b : Buffers)
    (hpub : V.isPublic = true) (hmode : G.mode = Mode.MULTI_FILE) :
    EmitVariable G V b =
      (appended (EmitTypePreName G V.type Sink.cbuf)).bind fun r =>
      (appended (addPrefix G G.curmod V.name Sink.cbuf)).bind fun m =>
      (appended (EmitTypePostName G V.type Sink.hbuf)).bind fun qh =>
      (appended (EmitTypePostName G V.type Sink.cbuf)).bind fun qc =>
      (appended (EmitInitValue G V.initValue Sink.cbuf)).map fun i =>
        Buffers.mk (b.hbuf ++ "extern " ++ r.cbuf ++ " " ++ m.cbuf ++ qh.hbuf ++ ";\n\n")
          (b.cbuf ++ qh.cbuf ++ r.cbuf ++ " " ++ m.cbuf ++ qc.cbuf ++ i.cbuf ++ ";\n\n") := by
  obtain ⟨tr, hr⟩ := EmitTypePreName_uniform G V.type
  obtain ⟨tm, hm⟩ := addPrefix_uniform G G.curmod V.name
  have hra : appended (EmitTypePreName G V.type Sink.cbuf)
      = tr.map (fun s => Buffers.mk "" s) := by
    cases tr <;> simp [appended, hr, Buffers.empty, Buffers.put]
  have hma : appended (addPrefix G G.curmod V.name Sink.cbuf)
      = tm.map (fun s => Buffers.mk "" s) := by
    cases tm <;> simp [appended, hm, Buffers.empty, Buffers.put]
  have hqh := fun x => frame_eq_appended (EmitTypePostName_frame G V.type Sink.hbuf) x
  have hqc := fun x => frame_eq_appended (EmitTypePostName_frame G V.type Sink.cbuf) x
  have hi := fun x => frame_eq_appended (EmitInitValue_frame G V.initValue Sink.cbuf) x
  have nl : ∀ x : String, ";\n" ++ ("\n" ++ x) = ";\n\n" ++ x := fun x => by
    rw [← String.append_assoc]; rfl
  have nl2 : ";\n" ++ "\n" = ";\n\n" := rfl
  have hc : V.isPublic = true ∧ G.mode ≠ Mode.SINGLE_FILE := ⟨hpub, by rw [hmode]; decide⟩
  unfold EmitVariable
  rw [if_pos hc, hra, hma]
  simp only [kleisli_apply, write, hr, hm, Option.some_bind]
  cases tr with
  | none => simp [kleisli_apply, write, hr]
  | some r =>
    cases tm with
    | none => simp [kleisli_apply, write, hr, hm]
    | some m =>
      simp only [kleisli_apply, write, hr, hm, Option.map_some', Option.some_bind]
      rw [hqh]
      cases hQh : appended (EmitTypePostName G V.type Sink.hbuf) with
      | none => simp
      | some qh =>
        simp only [kleisli_apply, write, hr, hm, Option.map_some', Option.some_bind]
        rw [hqc]
        cases hQc : appended (EmitTypePostName G V.type Sink.cbuf) with
        | none => simp
        | some qc =>
          simp only [kleisli_apply, write, hr, hm, Option.map_some', Option.some_bind]
          rw [hi]
          cases hI : appended (EmitInitValue G V.initValue Sink.cbuf) with
          | none => simp
          | some i =>
            have h1 := frame_appended_hbuf (EmitTypePostName_frame G V.type Sink.cbuf) hQc
            have h2 := frame_appended_hbuf (EmitInitValue_frame G V.initValue Sink.cbuf) hI
            simp [Buffers.put, Buffers.append_def, String.append_assoc, nl, nl2, h1, h2]

/-! ## Prototypes made of integer literals -/

theorem uniform_indent (n : Nat) : Uniform (fun output => indent output n) :=
  ⟨some _, fun _ _ => rfl⟩

theorem EmitVarDecl_uniform (G : CCodeGenerator) (D : VarDecl) (ind : Nat)
    (h1 : D.type.sizesAreLiteral = true) (h2 : literalOrAbsent D.initValue = true) :
    Uniform (fun output => EmitVarDecl G D output ind) :=
  uniform_comp (uniform_indent ind) (uniform_comp (EmitTypePreName_uniform G D.type)
    (uniform_comp (uniform_write " ") (uniform_comp (uniform_write D.name)
      (uniform_comp (EmitTypePostName_uniform G D.type h1)
        (EmitInitValue_uniform G D.initValue h2)))))

theorem EmitArgsLoop_uniform (G : CCodeGenerator) :
    ∀ (args : List VarDecl) (count : Int),
      args.all (fun A => A.type.sizesAreLiteral && literalOrAbsent A.initValue) = true →
      Uniform (fun output => EmitArgsLoop G args count output)
  | [], _, _ => uniform_skip
  | A :: rest, count, h => by
      simp only [List.all_cons, Bool.and_eq_true] at h
      exact uniform_comp (EmitVarDecl_uniform G A 0 h.1.1 h.1.2)
        (uniform_comp (uniform_writeIf _ ", ") (EmitArgsLoop_uniform G rest (count - 1) h.2))

theorem EmitFunctionProto_uniform (G : CCodeGenerator) (F : FunctionDecl)
    (h : F.protoIsLiteral = true) : Uniform (EmitFunctionProto G F) := by
  simp only [FunctionDecl.protoIsLiteral, Bool.and_eq_true] at h
  exact uniform_comp (uniform_writeIf _ "static ")
    (uniform_comp (EmitTypePreName_uniform G F.returnType)
      (uniform_comp (EmitTypePostName_uniform G F.returnType h.1)
        (uniform_comp (uniform_write " ") (uniform_comp (addPrefix_uniform G G.curmod F.name)
          (uniform_comp (uniform_write "(") (uniform_comp (EmitArgsLoop_uniform G F.args _ h.2)
            (uniform_comp (uniform_writeIf F.isVariadic "...") (uniform_write ")"))))))))

/-- A sink-independent routine gives the header, when it is the sink, the very text
it gives the source when that is the sink, and then nothing reaches the other
buffer. -/
theorem uniform_appended {f : Sink → Emit} (hf : Uniform f) (p d : Buffers)
    (hp : appended (f Sink.hbuf) = some p) (hd : appended (f Sink.cbuf) = some d) :
    p.cbuf = "" ∧ p.hbuf = d.cbuf := by
  obtain ⟨t, ht⟩ := hf
  cases t with
  | none => simp [appended, ht] at hp
  | some s =>
    simp [appended, ht, Buffers.put, Buffers.empty] at hp hd
    rw [← hp, ← hd]
    simp

/-! ## The include sets -/

theorem strLess_iff (x y : String) : strLess x y ↔ x < y := String.lt_iff_toList_lt.symm

theorem mem_setInsert (x n : String) : ∀ l : List String, n ∈ setInsert x l ↔ n = x ∨ n ∈ l
  | [] => by simp [setInsert]
  | y :: ys => by
      have ih := mem_setInsert x n ys
      unfold setInsert
      by_cases h1 : strLess x y
      · simp [h1]
      · by_cases h2 : x = y
        · subst h2
          simp only [h1, if_false, if_true, List.mem_cons]; tauto
        · simp only [h1, h2, if_false, List.mem_cons, ih]; tauto

theorem setInsert_sorted (x : String) :
    ∀ l : List String, l.Sorted (fun a b => a < b) → (setInsert x l).Sorted (fun a b => a < b)
  | [], _ => by simp [setInsert]
  | y :: ys, h => by
      have ih := setInsert_sorted x ys
      have hy := List.sorted_cons.1 h
      unfold setInsert
      by_cases h1 : strLess x y
      · simp only [h1, if_true]
        have hxy := (strLess_iff x y).1 h1
        refine List.sorted_cons.2 ⟨fun z hz => ?_, h⟩
        rcases List.mem_cons.1 hz with rfl | hz
        · exact hxy
        · exact lt_trans hxy (hy.1 z hz)
      · by_cases h2 : x = y
        · subst h2
          simp only [h1, if_false, if_true]; exact h
        · simp only [h1, h2, if_false]
          have hyx : y < x := by
            rcases lt_trichotomy x y with h3 | h3 | h3
            · exact absurd ((strLess_iff x y).2 h3) h1
            · exact absurd h3 h2
            · exact h3
          refine List.sorted_cons.2 ⟨fun z hz => ?_, ih hy.2⟩
          rcases (mem_setInsert x z ys).1 hz with rfl | hz
          · exact hyx
          · exact hy.1 z hz

theorem sorted_ext {l1 l2 : List String} (h1 : l1.Sorted (fun a b => a < b))
    (h2 : l2.Sorted (fun a b => a < b)) (h : ∀ n, n ∈ l1 ↔ n ∈ l2) : l1 = l2 :=
  List.eq_of_perm_of_sorted ((List.perm_ext_iff_of_nodup h1.nodup h2.nodup).2 h) h1 h2

theorem collectImports_append (G : CCodeGenerator) (modules : Modules) :
    ∀ (l1 l2 : List ImportDecl) (acc : List String × List String),
      collectImports G modules (l1 ++ l2) acc
        = (collectImports G modules l1 acc).bind (collectImports G modules l2)
  | [], l2, acc => by simp [collectImports]
  | D :: rest, l2, acc => by
      simp only [List.cons_append, collectImports]
      cases modules D.moduleName with
      | none => simp
      | some P =>
        simp only
        split
        · exact collectImports_append G modules rest l2 _
        · split
          · exact collectImports_append G modules rest l2 _
          · exact collectImports_append G modules rest l2 _

theorem collectIncludes_flat (G : CCodeGenerator) (modules : Modules) :
    ∀ (entries : List AST) (acc : List String × List String),
      collectIncludes G modules entries acc
        = collectImports G modules (allImports entries) acc
  | [], acc => by simp [collectIncludes, allImports, collectImports]
  | ast :: rest, acc => by
      have ih := collectIncludes_flat G modules rest
      simp only [collectIncludes, allImports, List.flatMap_cons, collectImports_append]
      cases collectImports G modules ast.imports acc with
      | none => simp
      | some a => simp [ih, allImports]

theorem collectImports_none (G : CCodeGenerator) (modules : Modules) :
    ∀ (ds : List ImportDecl) (acc : List String × List String),
      (∃ D ∈ ds, modules D.moduleName = none) → collectImports G modules ds acc = none
  | [], _, h => by simp at h
  | D :: rest, acc, h => by
      unfold collectImports
      cases hD : modules D.moduleName with
      | none => rfl
      | some P =>
        obtain ⟨E, hE, hEn⟩ := h
        have hrest : ∃ D ∈ rest, modules D.moduleName = none := by
          rcases List.mem_cons.1 hE with rfl | hE
          · rw [hD] at hEn; cases hEn
          · exact ⟨E, hE, hEn⟩
        simp only
        split
        · exact collectImports_none G modules rest _ hrest
        · split
          · exact collectImports_none G modules rest _ hrest
          · exact collectImports_none G modules rest _ hrest

theorem collectImports_some (G : CCodeGenerator) (modules : Modules) :
    ∀ (ds : List ImportDecl) (acc : List String × List String),
      (∀ D ∈ ds, (modules D.moduleName).isSome = true) →
      ∃ r, collectImports G modules ds acc = some r ∧
        (acc.1.Sorted (fun a b => a < b) → r.1.Sorted (fun a b => a < b)) ∧
        (acc.2.Sorted (fun a b => a < b) → r.2.Sorted (fun a b => a < b)) ∧
        (∀ n, n ∈ r.1 ↔ n ∈ acc.1 ∨ ∃ D ∈ ds, ∃ P,
          modules D.moduleName = some P ∧ P.isPlainC = true ∧ P.name = n) ∧
        (∀ n, n ∈ r.2 ↔ n ∈ acc.2 ∨ (G.mode = Mode.MULTI_FILE ∧ ∃ D ∈ ds, ∃ P,
          modules D.moduleName = some P ∧ P.isPlainC = false ∧ P.name = n))
  | [], acc, _ => ⟨acc, by simp [collectImports]⟩
  | D :: rest, acc, h => by
      have hD := h D (List.mem_cons_self _ _)
      have hrest : ∀ E ∈ rest, (modules E.moduleName).isSome = true :=
        fun E hE => h E (List.mem_cons_of_mem _ hE)
      unfold collectImports
      cases hP : modules D.moduleName with
      | none => rw [hP] at hD; cases hD
      | some P =>
        simp only
        by_cases hc : P.isPlainC = true
        · obtain ⟨r, hr, s1, s2, m1, m2⟩ :=
            collectImports_some G modules rest (setInsert P.name acc.1, acc.2) hrest
          refine ⟨r, by simp [hc, hr], fun hs => s1 (setInsert_sorted _ _ hs), s2,
            fun n => ?_, fun n => ?_⟩
          · rw [m1 n, mem_setInsert]
            constructor
            · rintro ((rfl | h1) | ⟨E, hE, Q, hQ, hq1, hq2⟩)
              · exact Or.inr ⟨D, List.mem_cons_self _ _, P, hP, hc, rfl⟩
              · exact Or.inl h1
              · exact Or.inr ⟨E, List.mem_cons_of_mem _ hE, Q, hQ, hq1, hq2⟩
            · rintro (h1 | ⟨E, hE, Q, hQ, hq1, hq2⟩)
              · exact Or.inl (Or.inr h1)
              · rcases List.mem_cons.1 hE with rfl | hE
                · rw [hP] at hQ; cases hQ; exact Or.inl (Or.inl hq2.symm)
                · exact Or.inr ⟨E, hE, Q, hQ, hq1, hq2⟩
          · rw [m2 n]
            constructor
            · rintro (h1 | ⟨hm, E, hE, Q, hQ, hq1, hq2⟩)
              · exact Or.inl h1
              · exact Or.inr ⟨hm, E, List.mem_cons_of_mem _ hE, Q, hQ, hq1, hq2⟩
            · rintro (h1 | ⟨hm, E, hE, Q, hQ, hq1, hq2⟩)
              · exact Or.inl h1
              · rcases List.mem_cons.1 hE with rfl | hE
                · rw [hP] at hQ; cases hQ; rw [hc] at hq1; cases hq1
                · exact Or.inr ⟨hm, E, hE, Q, hQ, hq1, hq2⟩
        · have hc' : P.isPlainC = false := by simpa using hc
          by_cases hmode : G.mode = Mode.MULTI_FILE
          · obtain ⟨r, hr, s1, s2, m1, m2⟩ :=
              collectImports_some G modules rest (acc.1, setInsert P.name acc.2) hrest
            refine ⟨r, by simp [hc', hmode, hr], s1, fun hs => s2 (setInsert_sorted _ _ hs),
              fun n => ?_, fun n => ?_⟩
            · rw [m1 n]
              constructor
              · rintro (h1 | ⟨E, hE, Q, hQ, hq1, hq2⟩)
                · exact Or.inl h1
                · exact Or.inr ⟨E, List.mem_cons_of_mem _ hE, Q, hQ, hq1, hq2⟩
              · rintro (h1 | ⟨E, hE, Q, hQ, hq1, hq2⟩)
                · exact Or.inl h1
                · rcases List.mem_cons.1 hE with rfl | hE
                  · rw [hP] at hQ; cases hQ; rw [hc'] at hq1; cases hq1
                  · exact Or.inr ⟨E, hE, Q, hQ, hq1, hq2⟩
            · rw [m2 n, mem_setInsert]
              constructor
              · rintro ((rfl | h1) | ⟨hm, E, hE, Q, hQ, hq1, hq2⟩)
                · exact Or.inr ⟨hmode, D, List.mem_cons_self _ _, P, hP, hc', rfl⟩
                · exact Or.inl h1
                · exact Or.inr ⟨hm, E, List.mem_cons_of_mem _ hE, Q, hQ, hq1, hq2⟩
              · rintro (h1 | ⟨hm, E, hE, Q, hQ, hq1, hq2⟩)
                · exact Or.inl (Or.inr h1)
                · rcases List.mem_cons.1 hE with rfl | hE
                  · rw [hP] at hQ; cases hQ; exact Or.inl (Or.inl hq2.symm)
                  · exact Or.inr ⟨hm, E, hE, Q, hQ, hq1, hq2⟩
          · obtain ⟨r, hr, s1, s2, m1, m2⟩ :=
              collectImports_some G modules rest acc hrest
            refine ⟨r, by simp [hc', hmode, hr], s1, s2, fun n => ?_, fun n => ?_⟩
            · rw [m1 n]
              constructor
              · rintro (h1 | ⟨E, hE, Q, hQ, hq1, hq2⟩)
                · exact Or.inl h1
                · exact Or.inr ⟨E, List.mem_cons_of_mem _ hE, Q, hQ, hq1, hq2⟩
              · rintro (h1 | ⟨E, hE, Q, hQ, hq1, hq2⟩)
                · exact Or.inl h1
                · rcases List.mem_cons.1 hE with rfl | hE
                  · rw [hP] at hQ; cases hQ; rw [hc'] at hq1; cases hq1
                  · exact Or.inr ⟨E, hE, Q, hQ, hq1, hq2⟩
            · rw [m2 n]
              constructor
              · rintro (h1 | ⟨hm, _⟩)
                · exact Or.inl h1
                · exact absurd hm hmode
              · rintro (h1 | ⟨hm, _⟩)
                · exact Or.inl h1
                · exact absurd hm hmode

theorem EmitIncludeLoop_text (before after : String) :
    ∀ (names : List String) (b : Buffers),
      EmitIncludeLoop before after names b
        = some (Buffers.mk b.hbuf
            (b.cbuf ++ joinLines (names.map (fun n => before ++ n ++ after))))
  | [], b => by simp [EmitIncludeLoop, skip, joinLines]
  | n :: rest, b => by
      simp [EmitIncludeLoop, kleisli_apply, write, EmitIncludeLoop_text before after rest,
        Buffers.put, joinLines, String.append_assoc]

theorem EmitIncludes_eq (G : CCodeGenerator) (modules : Modules) (entries : List AST)
    (b : Buffers) :
    EmitIncludes G modules entries b
      = (collectImports G modules (allImports entries) ([], [])).map (fun r =>
          Buffers.mk b.hbuf (b.cbuf
            ++ joinLines (r.1.map (fun n => "#include <" ++ n ++ ".h>\n"))
            ++ joinLines (r.2.map (fun n => "#include \"" ++ n ++ ".h\"\n")) ++ "\n")) := by
  unfold EmitIncludes
  rw [collectIncludes_flat]
  cases collectImports G modules (allImports entries) ([], []) with
  | none => rfl
  | some r =>
    simp [kleisli_apply, EmitIncludeLoop_text, write, Buffers.put, String.append_assoc]

theorem mem_allImports (entries : List AST) (D : ImportDecl) :
    D ∈ allImports entries ↔ ∃ ast ∈ entries, D ∈ ast.imports := by
  simp [allImports, List.mem_flatMap]

theorem collectImports_congr (G : CCodeGenerator) (modules : Modules)
    (ds1 ds2 : List ImportDecl)
    (h : ∀ n, (∃ D ∈ ds1, D.moduleName = n) ↔ (∃ D ∈ ds2, D.moduleName = n)) :
    collectImports G modules ds1 ([], []) = collectImports G modules ds2 ([], []) := by
  have tr : ∀ Q : String → Prop, (∃ D ∈ ds1, Q D.moduleName) ↔ (∃ D ∈ ds2, Q D.moduleName) := by
    intro Q
    constructor
    · rintro ⟨D, hD, hQ⟩
      obtain ⟨E, hE, hn⟩ := (h D.moduleName).1 ⟨D, hD, rfl⟩
      exact ⟨E, hE, by rw [hn]; exact hQ⟩
    · rintro ⟨D, hD, hQ⟩
      obtain ⟨E, hE, hn⟩ := (h D.moduleName).2 ⟨D, hD, rfl⟩
      exact ⟨E, hE, by rw [hn]; exact hQ⟩
  by_cases hn : ∃ D ∈ ds1, modules D.moduleName = none
  · rw [collectImports_none G modules ds1 _ hn,
      collectImports_none G modules ds2 _ ((tr (fun n => modules n = none)).1 hn)]
  · have h1 : ∀ D ∈ ds1, (modules D.moduleName).isSome = true := by
      intro D hD
      cases hm : modules D.moduleName with
      | none => exact absurd ⟨D, hD, hm⟩ hn
      | some P => rfl
    have h2 : ∀ D ∈ ds2, (modules D.moduleName).isSome = true := by
      intro D hD
      cases hm : modules D.moduleName with
      | none => exact absurd ((tr (fun n => modules n = none)).2 ⟨D, hD, hm⟩) hn
      | some P => rfl
    obtain ⟨r1, e1, s1, t1, m1, q1⟩ := collectImports_some G modules ds1 ([], []) h1
    obtain ⟨r2, e2, s2, t2, m2, q2⟩ := collectImports_some G modules ds2 ([], []) h2
    have srt : List.Sorted (fun a b : String => a < b) [] := List.sorted_nil
    have a1 : r1.1 = r2.1 := by
      refine sorted_ext (s1 srt) (s2 srt) (fun n => ?_)
      rw [m1 n, m2 n]
      simp only [List.not_mem_nil, false_or]
      exact tr (fun k => ∃ P, modules k = some P ∧ P.isPlainC = true ∧ P.name = n)
    have a2 : r1.2 = r2.2 := by
      refine sorted_ext (t1 srt) (t2 srt) (fun n => ?_)
      rw [q1 n, q2 n]
      simp only [List.not_mem_nil, false_or]
      rw [tr (fun k => ∃ P, modules k = some P ∧ P.isPlainC = false ∧ P.name = n)]
    rw [e1, e2, Prod.ext a1 a2]

theorem EmitIncludes_congr (G : CCodeGenerator) (modules : Modules) (es1 es2 : List AST)
    (h : ∀ n, imported es1 n ↔ imported es2 n) :
    EmitIncludes G modules es1 = EmitIncludes G modules es2 := by
  funext b
  have hc : collectImports G modules (allImports es1) ([], [])
      = collectImports G modules (allImports es2) ([], []) := by
    apply collectImports_congr
    intro n
    have := h n
    simp only [imported] at this
    simp only [mem_allImports]
    constructor
    · rintro ⟨D, ⟨ast, ha, hD⟩, hn⟩
      obtain ⟨a2, h2, D2, hD2, hn2⟩ := this.1 ⟨ast, ha, D, hD, hn⟩
      exact ⟨D2, ⟨a2, h2, hD2⟩, hn2⟩
    · rintro ⟨D, ⟨ast, ha, hD⟩, hn⟩
      obtain ⟨a2, h2, D2, hD2, hn2⟩ := this.2 ⟨ast, ha, D, hD, hn⟩
      exact ⟨D2, ⟨a2, h2, hD2⟩, hn2⟩
  rw [EmitIncludes_eq, EmitIncludes_eq, hc]

theorem imported_middle (pre post : List AST) (ast : AST) (n : String) :
    imported (pre ++ ast :: post) n
      ↔ imported pre n ∨ (∃ D ∈ ast.imports, D.moduleName = n) ∨ imported post n := by
  simp only [imported, List.mem_append, List.mem_cons]
  constructor
  · rintro ⟨a, (ha | rfl | ha), hD⟩
    · exact Or.inl ⟨a, ha, hD⟩
    · exact Or.inr (Or.inl hD)
    · exact Or.inr (Or.inr ⟨a, ha, hD⟩)
  · rintro (⟨a, ha, hD⟩ | hD | ⟨a, ha, hD⟩)
    · exact ⟨a, Or.inl ha, hD⟩
    · exact ⟨ast, Or.inr (Or.inl rfl), hD⟩
    · exact ⟨a, Or.inr (Or.inr ha), hD⟩

theorem EmitIncludes_frame (G : CCodeGenerator) (modules : Modules) (entries : List AST) :
    Frame Sink.cbuf (EmitIncludes G modules entries) := by
  refine ⟨appended (EmitIncludes G modules entries), fun b => ?_, fun _ x hx => ?_⟩
  · unfold appended
    rw [EmitIncludes_eq, EmitIncludes_eq]
    cases collectImports G modules (allImports entries) ([], []) with
    | none => rfl
    | some r => simp [Buffers.append_def, Buffers.empty, String.append_assoc]
  · unfold appended at hx
    rw [EmitIncludes_eq] at hx
    cases hr : collectImports G modules (allImports entries) ([], []) with
    | none => rw [hr] at hx; cases hx
    | some r =>
      rw [hr] at hx
      simp only [Option.map_some', Option.some.injEq] at hx
      rw [← hx]; rfl

/-! ## The driver -/

theorem skip_comp (f : Emit) : (skip >=> f) = f := rfl

theorem comp_skip (f : Emit) : (f >=> skip) = f := by
  funext b
  rw [kleisli_apply]
  cases f b <;> rfl

theorem comp_assoc (f g h : Emit) : ((f >=> g) >=> h) = (f >=> (g >=> h)) := by
  funext b
  simp only [kleisli_apply]
  cases f b <;> rfl

theorem seqAll_append : ∀ l1 l2 : List Emit, seqAll (l1 ++ l2) = (seqAll l1 >=> seqAll l2)
  | [], l2 => by simp [seqAll, skip_comp]
  | f :: rest, l2 => by
      have ih := seqAll_append rest l2
      rw [List.cons_append, seqAll, seqAll, ih, comp_assoc]

theorem forEach_eq_seqAll {α : Type} (emit : α → Emit) :
    ∀ l : List α, forEach emit l = seqAll (l.map emit)
  | [] => rfl
  | x :: rest => by simp only [forEach, List.map_cons, seqAll, forEach_eq_seqAll emit rest]

theorem generatePass_eq_seqAll {α : Type} (G : CCodeGenerator) (items : AST → List α)
    (emit : CCodeGenerator → α → Emit) :
    ∀ entries : List AST, generatePass G items emit entries
      = seqAll (entries.flatMap
          (fun ast => (items ast).map (emit (G.withCurmod ast.moduleName))))
  | [] => rfl
  | ast :: rest => by
      simp only [generatePass, List.flatMap_cons, seqAll_append, forEach_eq_seqAll,
        generatePass_eq_seqAll G items emit rest]

theorem frame_seqAll {output : Sink} :
    ∀ l : List Emit, (∀ f ∈ l, Frame output f) → Frame output (seqAll l)
  | [], _ => frame_skip
  | f :: rest, h =>
      frame_comp (h f (List.mem_cons_self _ _))
        (frame_seqAll rest (fun g hg => h g (List.mem_cons_of_mem _ hg)))

theorem EmitVariable_frame (G : CCodeGenerator) (V : VarDecl) :
    Frame Sink.hbuf (EmitVariable G V) := by
  unfold EmitVariable
  have c : ∀ {f : Emit}, Frame Sink.cbuf f → Frame Sink.hbuf f := fun h => frame_of_cbuf h
  exact frame_comp
    (frame_ite
      (frame_comp frame_write (frame_comp (EmitTypePreName_frame G V.type Sink.hbuf)
        (frame_comp frame_write (frame_comp (addPrefix_frame G G.curmod V.name Sink.hbuf)
          (frame_comp (EmitTypePostName_frame G V.type Sink.hbuf)
            (frame_comp frame_write frame_write))))))
      (c frame_write))
    (frame_comp (c (EmitTypePreName_frame G V.type Sink.cbuf))
      (frame_comp (c frame_write) (frame_comp (c (addPrefix_frame G G.curmod V.name Sink.cbuf))
        (frame_comp (c (EmitTypePostName_frame G V.type Sink.cbuf))
          (frame_comp (c (EmitInitValue_frame G V.initValue Sink.cbuf))
            (frame_comp (c frame_write) (c frame_write)))))))

theorem EmitFunction_frame (G : CCodeGenerator) (F : FunctionDecl) :
    Frame Sink.hbuf (EmitFunction G F) := by
  unfold EmitFunction
  have c : ∀ {f : Emit}, Frame Sink.cbuf f → Frame Sink.hbuf f := fun h => frame_of_cbuf h
  have p : Frame Sink.hbuf (EmitFunctionProto G F Sink.hbuf >=> write Sink.hbuf ";\n\n") :=
    frame_comp (EmitFunctionProto_frame G F Sink.hbuf) frame_write
  exact frame_comp (frame_ite p (frame_ite p (c frame_write)))
    (frame_comp (c (EmitFunctionProto_frame G F Sink.cbuf))
      (frame_comp (c frame_write)
        (frame_comp (c (EmitCompoundStmt_frame G F.body 0 false)) (c frame_write))))

theorem EmitTypeDecl_frame_hbuf (G : CCodeGenerator) (T : TypeDecl) :
    Frame Sink.hbuf (EmitTypeDecl G T) := by
  have h := EmitTypeDecl_frame G T
  cases hp : T.isPublic
  · rw [hp] at h; exact frame_of_cbuf h
  · rw [hp] at h; exact h

theorem generatePass_frame {α : Type} (G : CCodeGenerator) (items : AST → List α)
    (emit : CCodeGenerator → α → Emit) (h : ∀ G x, Frame Sink.hbuf (emit G x))
    (entries : List AST) : Frame Sink.hbuf (generatePass G items emit entries) := by
  rw [generatePass_eq_seqAll]
  refine frame_seqAll _ (fun f hf => ?_)
  obtain ⟨ast, _, hf⟩ := List.mem_flatMap.1 hf
  obtain ⟨x, _, rfl⟩ := List.mem_map.1 hf
  exact h _ x

theorem generateBody_frame (G : CCodeGenerator) (modules : Modules) (entries : List AST) :
    Frame Sink.hbuf (generateBody G modules entries) := by
  unfold generateBody
  exact frame_comp (frame_of_cbuf (EmitIncludes_frame G modules entries))
    (frame_comp (generatePass_frame G AST.types EmitTypeDecl EmitTypeDecl_frame_hbuf entries)
      (frame_comp (generatePass_frame G AST.vars EmitVariable EmitVariable_frame entries)
        (generatePass_frame G AST.functions EmitFunction EmitFunction_frame entries)))

/-! ## Type names and enum constants -/

theorem write_write (output : Sink) (s t : String) :
    (write output s >=> write output t) = write output (s ++ t) := by
  funext b
  simp [kleisli_apply, write, Buffers.put_put]

theorem EmitTypePostName_nonArray (G : CCodeGenerator) (T : QualType) (output : Sink)
    (hT : T.isArrayType = false) : EmitTypePostName G T output = skip := by
  rw [EmitTypePostName_source, hT]; rfl

theorem EmitEnumConstants_text (G : CCodeGenerator) (hm : G.curmod ≠ "")
    (hp : CCodeGenerator.no_local_prefix G = false) (output : Sink) :
    ∀ (cs : List EnumConstantDecl) (b : Buffers),
      (∀ C ∈ cs, literalOrAbsent C.initValue = true) →
      EmitEnumConstants G cs output b
        = some (b.put output (joinLines (cs.map (enumConstantLine G.curmod))))
  | [], b, _ => by simp [EmitEnumConstants, skip, joinLines, Buffers.put_empty]
  | C :: rest, b, h => by
      have ih := EmitEnumConstants_text G hm hp output rest
      have hC := h C (List.mem_cons_self _ _)
      have hrest : ∀ C ∈ rest, literalOrAbsent C.initValue = true :=
        fun D hD => h D (List.mem_cons_of_mem _ hD)
      have hi : ∀ x, EmitInitValue G C.initValue output x
          = some (x.put output (initText C.initValue)) := by
        intro x
        cases hv : C.initValue with
        | none => simp [EmitInitValue, initText, skip, Buffers.put_empty]
        | some e =>
          rw [hv] at hC
          cases e <;> simp [literalOrAbsent, Expr.isIntegerLiteral] at hC
          simp [EmitInitValue, EmitExpr, initText, kleisli_apply, write, Buffers.put_put]
      have ha : ∀ x, addPrefix G G.curmod C.name output x
          = some (x.put output
              (if C.name = "main" then "main" else G.curmod ++ "_" ++ C.name)) := by
        intro x
        unfold addPrefix GenUtils.addName
        by_cases h3 : C.name = "main"
        · simp [hm, hp, h3, write]
        · simp [hm, hp, h3, write]
      simp only [EmitEnumConstants, kleisli_apply, indent, write, Option.some_bind, ha, hi,
        ih _ hrest, INDENT]
      simp [Buffers.put_put, enumConstantLine, joinLines, String.append_assoc]

/-! ## Literals -/

theorem foldl_append_joinLines :
    ∀ (l : List String) (acc : String),
      List.foldl (fun r s => r ++ s) acc l = acc ++ joinLines l
  | [], acc => by simp [joinLines]
  | s :: rest, acc => by
      simp [List.foldl, foldl_append_joinLines rest, joinLines, String.append_assoc]

theorem join_eq_joinLines (l : List String) : String.join l = joinLines l := by
  unfold String.join
  rw [foldl_append_joinLines]
  simp

theorem char_eq_ofNat (c : Char) (n : Nat) (h : (Char.ofNat n).toNat = n) :
    c = Char.ofNat n ↔ c.toNat = n := by
  constructor
  · intro hc; rw [hc, h]
  · intro hc; rw [← hc, Char.ofNat_toNat]

theorem escapeChar_eq (c : Char) : escapeChar c = String.mk (escSpec c) := by
  unfold escapeChar escSpec
  simp only [char_eq_ofNat c 10 (by decide), char_eq_ofNat c 13 (by decide),
    char_eq_ofNat c 9 (by decide), char_eq_ofNat c 27 (by decide)]
  split
  · rfl
  · split
    · rfl
    · split
      · rfl
      · split
        · rfl
        · rfl

theorem joinLines_escape :
    ∀ l : List Char, joinLines (l.map escapeChar) = String.mk (l.flatMap escSpec)
  | [] => rfl
  | c :: rest => by
      simp only [List.map_cons, joinLines, List.flatMap_cons, joinLines_escape rest,
        escapeChar_eq]
      rfl

/-! ## Statements and argument lists -/

theorem frame_cbuf_text {f : Emit} (h : Frame Sink.cbuf f) (b : Buffers) :
    f b = ((appended f).map Buffers.cbuf).map (fun t => Buffers.mk b.hbuf (b.cbuf ++ t)) := by
  rw [frame_eq_appended h b]
  cases hx : appended f with
  | none => rfl
  | some x =>
    have h0 := frame_appended_hbuf h hx
    simp [Buffers.append_def, h0]

theorem EmitExpr_text (G : CCodeGenerator) (e : Expr) (b : Buffers) :
    EmitExpr G e Sink.cbuf b
      = (exprText G e).map (fun t => Buffers.mk b.hbuf (b.cbuf ++ t)) :=
  frame_cbuf_text (EmitExpr_frame G e Sink.cbuf) b

theorem EmitCases_bad (G : CCodeGenerator) :
    ∀ (cases : List Stmt) (ind : Nat) (b : Buffers),
      (∃ c ∈ cases, c.isCaseOrDefault = false) → EmitCases G cases ind b = none
  | [], _, _, h => by simp at h
  | c :: rest, ind, b, h => by
      have ih : (∃ c ∈ rest, c.isCaseOrDefault = false) →
          ∀ x, EmitCases G rest ind x = none := fun hr x => EmitCases_bad G rest ind x hr
      have tail : ∀ (f : Emit), c.isCaseOrDefault = true →
          (f >=> EmitCases G rest ind) b = none := by
        intro f hc
        have hr : ∃ c ∈ rest, c.isCaseOrDefault = false := by
          obtain ⟨d, hd, hb⟩ := h
          rcases List.mem_cons.1 hd with rfl | hd
          · rw [hc] at hb; cases hb
          · exact ⟨d, hd, hb⟩
        rw [kleisli_apply]
        cases f b with
        | none => rfl
        | some x => exact ih hr x
      cases c with
      | caseStmt cond stmts =>
        rw [EmitCases]
        simp only [← comp_assoc]
        exact tail _ rfl
      | defaultStmt stmts =>
        rw [EmitCases]
        simp only [← comp_assoc]
        exact tail _ rfl
      | _ => simp [EmitCases, abort]

theorem EmitArgsLoop_plain (G : CCodeGenerator) (output : Sink) :
    ∀ (args : List VarDecl) (rs : List String),
      List.Forall₂ (fun A r => Renders (EmitVarDecl G A output 0) output r) args rs →
      Renders (EmitArgsLoop G args (args.length : Int) output) output (joinWith ", " rs)
  | [], rs, h => by
      cases h
      intro b
      simp [EmitArgsLoop, skip, joinWith, Buffers.put_empty]
  | A :: rest, rs, h => by
      cases h with
      | cons hA hrest =>
        rename_i r rs1
        have ih := EmitArgsLoop_plain G output rest rs1 hrest
        intro b
        have hc : ((((A :: rest).length : Nat) : Int) - 1) = (rest.length : Int) := by
          simp
        rw [EmitArgsLoop, hc]
        simp only [kleisli_apply, hA b, Option.some_bind]
        cases rest with
        | nil =>
          cases hrest
          simp [writeIf, skip, EmitArgsLoop, joinWith]
        | cons A2 rest2 =>
          cases hrest with
          | cons hA2 hrest2 =>
            rename_i r2 rs2
            have hne : decide ((((A :: A2 :: rest2).length : Nat) : Int) ≠ 1) = true := by
              simp only [List.length_cons, decide_eq_true_eq]
              omega
            rw [hne]
            simp only [writeIf, if_true, write, Option.some_bind]
            rw [ih]
            simp [joinWith, Buffers.put_put, String.append_assoc]

theorem EmitArgsLoop_variadic (G : CCodeGenerator) (output : Sink) :
    ∀ (args : List VarDecl) (rs : List String),
      List.Forall₂ (fun A r => Renders (EmitVarDecl G A output 0) output r) args rs →
      Renders (EmitArgsLoop G args ((args.length : Int) + 1) output >=> write output "...")
        output (joinWith ", " (rs ++ ["..."]))
  | [], rs, h => by
      cases h
      intro b
      simp [EmitArgsLoop, skip, joinWith, kleisli_apply, write]
  | A :: rest, rs, h => by
      cases h with
      | cons hA hrest =>
        rename_i r rs1
        have ih := EmitArgsLoop_variadic G output rest rs1 hrest
        intro b
        have hc : ((((A :: rest).length : Nat) : Int) + 1 - 1) = (rest.length : Int) + 1 := by
          simp
        have hne : decide ((((A :: rest).length : Nat) : Int) + 1 ≠ 1) = true := by
          simp only [List.length_cons, decide_eq_true_eq]
          omega
        rw [EmitArgsLoop, hc, hne]
        simp only [kleisli_apply, hA b, Option.some_bind, writeIf, if_true, write]
        have ih2 := ih ((b.put output r).put output ", ")
        simp only [kleisli_apply, write] at ih2
        rw [ih2]
        cases rs1 with
        | nil => simp [joinWith, Buffers.put_put, String.append_assoc]
        | cons r2 rs2 => simp [joinWith, Buffers.put_put, String.append_assoc]

/-! ## Structs and unions -/

theorem uniform_textOf {f : Sink → Emit} (hf : Uniform f) (output : Sink) (b : Buffers) :
    f output b = (textOf f).map (fun s => b.put output s) := by
  obtain ⟨t, ht⟩ := hf
  have h0 : textOf f = t := by
    unfold textOf appended
    rw [ht]
    cases t <;> simp [Buffers.put, Buffers.empty]
  rw [h0, ht]

theorem EmitTypePreName_total (G : CCodeGenerator) :
    ∀ t : QualType, t.isSpecKind = true → (textOf (EmitTypePreName G t)).isSome = true
  | QualType.builtin c k, _ => by
      simp only [textOf, appended, EmitTypePreName, kleisli_apply, writeBuiltin]
      cases c <;> cases k <;> rfl
  | QualType.pointer c pointee, h => by
      have ih := EmitTypePreName_total G pointee (by simpa [QualType.isSpecKind] using h)
      obtain ⟨s, hs⟩ := Option.isSome_iff_exists.1 ih
      have hp := uniform_textOf (EmitTypePreName_uniform G pointee)
      simp only [textOf, appended, EmitTypePreName, kleisli_apply]
      cases c <;> simp [writeIf, skip, write, hp, hs]
  | QualType.array c element _, h => by
      have ih := EmitTypePreName_total G element (by simpa [QualType.isSpecKind] using h)
      obtain ⟨s, hs⟩ := Option.isSome_iff_exists.1 ih
      have hp := uniform_textOf (EmitTypePreName_uniform G element)
      simp only [textOf, appended, EmitTypePreName, kleisli_apply]
      cases c <;> simp [writeIf, skip, write, hp, hs]
  | QualType.alias c _ refType, h => by
      have ih := EmitTypePreName_total G refType (by simpa [QualType.isSpecKind] using h)
      obtain ⟨s, hs⟩ := Option.isSome_iff_exists.1 ih
      have hp := uniform_textOf (EmitTypePreName_uniform G refType)
      simp only [textOf, appended, EmitTypePreName, kleisli_apply]
      cases c <;> simp [writeIf, skip, write, hp, hs]
  | QualType.unresolved c _, _ => by
      simp only [textOf, appended, EmitTypePreName, kleisli_apply]
      cases c <;> simp [writeIf, skip, write]
  | QualType.struct c _, _ => by
      simp only [textOf, appended, EmitTypePreName, kleisli_apply]
      cases c <;> simp [writeIf, skip, write]
  | QualType.enum c _, _ => by
      simp only [textOf, appended, EmitTypePreName, kleisli_apply]
      cases c <;> simp [writeIf, skip, write]
  | QualType.function c _, _ => by
      simp only [textOf, appended, EmitTypePreName, kleisli_apply]
      cases c <;> simp [writeIf, skip, write]
  | QualType.package _, h => by simp [QualType.isSpecKind] at h

theorem EmitTypePostName_total (G : CCodeGenerator) :
    ∀ t : QualType, t.sizesAreLiteral = true →
      (textOf (EmitTypePostName G t)).isSome = true
  | QualType.array _ element sizeExpr, h => by
      simp [QualType.sizesAreLiteral] at h
      have ih := EmitTypePostName_total G element h.2
      obtain ⟨s, hs⟩ := Option.isSome_iff_exists.1 ih
      have hp := uniform_textOf (EmitTypePostName_uniform G element h.2)
      simp only [textOf, appended, EmitTypePostName, kleisli_apply]
      cases sizeExpr with
      | none => simp [EmitSizeExpr, skip, write, hp, hs]
      | some e =>
        cases e <;> simp [literalOrAbsent, Expr.isIntegerLiteral] at h
        simp [EmitSizeExpr, EmitExpr, write, hp, hs]
  | QualType.alias _ _ refType, h => by
      simp [QualType.sizesAreLiteral] at h
      have ih := EmitTypePostName_total G refType h
      simpa [textOf, appended, EmitTypePostName] using ih
  | QualType.builtin _ _, _ => by simp [textOf, appended, EmitTypePostName, skip]
  | QualType.pointer _ _, _ => by simp [textOf, appended, EmitTypePostName, skip]
  | QualType.unresolved _ _, _ => by simp [textOf, appended, EmitTypePostName, skip]
  | QualType.struct _ _, _ => by simp [textOf, appended, EmitTypePostName, skip]
  | QualType.enum _ _, _ => by simp [textOf, appended, EmitTypePostName, skip]
  | QualType.function _ _, _ => by simp [textOf, appended, EmitTypePostName, skip]
  | QualType.package _, _ => by simp [textOf, appended, EmitTypePostName, skip]

theorem EmitVarDecl_member_text (G : CCodeGenerator) (V : VarDecl) (out : Sink) (ind : Nat)
    (b : Buffers) (h0 : V.initValue.isNone = true) (h1 : V.type.sizesAreLiteral = true) :
    EmitVarDecl G V out ind b
      = (textOf (EmitTypePreName G V.type)).bind (fun pre =>
          (textOf (EmitTypePostName G V.type)).map (fun post =>
            b.put out (spaces ind ++ pre ++ " " ++ V.name ++ post))) := by
  have hp := uniform_textOf (EmitTypePreName_uniform G V.type) out
  have hq := uniform_textOf (EmitTypePostName_uniform G V.type h1) out
  have hi : V.initValue = none := by
    cases hv : V.initValue with
    | none => rfl
    | some e => rw [hv] at h0; cases h0
  simp only [EmitVarDecl, kleisli_apply, indent, write, Option.some_bind, hp, hi,
    EmitInitValue]
  cases textOf (EmitTypePreName G V.type) with
  | none => rfl
  | some pre =>
    simp only [Option.map_some', Option.some_bind, hq]
    cases textOf (EmitTypePostName G V.type) with
    | none => rfl
    | some post =>
      simp [skip, spaces, Buffers.put_put, String.append_assoc]

mutual
theorem EmitStructType_structText (G : CCodeGenerator) :
    ∀ (S : StructTypeDecl) (out : Sink) (i : Nat) (b : Buffers), S.membersPlain = true →
      EmitStructType G S out i b = (structText G S i).map (fun s => b.put out s) ∧
      (structText G S i).isSome = true
  | StructTypeDecl.mk name isStruct isGlobal _ members, out, i, b, h => by
      have hm : MemberDecl.allPlain members = true := by
        simpa [StructTypeDecl.membersPlain] using h
      have ih := fun x => EmitStructMembers_membersText G members out i x hm
      obtain ⟨ms, hms⟩ := Option.isSome_iff_exists.1 (ih b).2
      have f1 : ∀ x : String, "\x7d" ++ (" " ++ x) = "\x7d " ++ x := fun x => by
        rw [← String.append_assoc]; rfl
      have f2 : ∀ x : String,
          "typedef " ++ ("union \x7b\n" ++ x) = "typedef union \x7b\n" ++ x :=
        fun x => by rw [← String.append_assoc]; rfl
      have f3 : ∀ x : String,
          "typedef " ++ ("struct \x7b\n" ++ x) = "typedef struct \x7b\n" ++ x :=
        fun x => by rw [← String.append_assoc]; rfl
      have f4 : ∀ x : String, ";\n" ++ ("\n" ++ x) = ";\n\n" ++ x := fun x => by
        rw [← String.append_assoc]; rfl
      constructor
      · simp only [EmitStructType, structText, kleisli_apply, indent, write, Option.some_bind,
          (ih _).1, hms, Option.map_some']
        cases isGlobal <;> cases isStruct <;> by_cases hn : name = "" <;>
          simp [writeIf, skip, write, kleisli_apply, hn, spaces, Buffers.put_put,
            String.append_assoc, f1, f2, f3, f4]
      · simp [structText, hms]
theorem EmitStructMembers_membersText (G : CCodeGenerator) :
    ∀ (members : List MemberDecl) (out : Sink) (i : Nat) (b : Buffers),
      MemberDecl.allPlain members = true →
      EmitStructMembers G members out i b
        = (membersText G members i).map (fun s => b.put out s) ∧
      (membersText G members i).isSome = true
  | [], out, i, b, _ => by
      simp [EmitStructMembers, membersText, skip, Buffers.put_empty]
  | MemberDecl.var V :: rest, out, i, b, h => by
      simp only [MemberDecl.allPlain, Bool.and_eq_true] at h
      obtain ⟨⟨⟨h0, h1⟩, h2⟩, h3⟩ := h
      have ih := fun x => EmitStructMembers_membersText G rest out i x h3
      obtain ⟨ms, hms⟩ := Option.isSome_iff_exists.1 (ih b).2
      obtain ⟨pre, hpre⟩ := Option.isSome_iff_exists.1 (EmitTypePreName_total G V.type h2)
      obtain ⟨post, hpost⟩ := Option.isSome_iff_exists.1 (EmitTypePostName_total G V.type h1)
      constructor
      · simp only [EmitStructMembers, membersText, kleisli_apply, INDENT,
          EmitVarDecl_member_text G V out (i + 4) b h0 h1, hpre, hpost, Option.some_bind,
          Option.map_some', write, (ih _).1, hms]
        simp [Buffers.put_put, String.append_assoc]
      · simp [membersText, hpre, hpost, hms]
  | MemberDecl.structType S :: rest, out, i, b, h => by
      simp only [MemberDecl.allPlain, Bool.and_eq_true] at h
      have ihS := fun x => EmitStructType_structText G S out (i + 4) x h.1
      have ih := fun x => EmitStructMembers_membersText G rest out i x h.2
      obtain ⟨ms, hms⟩ := Option.isSome_iff_exists.1 (ih b).2
      obtain ⟨s, hs⟩ := Option.isSome_iff_exists.1 (ihS b).2
      constructor
      · simp only [EmitStructMembers, membersText, kleisli_apply, INDENT, (ihS _).1, hs,
          Option.map_some', Option.some_bind, (ih _).1, hms]
        simp [Buffers.put_put]
      · simp [membersText, hs, hms]
  | MemberDecl.other _ :: _, _, _, _, h => by
      simp [MemberDecl.allPlain] at h
end

/-! ## Init lists -/

theorem EmitInitValues_text (G : CCodeGenerator) (output : Sink) :
    ∀ (values : List Expr) (ts : List String) (first : Bool),
      List.Forall₂ (fun v t => Renders (EmitExpr G v output) output t) values ts →
      Renders (EmitInitValues G values first output) output
        (initListBody ((values.map Expr.isInitList).zip ts) first)
  | [], ts, first, h => by
      cases h
      intro b
      simp [EmitInitValues, skip, initListBody, Buffers.put_empty]
  | v :: rest, ts, first, h => by
      cases h with
      | cons hv hrest =>
        rename_i t ts1
        have ih := EmitInitValues_text G output rest ts1 false hrest
        intro b
        cases hrest with
        | nil =>
          simp only [EmitInitValues, kleisli_apply, List.map_cons, List.map_nil,
            List.zip_cons_cons, List.zip_nil_right, initListBody]
          cases first <;> cases v.isInitList <;>
            simp [writeIf, skip, write, hv _, Buffers.put_put, String.append_assoc]
        | cons hv2 hrest2 =>
          rename_i v2 t2 rest2 ts2
          have e1 : ((List.map Expr.isInitList (v2 :: rest2)).zip (t2 :: ts2)).isEmpty
              = false := rfl
          have e2 : (v2 :: rest2).isEmpty = false := rfl
          rw [EmitInitValues, List.map_cons, List.zip_cons_cons, initListBody, e1, e2]
          have f1 : ∀ x : String, ", " ++ ("\n" ++ x) = ", \n" ++ x := fun x => by
            rw [← String.append_assoc]; rfl
          simp only [kleisli_apply]
          cases first <;> cases v.isInitList <;>
            simp [writeIf, skip, write, hv _, ih _, Buffers.put_put, String.append_assoc, f1]

theorem initListBody_flat :
    ∀ (values : List Expr) (ts : List String) (first : Bool),
      values.length = ts.length → (∀ v ∈ values, v.isInitList = false) →
      initListBody ((values.map Expr.isInitList).zip ts) first = joinWith ", " ts
  | [], ts, _, h, _ => by
      cases ts with
      | nil => rfl
      | cons t ts1 => simp at h
  | [v], ts, first, h, hv => by
      have h0 : v.isInitList = false := hv v (List.mem_cons_self _ _)
      cases ts with
      | nil => simp at h
      | cons t ts1 =>
        cases ts1 with
        | nil => simp [initListBody, joinWith, h0]
        | cons t1 ts2 => simp at h
  | v :: r :: rs, ts, first, h, hv => by
      have h0 : v.isInitList = false := hv v (List.mem_cons_self _ _)
      cases ts with
      | nil => simp at h
      | cons t ts1 =>
        cases ts1 with
        | nil => simp at h
        | cons t1 ts2 =>
          have hlen : (r :: rs).length = (t1 :: ts2).length := by simpa using h
          have ih := initListBody_flat (r :: rs) (t1 :: ts2) false hlen
            (fun w hw => hv w (List.mem_cons_of_mem _ hw))
          have e1 : ((List.map Expr.isInitList (r :: rs)).zip (t1 :: ts2)).isEmpty
              = false := rfl
          rw [List.map_cons, List.zip_cons_cons, initListBody, e1, h0, ih, joinWith]
          simp [String.append_assoc]

/-! ## The legacy statements against the live path -/

theorem lkleisli_apply (f g : LegacyEmit) (buffer : String) :
    (f >=> g) buffer = (f buffer).bind g := rfl

mutual
theorem generateC_eq_EmitStmt (G : CCodeGenerator) (exprC : Expr → Nat → LegacyEmit)
    (otherC : Stmt → Nat → LegacyEmit)
    (hexpr : ∀ e buffer, exprC e 0 buffer = (exprText G e).map (fun t => buffer ++ t)) :
    ∀ (S : Stmt) (ind : Nat) (b : Buffers), S.inCore = true →
      EmitStmt G S ind b
        = (S.generateC exprC otherC ind b.cbuf).map (fun c => Buffers.mk b.hbuf c)
  | Stmt.returnStmt value, ind, b, _ => by
      cases value with
      | none =>
        simp [EmitStmt, Stmt.generateC, EmitOptExpr, kleisli_apply, lkleisli_apply, indent,
          lindent, write, lwrite, skip, lskip, Buffers.put, String.append_assoc]
      | some v =>
        simp only [EmitStmt, Stmt.generateC, EmitOptExpr, kleisli_apply, lkleisli_apply,
          indent, lindent, write, lwrite, Option.some_bind, EmitExpr_text, hexpr]
        cases exprText G v <;> simp [Buffers.put, String.append_assoc]
  | Stmt.ifStmt cond thenStmt elseStmt, ind, b, h => by
      simp only [Stmt.inCore, Bool.and_eq_true] at h
      have ih1 := fun x => generateC_eq_EmitStmt G exprC otherC hexpr thenStmt ind x h.1
      have ih2 := fun x => generateCElse_eq_EmitElse G exprC otherC hexpr elseStmt ind x h.2
      simp only [EmitStmt, Stmt.generateC, kleisli_apply, lkleisli_apply, indent, lindent,
        write, lwrite, Option.some_bind, EmitExpr_text, hexpr]
      cases exprText G cond with
      | none => simp
      | some t =>
        simp only [Option.map_some', Option.some_bind, ih1, Buffers.put]
        cases Stmt.generateC exprC otherC thenStmt ind
            (b.cbuf ++ String.mk (List.replicate ind (Char.ofNat 32)) ++ "if (" ++ t ++ ")\n") with
        | none => simp
        | some c => simp [ih2]
  | Stmt.breakStmt, ind, b, _ => by
      simp [EmitStmt, Stmt.generateC, kleisli_apply, lkleisli_apply, indent, lindent, write,
        lwrite, Buffers.put, String.append_assoc]
  | Stmt.continueStmt, ind, b, _ => by
      simp [EmitStmt, Stmt.generateC, kleisli_apply, lkleisli_apply, indent, lindent, write,
        lwrite, Buffers.put, String.append_assoc]
  | Stmt.compoundStmt stmts, ind, b, h => by
      simp only [Stmt.inCore] at h
      have ih := fun x => generateCList_eq_EmitStmtList G exprC otherC hexpr stmts
        (ind + INDENT) x h
      simp only [EmitStmt, compoundBlock, Stmt.generateC, kleisli_apply, lkleisli_apply,
        indent, lindent, write, lwrite, Option.some_bind, if_true, ih, Buffers.put]
      cases generateCList exprC otherC stmts (ind + INDENT)
          (b.cbuf ++ String.mk (List.replicate ind (Char.ofNat 32)) ++ "\x7b\n") with
      | none => simp
      | some c => simp [String.append_assoc]
  | Stmt.exprStmt _, _, _, h => by simp [Stmt.inCore] at h
  | Stmt.whileStmt _ _, _, _, h => by simp [Stmt.inCore] at h
  | Stmt.doStmt _ _, _, _, h => by simp [Stmt.inCore] at h
  | Stmt.forStmt _ _ _ _, _, _, h => by simp [Stmt.inCore] at h
  | Stmt.switchStmt _ _, _, _, h => by simp [Stmt.inCore] at h
  | Stmt.caseStmt _ _, _, _, h => by simp [Stmt.inCore] at h
  | Stmt.defaultStmt _, _, _, h => by simp [Stmt.inCore] at h
  | Stmt.labelStmt _ _, _, _, h => by simp [Stmt.inCore] at h
  | Stmt.gotoStmt _, _, _, h => by simp [Stmt.inCore] at h
theorem generateCElse_eq_EmitElse (G : CCodeGenerator) (exprC : Expr → Nat → LegacyEmit)
    (otherC : Stmt → Nat → LegacyEmit)
    (hexpr : ∀ e buffer, exprC e 0 buffer = (exprText G e).map (fun t => buffer ++ t)) :
    ∀ (S : Option Stmt) (ind : Nat) (b : Buffers), inCoreOpt S = true →
      EmitElse G S ind b
        = (generateCElse exprC otherC S ind b.cbuf).map (fun c => Buffers.mk b.hbuf c)
  | none, ind, b, _ => by simp [EmitElse, generateCElse, skip, lskip]
  | some S, ind, b, h => by
      simp only [inCoreOpt] at h
      have ih := fun x => generateC_eq_EmitStmt G exprC otherC hexpr S ind x h
      simp only [EmitElse, generateCElse, kleisli_apply, lkleisli_apply, indent, lindent,
        write, lwrite, Option.some_bind, ih, Buffers.put]
theorem generateCList_eq_EmitStmtList (G : CCodeGenerator)
    (exprC : Expr → Nat → LegacyEmit) (otherC : Stmt → Nat → LegacyEmit)
    (hexpr : ∀ e buffer, exprC e 0 buffer = (exprText G e).map (fun t => buffer ++ t)) :
    ∀ (stmts : List Stmt) (ind : Nat) (b : Buffers), inCoreList stmts = true →
      EmitStmtList G stmts ind b
        = (generateCList exprC otherC stmts ind b.cbuf).map (fun c => Buffers.mk b.hbuf c)
  | [], ind, b, _ => by simp [EmitStmtList, generateCList, skip, lskip]
  | S :: rest, ind, b, h => by
      simp only [inCoreList, Bool.and_eq_true] at h
      have ih1 := fun x => generateC_eq_EmitStmt G exprC otherC hexpr S ind x h.1
      have ih2 := fun x => generateCList_eq_EmitStmtList G exprC otherC hexpr rest ind x h.2
      simp only [EmitStmtList, generateCList, kleisli_apply, lkleisli_apply, ih1]
      cases Stmt.generateC exprC otherC S ind b.cbuf with
      | none => simp
      | some c => simp [ih2]
end

/-! ## Array brackets of a type -/

theorem noBracket_append {s t : String} (hs : noBracket s) (ht : noBracket t) :
    noBracket (s ++ t) := by
  unfold noBracket at *
  simp only [String.data_append, List.mem_append, not_or]
  exact ⟨⟨hs.1, ht.1⟩, ⟨hs.2, ht.2⟩⟩

theorem noBracket_const (c : Bool) : noBracket (if c then "const " else "") := by
  cases c <;> exact ⟨by decide, by decide⟩

theorem plainPre_noBracket : ∀ t : QualType, noBracket t.plainPre
  | QualType.builtin c kind => by
      refine noBracket_append (noBracket_const c) ?_
      cases kind <;> exact ⟨by decide, by decide⟩
  | QualType.pointer c pointee =>
      noBracket_append (noBracket_append (noBracket_const c) (plainPre_noBracket pointee))
        ⟨by decide, by decide⟩
  | QualType.array c element _ =>
      noBracket_append (noBracket_const c) (plainPre_noBracket element)
  | QualType.unresolved _ _ => by simp [noBracket, QualType.plainPre]
  | QualType.alias _ _ _ => by simp [noBracket, QualType.plainPre]
  | QualType.struct _ _ => by simp [noBracket, QualType.plainPre]
  | QualType.enum _ _ => by simp [noBracket, QualType.plainPre]
  | QualType.function _ _ => by simp [noBracket, QualType.plainPre]
  | QualType.package _ => by simp [noBracket, QualType.plainPre]

theorem joinLines_append : ∀ l1 l2 : List String,
    joinLines (l1 ++ l2) = joinLines l1 ++ joinLines l2
  | [], l2 => by simp [joinLines]
  | s :: rest, l2 => by
      simp [joinLines, joinLines_append rest l2, String.append_assoc]

theorem EmitTypePreName_plain (G : CCodeGenerator) (output : Sink) :
    ∀ t : QualType, t.isPlain = true →
      Renders (EmitTypePreName G t output) output t.plainPre
  | QualType.builtin c kind, _ => by
      intro b
      simp only [EmitTypePreName, writeBuiltin, QualType.plainPre, kleisli_apply]
      cases c <;> cases kind <;> simp [writeIf, skip, write, builtin2cname,
        BuiltinKind.toNat, builtinCName, Buffers.put_put]
  | QualType.pointer c pointee, h => by
      have ih := EmitTypePreName_plain G output pointee (by simpa [QualType.isPlain] using h)
      intro b
      simp only [EmitTypePreName, QualType.plainPre, kleisli_apply]
      cases c <;> simp [writeIf, skip, write, ih _, Buffers.put_put, String.append_assoc]
  | QualType.array c element sizeExpr, h => by
      have he : element.isPlain = true := by
        simp only [QualType.isPlain, Bool.and_eq_true] at h
        exact h.2
      have ih := EmitTypePreName_plain G output element he
      intro b
      simp only [EmitTypePreName, QualType.plainPre, kleisli_apply]
      cases c <;> simp [writeIf, skip, write, ih _, Buffers.put_put, String.append_assoc]
  | QualType.unresolved _ _, h => by simp [QualType.isPlain] at h
  | QualType.alias _ _ _, h => by simp [QualType.isPlain] at h
  | QualType.struct _ _, h => by simp [QualType.isPlain] at h
  | QualType.enum _ _, h => by simp [QualType.isPlain] at h
  | QualType.function _ _, h => by simp [QualType.isPlain] at h
  | QualType.package _, h => by simp [QualType.isPlain] at h

theorem EmitTypePostName_plain (G : CCodeGenerator) (output : Sink) :
    ∀ t : QualType, t.isPlain = true →
      Renders (EmitTypePostName G t output) output (joinLines t.outerBrackets)
  | QualType.builtin _ _, _ => by
      intro b
      simp [EmitTypePostName, skip, QualType.outerBrackets, joinLines, Buffers.put_empty]
  | QualType.pointer _ _, _ => by
      intro b
      simp [EmitTypePostName, skip, QualType.outerBrackets, joinLines, Buffers.put_empty]
  | QualType.array _ element sizeExpr, h => by
      simp only [QualType.isPlain, Bool.and_eq_true] at h
      have ih := EmitTypePostName_plain G output element h.2
      intro b
      cases sizeExpr with
      | none => simp at h
      | some e =>
        cases e <;> simp [Expr.isIntegerLiteral] at h
        simp [EmitTypePostName, EmitSizeExpr, EmitExpr, kleisli_apply, write, ih _,
          QualType.outerBrackets, joinLines_append, joinLines, sizeText, Buffers.put_put,
          String.append_assoc]
  | QualType.unresolved _ _, h => by simp [QualType.isPlain] at h
  | QualType.alias _ _ _, h => by simp [QualType.isPlain] at h
  | QualType.struct _ _, h => by simp [QualType.isPlain] at h
  | QualType.enum _ _, h => by simp [QualType.isPlain] at h
  | QualType.function _ _, h => by simp [QualType.isPlain] at h
  | QualType.package _, h => by simp [QualType.isPlain] at h

theorem outerBrackets_length : ∀ t : QualType, t.outerBrackets.length = t.outerArrays
  | QualType.array _ element _ => by
      simp [QualType.outerBrackets, QualType.outerArrays, outerBrackets_length element]
  | QualType.builtin _ _ => rfl
  | QualType.pointer _ _ => rfl
  | QualType.unresolved _ _ => rfl
  | QualType.alias _ _ _ => rfl
  | QualType.struct _ _ => rfl
  | QualType.enum _ _ => rfl
  | QualType.function _ _ => rfl
  | QualType.package _ => rfl

theorem outerArrays_eq_arrayCount :
    ∀ t : QualType, t.noArrayUnderPointer = true → t.outerArrays = t.arrayCount
  | QualType.array _ element _, h => by
      simp only [QualType.noArrayUnderPointer] at h
      simp [QualType.outerArrays, QualType.arrayCount, outerArrays_eq_arrayCount element h]
  | QualType.pointer _ pointee, h => by
      simp only [QualType.noArrayUnderPointer, beq_iff_eq] at h
      simp [QualType.outerArrays, QualType.arrayCount, h]
  | QualType.builtin _ _, _ => rfl
  | QualType.unresolved _ _, _ => rfl
  | QualType.alias _ _ _, _ => rfl
  | QualType.struct _ _, _ => rfl
  | QualType.enum _ _, _ => rfl
  | QualType.function _ _, _ => rfl
  | QualType.package _, _ => rfl

theorem digitChar_ne (d : Nat) (h : d < 10) :
    Nat.digitChar d ≠ Char.ofNat 91 ∧ Nat.digitChar d ≠ Char.ofNat 93 := by
  revert d
  decide

theorem toDigitsCore_ne (fuel : Nat) : ∀ (n : Nat) (ds : List Char),
    (∀ c ∈ ds, c ≠ Char.ofNat 91 ∧ c ≠ Char.ofNat 93) →
    ∀ c ∈ Nat.toDigitsCore 10 fuel n ds, c ≠ Char.ofNat 91 ∧ c ≠ Char.ofNat 93 := by
  induction fuel with
  | zero => intro n ds h; simpa [Nat.toDigitsCore] using h
  | succ f ih =>
    intro n ds h
    have hd := digitChar_ne (n % 10) (Nat.mod_lt _ (by decide))
    have h2 : ∀ c ∈ Nat.digitChar (n % 10) :: ds,
        c ≠ Char.ofNat 91 ∧ c ≠ Char.ofNat 93 := by
      intro c hc
      rcases List.mem_cons.1 hc with rfl | hc
      · exact hd
      · exact h c hc
    unfold Nat.toDigitsCore
    simp only
    split
    · exact h2
    · exact ih _ _ h2

theorem natRepr_noBracket (n : Nat) : noBracket (Nat.repr n) := by
  have h := toDigitsCore_ne (n + 1) n [] (by simp)
  constructor
  · intro hc
    exact (h _ hc).1 rfl
  · intro hc
    exact (h _ hc).2 rfl

theorem intText_noBracket (v : Int) : noBracket (toString v) := by
  cases v with
  | ofNat m => exact natRepr_noBracket m
  | negSucc m =>
    exact noBracket_append ⟨by decide, by decide⟩ (natRepr_noBracket (m + 1))

theorem countChar_append (c : Char) (s t : String) :
    countChar c (s ++ t) = countChar c s + countChar c t := by
  simp [countChar, String.data_append, List.count_append]

theorem countChar_noBracket {s : String} (h : noBracket s) :
    countChar (Char.ofNat 91) s = 0 ∧ countChar (Char.ofNat 93) s = 0 := by
  unfold countChar
  exact ⟨List.count_eq_zero.2 h.1, List.count_eq_zero.2 h.2⟩

theorem outerBrackets_count : ∀ t : QualType, t.isPlain = true →
    countChar (Char.ofNat 91) (joinLines t.outerBrackets) = t.outerArrays ∧
    countChar (Char.ofNat 93) (joinLines t.outerBrackets) = t.outerArrays
  | QualType.array _ element sizeExpr, h => by
      simp only [QualType.isPlain, Bool.and_eq_true] at h
      have ih := outerBrackets_count element h.2
      have hs : noBracket (sizeText sizeExpr) := by
        cases sizeExpr with
        | none => exact ⟨by decide, by decide⟩
        | some e =>
          cases e <;> first | exact intText_noBracket _ | simp [noBracket, sizeText]
      have h0 := countChar_noBracket hs
      have o1 : countChar (Char.ofNat 91) "[" = 1 := by decide
      have o2 : countChar (Char.ofNat 91) "]" = 0 := by decide
      have o3 : countChar (Char.ofNat 93) "[" = 0 := by decide
      have o4 : countChar (Char.ofNat 93) "]" = 1 := by decide
      have o5 : ∀ c, countChar c "" = 0 := fun c => rfl
      constructor
      · rw [QualType.outerBrackets, QualType.outerArrays, joinLines_append, joinLines,
          joinLines, countChar_append, countChar_append, countChar_append, countChar_append,
          ih.1, h0.1, o1, o2, o5]
      · rw [QualType.outerBrackets, QualType.outerArrays, joinLines_append, joinLines,
          joinLines, countChar_append, countChar_append, countChar_append, countChar_append,
          ih.2, h0.2, o3, o4, o5]
  | QualType.builtin _ _, _ => ⟨rfl, rfl⟩
  | QualType.pointer _ _, _ => ⟨rfl, rfl⟩
  | QualType.unresolved _ _, _ => ⟨rfl, rfl⟩
  | QualType.alias _ _ _, _ => ⟨rfl, rfl⟩
  | QualType.struct _ _, _ => ⟨rfl, rfl⟩
  | QualType.enum _ _, _ => ⟨rfl, rfl⟩
  | QualType.function _ _, _ => ⟨rfl, rfl⟩
  | QualType.package _, _ => ⟨rfl, rfl⟩

/-- The shape of `EmitFunction` in multi-file mode, for every function: a public
function has its prototype and `;`, newline, newline appended to the header, and the
source receives `p.cbuf`, then the definition (prototype, a space, the compound
body, a newline); a function that is not public leaves the header unchanged and the
text appended to the source is `static ` followed by the definition. `p.cbuf` is
what boolean literals, parenthesised and member sub-expressions of the header
prototype send to the source buffer; it is empty, and the header prototype is the
one heading the definition, when the prototype contains no expression other than
integer literals. -/
theorem EmitFunction_multi_file_shape (G : CCodeGenerator) (F : FunctionDecl) (b : Buffers)
    (hmode : G.mode = Mode.MULTI_FILE) :
    (F.isPublic = true →
      EmitFunction G F b =
        (appended (EmitFunctionProto G F Sink.hbuf)).bind fun p =>
        (appended (EmitFunctionProto G F Sink.cbuf)).bind fun d =>
        (appended (EmitCompoundStmt G F.body 0 false)).map fun s =>
          Buffers.mk (b.hbuf ++ p.hbuf ++ ";\n\n")
            (b.cbuf ++ p.cbuf ++ d.cbuf ++ " " ++ s.cbuf ++ "\n")) ∧
    (F.isPublic = false →
      EmitFunction G F b =
        (appended (EmitFunctionProto G F Sink.cbuf)).bind fun d =>
        (appended (EmitCompoundStmt G F.body 0 false)).map fun s =>
          Buffers.mk b.hbuf (b.cbuf ++ "static " ++ d.cbuf ++ " " ++ s.cbuf ++ "\n")) ∧
    (∀ (output : Sink) (x : Buffers), EmitFunctionProto G F output x =
      (EmitTypePreName G F.returnType output >=> EmitTypePostName G F.returnType output
        >=> write output " " >=> addPrefix G G.curmod F.name output
        >=> EmitFunctionArgs G F output) x) ∧
    (F.protoIsLiteral = true →
      ∀ p d, appended (EmitFunctionProto G F Sink.hbuf) = some p →
        appended (EmitFunctionProto G F Sink.cbuf) = some d →
        p.cbuf = "" ∧ p.hbuf = d.cbuf) := by
  refine ⟨fun hp => EmitFunction_with_proto G F b (Or.inr hp),
    fun hp => EmitFunction_without_proto G F b hmode hp, fun output x => ?_,
    fun hl p d => uniform_appended (EmitFunctionProto_uniform G F hl) p d⟩
  unfold EmitFunctionProto
  simp [hmode, writeIf, kleisli_apply, skip]

/-- The shape of `EmitFunction` in single-file mode, for every function whose name
is not `main`: the header receives the forward prototype followed by `;`, newline,
newline, the source receives `p.cbuf`, then the definition, and both prototype texts
begin with `static `. `p.cbuf` is what boolean literals, parenthesised and member
sub-expressions of the header prototype send to the source buffer; it is empty when
the prototype contains no expression other than integer literals. -/
theorem EmitFunction_single_file_shape (G : CCodeGenerator) (F : FunctionDecl) (b : Buffers)
    (hmode : G.mode = Mode.SINGLE_FILE) (hname : F.name ≠ "main") :
    EmitFunction G F b =
        ((appended (EmitFunctionProto G F Sink.hbuf)).bind fun p =>
         (appended (EmitFunctionProto G F Sink.cbuf)).bind fun d =>
         (appended (EmitCompoundStmt G F.body 0 false)).map fun s =>
           Buffers.mk (b.hbuf ++ p.hbuf ++ ";\n\n")
             (b.cbuf ++ p.cbuf ++ d.cbuf ++ " " ++ s.cbuf ++ "\n")) ∧
      (∀ p, appended (EmitFunctionProto G F Sink.hbuf) = some p →
        ∃ rest, p.hbuf = "static " ++ rest) ∧
      (∀ d, appended (EmitFunctionProto G F Sink.cbuf) = some d →
        ∃ rest, d.cbuf = "static " ++ rest) ∧
      (F.protoIsLiteral = true →
        ∀ p d, appended (EmitFunctionProto G F Sink.hbuf) = some p →
          appended (EmitFunctionProto G F Sink.cbuf) = some d →
          p.cbuf = "" ∧ p.hbuf = d.cbuf) := by
  have key : ∀ (output : Sink) (x : Buffers), appended (EmitFunctionProto G F output) = some x →
      ∃ y : Buffers, x = Buffers.empty.put output "static " ++ y := by
    intro output x hx
    unfold appended at hx
    rw [EmitFunctionProto_text] at hx
    cases hr : appended (EmitTypePreName G F.returnType output) with
    | none => simp [hr] at hx
    | some r =>
      cases hq : appended (EmitTypePostName G F.returnType output) with
      | none => simp [hr, hq] at hx
      | some q =>
        cases hm : appended (addPrefix G G.curmod F.name output) with
        | none => simp [hr, hq, hm] at hx
        | some m =>
          cases ha : appended (EmitFunctionArgs G F output) with
          | none => simp [hr, hq, hm, ha] at hx
          | some a =>
            simp only [hr, hq, hm, ha, Option.some_bind, Option.map_some', hmode, hname,
              ne_eq, not_false_eq_true, and_self, if_true, Option.some.injEq] at hx
            refine ⟨r ++ q ++ Buffers.empty.put output " " ++ m ++ a, ?_⟩
            rw [← hx]
            simp [Buffers.append_assoc]
  refine ⟨EmitFunction_with_proto G F b (Or.inl hmode), fun p hp => ?_, fun d hd => ?_,
    fun hl p d => uniform_appended (EmitFunctionProto_uniform G F hl) p d⟩
  · obtain ⟨y, hy⟩ := key Sink.hbuf p hp
    exact ⟨y.hbuf, by rw [hy]; simp [Buffers.put, Buffers.empty]⟩
  · obtain ⟨y, hy⟩ := key Sink.cbuf d hd
    exact ⟨y.cbuf, by rw [hy]; simp [Buffers.put, Buffers.empty]⟩

/-! ## The claims -/

set_option maxRecDepth 100000

/-- C1, counterexample. The claim promises module, underscore, name whenever the
no-local-prefix exception does not apply. With an empty module prefix `addPrefix`
appends the bare name (`x`, not `_x`), and for the name `main` it appends `main`
(not `lib_main`). -/
theorem addPrefix_not_always_prefixed :
    addPrefix (CCodeGenerator.mk "out" "app" Mode.MULTI_FILE false) "" "x" Sink.cbuf Buffers.empty
        ≠ some (Buffers.empty.put Sink.cbuf ("" ++ "_" ++ "x")) ∧
      addPrefix (CCodeGenerator.mk "out" "app" Mode.MULTI_FILE false) "lib" "main" Sink.cbuf
          Buffers.empty
        ≠ some (Buffers.empty.put Sink.cbuf ("lib" ++ "_" ++ "main")) := by
  decide

/-- C1, amended. `addPrefix` appends exactly the name when the module prefix is
empty, when no-local-prefix is set and the prefix is the current module, or when
the name is `main`; in every other case it appends module, underscore, name. -/
theorem addPrefix_appends (G : CCodeGenerator) (m n : String) (buffer : Sink) (b : Buffers) :
    addPrefix G m n buffer b = some (b.put buffer
      (if m = "" ∨ (CCodeGenerator.no_local_prefix G = true ∧ m = G.curmod) ∨ n = "main" then n
       else m ++ "_" ++ n)) := by
  unfold addPrefix GenUtils.addName
  by_cases h1 : m = ""
  · simp [h1, write]
  · by_cases h2 : CCodeGenerator.no_local_prefix G = true ∧ m = G.curmod
    · simp [h1, h2, write]
    · by_cases h3 : n = "main"
      · simp [h1, h2, h3, write]
      · simp [h1, h2, h3, write]

/-- C2, counterexample. A reference from module `util` to the function `main` of
module `app` is emitted as `main`, not as `app_main`. -/
theorem EmitExpr_identifier_main_unprefixed :
    EmitExpr (CCodeGenerator.mk "out" "util" Mode.MULTI_FILE false)
        (Expr.identifier "main" (Decl.mk DeclKind.DECL_FUNC "main"
          (some (Module.mk "app" false "app"))
          (QualType.function false "main"))) Sink.cbuf Buffers.empty
      = some (Buffers.mk "" "main") ∧
    EmitExpr (CCodeGenerator.mk "out" "util" Mode.MULTI_FILE false)
        (Expr.identifier "main" (Decl.mk DeclKind.DECL_FUNC "main"
          (some (Module.mk "app" false "app"))
          (QualType.function false "main"))) Sink.cbuf Buffers.empty
      ≠ some (Buffers.empty.put Sink.cbuf ("app" ++ "_" ++ "main")) := by
  decide

/-- C2, amended. For an identifier that refers to a declaration named `s` owned by
an L module with non-empty mangling prefix `m`: when the current module differs
from `m`, `EmitExpr` appends `m`, underscore, `s` to the sink if `s` is not `main`
and the bare `main` if it is; when the current module is `m` and no-local-prefix is
set, it appends exactly `s`. -/
theorem EmitExpr_identifier_mangled (G : CCodeGenerator) (i s : String) (k : DeclKind)
    (M : Module) (t : QualType) (output : Sink) (b : Buffers)
    (_hL : M.isPlainC = false) (hm : M.cname ≠ "") :
    (G.curmod ≠ M.cname → s ≠ "main" →
      EmitExpr G (Expr.identifier i (Decl.mk k s (some M) t)) output b
        = some (b.put output (M.cname ++ "_" ++ s))) ∧
    (G.curmod ≠ M.cname → s = "main" →
      EmitExpr G (Expr.identifier i (Decl.mk k s (some M) t)) output b
        = some (b.put output "main")) ∧
    (G.curmod = M.cname → CCodeGenerator.no_local_prefix G = true →
      EmitExpr G (Expr.identifier i (Decl.mk k s (some M) t)) output b
        = some (b.put output s)) := by
  have hne : ∀ h : G.curmod ≠ M.cname, ¬ (M.cname = G.curmod) := fun h h' => h h'.symm
  refine ⟨fun h hs => ?_, fun h hs => ?_, fun h hp => ?_⟩
  · simp [EmitExpr, EmitDecl, Decl.module, Decl.name, addPrefix, GenUtils.addName, hm, hne h, hs,
      write]
  · simp [EmitExpr, EmitDecl, Decl.module, Decl.name, addPrefix, GenUtils.addName, hm, hne h, hs,
      write]
  · simp [EmitExpr, EmitDecl, Decl.module, Decl.name, addPrefix, hm, h.symm, hp, write]

/-- C2, witness: `helper` of module `util`, used from `app` and, under
no-local-prefix, from `util` itself. -/
theorem EmitExpr_identifier_mangled_witness :
    ((Module.mk "util" false "util").isPlainC = false ∧ (Module.mk "util" false "util").cname ≠ "") ∧
    EmitExpr (CCodeGenerator.mk "out" "app" Mode.MULTI_FILE false)
        (Expr.identifier "helper" (Decl.mk DeclKind.DECL_FUNC "helper"
          (some (Module.mk "util" false "util")) (QualType.function false "helper")))
        Sink.cbuf Buffers.empty
      = some (Buffers.mk "" "util_helper") ∧
    EmitExpr (CCodeGenerator.mk "out" "util" Mode.MULTI_FILE true)
        (Expr.identifier "helper" (Decl.mk DeclKind.DECL_FUNC "helper"
          (some (Module.mk "util" false "util")) (QualType.function false "helper")))
        Sink.hbuf Buffers.empty
      = some (Buffers.mk "helper" "") :=
  ⟨⟨rfl, by decide⟩,
   (EmitExpr_identifier_mangled (CCodeGenerator.mk "out" "app" Mode.MULTI_FILE false) "helper"
      "helper" DeclKind.DECL_FUNC (Module.mk "util" false "util") (QualType.function false "helper")
      Sink.cbuf Buffers.empty rfl (by decide)).1 (by decide) (by decide),
   (EmitExpr_identifier_mangled (CCodeGenerator.mk "out" "util" Mode.MULTI_FILE true) "helper"
      "helper" DeclKind.DECL_FUNC (Module.mk "util" false "util") (QualType.function false "helper")
      Sink.hbuf Buffers.empty rfl (by decide)).2.2 rfl rfl⟩

/-- C3. For every function named `main`, in every module, mode and setting of
no-local-prefix, the prototype that `EmitFunction` emits (into the header as the
forward declaration, into the source as the head of the definition) is the return
type, a space, the name `main` without module prefix, and the arguments. -/
theorem EmitFunctionProto_main_unprefixed (G : CCodeGenerator) (F : FunctionDecl)
    (output : Sink) (b : Buffers) (hmain : F.name = "main") :
    EmitFunctionProto G F output b =
      (appended (EmitTypePreName G F.returnType output)).bind fun r =>
      (appended (EmitTypePostName G F.returnType output)).bind fun q =>
      (appended (EmitFunctionArgs G F output)).map fun a =>
        b ++ r ++ q ++ Buffers.empty.put output " main" ++ a := by
  rw [EmitFunctionProto_text, hmain, addPrefix_main]
  cases appended (EmitTypePreName G F.returnType output) with
  | none => simp
  | some r =>
    cases appended (EmitTypePostName G F.returnType output) with
    | none => simp
    | some q =>
      cases appended (EmitFunctionArgs G F output) with
      | none => simp
      | some a =>
        have e : ∀ x : String, " " ++ ("main" ++ x) = " main" ++ x := fun x => by
          rw [← String.append_assoc]; rfl
        cases output <;>
          simp [Buffers.put, Buffers.append_def, Buffers.empty, String.append_assoc, e]

/-- C3, witness: module `app` with `func int main()` gives `int main()`, in the
prototype and in the definition. -/
theorem EmitFunctionProto_main_unprefixed_witness :
    mainDecl.name = "main" ∧
      EmitFunctionProto appSingle mainDecl Sink.hbuf Buffers.empty
        = some (Buffers.mk "int main()" "") ∧
      EmitFunctionProto appMulti mainDecl Sink.cbuf Buffers.empty
        = some (Buffers.mk "" "int main()") ∧
      EmitFunction appSingle mainDecl Buffers.empty
        = some (Buffers.mk "int main();\n\n" "int main() \x7b\n    return 0;\n\x7d\n\n") :=
  ⟨rfl,
   (EmitFunctionProto_main_unprefixed appSingle mainDecl Sink.hbuf Buffers.empty rfl).trans
     (by decide),
   (EmitFunctionProto_main_unprefixed appMulti mainDecl Sink.cbuf Buffers.empty rfl).trans
     (by decide),
   by decide⟩

/-- C4, the failing input evaluated: in multi-file mode a `main` that is not public
is emitted as `static int main()`. In single-file mode the same `main`, and in
multi-file mode a public `main`, are emitted without `static `, in the prototype and
in the definition. -/
theorem EmitFunction_private_main_static :
    (appMulti.mode = Mode.MULTI_FILE ∧ mainDecl.name = "main" ∧ mainDecl.isPublic = false) ∧
    EmitFunction appMulti mainDecl Buffers.empty
      = some (Buffers.mk "" "static int main() \x7b\n    return 0;\n\x7d\n\n") ∧
    EmitFunction appSingle mainDecl Buffers.empty
      = some (Buffers.mk "int main();\n\n" "int main() \x7b\n    return 0;\n\x7d\n\n") ∧
    EmitFunction appMulti publicMain Buffers.empty
      = some (Buffers.mk "int main();\n\n" "int main() \x7b\n\x7d\n\n") := by
  decide

/-- C5, counterexample: a public variable emitted in single-file mode appends
nothing to the header; it is defined `static` in the source. -/
theorem EmitVariable_public_single_no_header :
    varDecl.isPublic = true ∧
      EmitVariable modSingle varDecl Buffers.empty
        = some (Buffers.mk "" "static int mod_var = 7;\n\n") := by
  decide

/-- C5, amended. Emitting a public declaration appends one declaration of it to the
header: a public function, in both modes, its prototype followed by `;`, newline,
newline; a public variable, in multi-file mode, `extern `, type, name, `;`,
newline, newline; a public type declaration (a struct or union being a global
one), in both modes, a text that begins with `typedef ` and ends with `;`, newline,
newline. A public variable emitted in single-file mode appends to the source
only. -/
theorem public_decl_header (G : CCodeGenerator) (b : Buffers) :
    (∀ F : FunctionDecl, F.isPublic = true →
      EmitFunction G F b =
        (appended (EmitFunctionProto G F Sink.hbuf)).bind fun p =>
        (appended (EmitFunctionProto G F Sink.cbuf)).bind fun d =>
        (appended (EmitCompoundStmt G F.body 0 false)).map fun s =>
          Buffers.mk (b.hbuf ++ p.hbuf ++ ";\n\n")
            (b.cbuf ++ p.cbuf ++ d.cbuf ++ " " ++ s.cbuf ++ "\n")) ∧
    (∀ V : VarDecl, V.isPublic = true → G.mode = Mode.MULTI_FILE →
      EmitVariable G V b =
        (appended (EmitTypePreName G V.type Sink.cbuf)).bind fun r =>
        (appended (addPrefix G G.curmod V.name Sink.cbuf)).bind fun m =>
        (appended (EmitTypePostName G V.type Sink.hbuf)).bind fun qh =>
        (appended (EmitTypePostName G V.type Sink.cbuf)).bind fun qc =>
        (appended (EmitInitValue G V.initValue Sink.cbuf)).map fun i =>
          Buffers.mk (b.hbuf ++ "extern " ++ r.cbuf ++ " " ++ m.cbuf ++ qh.hbuf ++ ";\n\n")
            (b.cbuf ++ qh.cbuf ++ r.cbuf ++ " " ++ m.cbuf ++ qc.cbuf ++ i.cbuf ++ ";\n\n")) ∧
    (∀ V : VarDecl, V.isPublic = true → G.mode = Mode.SINGLE_FILE →
      SourceOnly (EmitVariable G V)) ∧
    (∀ T : TypeDecl, T.isPublic = true →
      (∀ S, T = TypeDecl.structType S → S.isGlobal = true) →
      EmitTypeDecl G T b = (appended (EmitTypeDecl G T)).map (fun d => b ++ d) ∧
      ∀ d, appended (EmitTypeDecl G T) = some d →
        ∃ decl, d.hbuf = "typedef " ++ decl ++ ";\n\n") := by
  refine ⟨fun F hF => EmitFunction_with_proto G F b (Or.inr hF),
    fun V hV hm => EmitVariable_extern G V b hV hm,
    fun V hV hm => frame_sourceOnly (EmitVariable_frame_static G V (by simp [hm])),
    fun T hT hg => ⟨frame_eq_appended (EmitTypeDecl_frame G T) b,
      EmitTypeDecl_public_typedef G T hT hg⟩⟩

/-- C5, witness: the public function `get`, the public variable `var` and the
public enum `Color` of the scenarios. -/
theorem public_decl_header_witness :
    (getDecl.isPublic = true ∧
      EmitFunction appMulti getDecl Buffers.empty
        = some (Buffers.mk "int app_get(int n);\n\n"
            "int app_get(int n) \x7b\n    return n;\n\x7d\n\n")) ∧
    ((varDecl.isPublic = true ∧ modMulti.mode = Mode.MULTI_FILE) ∧
      EmitVariable modMulti varDecl Buffers.empty
        = some (Buffers.mk "extern int mod_var;\n\n" "int mod_var = 7;\n\n")) ∧
    ((colorEnum.isPublic = true ∧
        ∀ S, colorEnum = TypeDecl.structType S → S.isGlobal = true) ∧
      EmitTypeDecl gfxMulti colorEnum Buffers.empty
        = some (Buffers.mk
            "typedef enum \x7b\n    gfx_Red,\n    gfx_Green = 5,\n    gfx_Blue,\n\x7d Color;\n\n"
            "")) :=
  ⟨⟨rfl, ((public_decl_header appMulti Buffers.empty).1 getDecl rfl).trans (by decide)⟩,
   ⟨⟨rfl, rfl⟩,
    ((public_decl_header modMulti Buffers.empty).2.1 varDecl rfl rfl).trans (by decide)⟩,
   ⟨⟨rfl, fun S h => by cases h⟩,
    ((public_decl_header gfxMulti Buffers.empty).2.2.2 colorEnum rfl
      (fun S h => by cases h)).1.trans (by decide)⟩⟩

/-- C6, counterexample: in single-file mode the forward prototype of a function
that is not public is appended to the header. -/
theorem EmitFunction_private_single_header :
    helperDecl.isPublic = false ∧
      EmitFunction appSingle helperDecl Buffers.empty
        = some (Buffers.mk "static void app_helper();\n\n"
            "static void app_helper() \x7b\n\x7d\n\n") := by
  decide

/-- C6, amended. Emitting a type declaration or a variable that is not public, in
either mode, or a function that is not public in multi-file mode, leaves the header
buffer unchanged: the routine appends to the source buffer only. -/
theorem private_decl_header_unchanged (G : CCodeGenerator) :
    (∀ T : TypeDecl, T.isPublic = false → SourceOnly (EmitTypeDecl G T)) ∧
    (∀ V : VarDecl, V.isPublic = false → SourceOnly (EmitVariable G V)) ∧
    (∀ F : FunctionDecl, F.isPublic = false → G.mode = Mode.MULTI_FILE →
      SourceOnly (EmitFunction G F)) := by
  refine ⟨fun T hT => ?_, fun V hV => ?_, fun F hF hm => ?_⟩
  · have h := EmitTypeDecl_frame G T
    rw [hT] at h
    exact frame_sourceOnly h
  · exact frame_sourceOnly (EmitVariable_frame_static G V (by simp [hV]))
  · exact frame_sourceOnly (EmitFunction_frame_private G F hm hF)

/-- C6, witness: a private alias, a private variable and the private `helper`. -/
theorem private_decl_header_unchanged_witness :
    (privateAlias.isPublic = false ∧ SourceOnly (EmitTypeDecl appSingle privateAlias)) ∧
    (privateVar.isPublic = false ∧ SourceOnly (EmitVariable appSingle privateVar)) ∧
    ((helperDecl.isPublic = false ∧ appMulti.mode = Mode.MULTI_FILE) ∧
      SourceOnly (EmitFunction appMulti helperDecl)) ∧
    EmitTypeDecl appSingle privateAlias (Buffers.mk "H" "C")
      = some (Buffers.mk "H" "Ctypedef int app_Buf[8];\n\n") ∧
    EmitVariable appSingle privateVar (Buffers.mk "H" "C")
      = some (Buffers.mk "H" "Cstatic int app_counter;\n\n") :=
  ⟨⟨rfl, (private_decl_header_unchanged appSingle).1 privateAlias rfl⟩,
   ⟨rfl, (private_decl_header_unchanged appSingle).2.1 privateVar rfl⟩,
   ⟨⟨rfl, rfl⟩, (private_decl_header_unchanged appMulti).2.2 helperDecl rfl rfl⟩,
   by decide, by decide⟩

/-- C7. For a variable whose array sizes and initialiser are integer literals or
absent, with `pre`, `post`, `M` and `init` the texts that `EmitTypePreName`,
`EmitTypePostName`, `addPrefix` and the initialiser step (` = ` and the literal;
empty without initialiser) emit for it: if the variable is public and the mode is
multi-file, `EmitVariable` appends `extern `, `pre`, a space, `M`, `post`, `;`,
newline, newline to the header (no initialiser) and `pre`, a space, `M`, `post`,
`init`, `;`, newline, newline to the source, without `static `; otherwise the
header is unchanged and the source receives `static ` followed by that same
definition. -/
theorem EmitVariable_literal (G : CCodeGenerator) (V : VarDecl) (b : Buffers)
    (pre post M init : String)
    (hsize : V.type.sizesAreLiteral = true) (hinit : literalOrAbsent V.initValue = true)
    (hpre : appended (EmitTypePreName G V.type Sink.cbuf) = some (Buffers.mk "" pre))
    (hpost : appended (EmitTypePostName G V.type Sink.cbuf) = some (Buffers.mk "" post))
    (hM : appended (addPrefix G G.curmod V.name Sink.cbuf) = some (Buffers.mk "" M))
    (hi : appended (EmitInitValue G V.initValue Sink.cbuf) = some (Buffers.mk "" init)) :
    EmitVariable G V b = some
      (if V.isPublic = true ∧ G.mode = Mode.MULTI_FILE then
        Buffers.mk (b.hbuf ++ "extern " ++ pre ++ " " ++ M ++ post ++ ";\n\n")
          (b.cbuf ++ pre ++ " " ++ M ++ post ++ init ++ ";\n\n")
      else
        Buffers.mk b.hbuf (b.cbuf ++ "static " ++ pre ++ " " ++ M ++ post ++ init ++ ";\n\n")) := by
  have e1 := uniform_eq (EmitTypePreName_uniform G V.type) hpre
  have e2 := uniform_eq (EmitTypePostName_uniform G V.type hsize) hpost
  have e3 := uniform_eq (addPrefix_uniform G G.curmod V.name) hM
  have e4 := uniform_eq (EmitInitValue_uniform G V.initValue hinit) hi
  have nl : ∀ x : String, ";\n" ++ ("\n" ++ x) = ";\n\n" ++ x := fun x => by
    rw [← String.append_assoc]; rfl
  have nl2 : ";\n" ++ "\n" = ";\n\n" := rfl
  unfold EmitVariable
  by_cases hc : V.isPublic = true ∧ G.mode = Mode.MULTI_FILE
  · have hc2 : V.isPublic = true ∧ G.mode ≠ Mode.SINGLE_FILE := ⟨hc.1, by rw [hc.2]; decide⟩
    simp only [hc, hc2, and_self, if_true, kleisli_apply, write, e1, e2, e3, e4, Option.some_bind]
    simp [kleisli_apply, write, e1, e2, e3, e4, Buffers.put, String.append_assoc, nl, nl2]
  · have hc2 : ¬ (V.isPublic = true ∧ G.mode ≠ Mode.SINGLE_FILE) := by
      intro h
      apply hc
      refine ⟨h.1, ?_⟩
      cases hm : G.mode with
      | SINGLE_FILE => exact absurd hm h.2
      | MULTI_FILE => rfl
    simp only [hc, hc2, if_false, kleisli_apply, write, e1, e2, e3, e4, Option.some_bind]
    simp [kleisli_apply, write, e1, e2, e3, e4, Buffers.put, String.append_assoc, nl, nl2]

/-- C7, witness: module `mod`, `public var: i32 = 7`, multi-file: `extern int
mod_var;` in the header, `int mod_var = 7;` in the source. -/
theorem EmitVariable_literal_witness :
    (varDecl.type.sizesAreLiteral = true ∧ literalOrAbsent varDecl.initValue = true ∧
      appended (EmitTypePreName modMulti varDecl.type Sink.cbuf) = some (Buffers.mk "" "int") ∧
      appended (EmitTypePostName modMulti varDecl.type Sink.cbuf) = some (Buffers.mk "" "") ∧
      appended (addPrefix modMulti modMulti.curmod varDecl.name Sink.cbuf)
        = some (Buffers.mk "" "mod_var") ∧
      appended (EmitInitValue modMulti varDecl.initValue Sink.cbuf)
        = some (Buffers.mk "" " = 7")) ∧
    EmitVariable modMulti varDecl Buffers.empty
      = some (Buffers.mk "extern int mod_var;\n\n" "int mod_var = 7;\n\n") :=
  ⟨⟨by decide, by decide, by decide, by decide, by decide, by decide⟩,
   EmitVariable_literal modMulti varDecl Buffers.empty "int" "" "mod_var" " = 7"
     (by decide) (by decide) (by decide) (by decide) (by decide) (by decide)⟩

/-- C8, the failing input evaluated: in multi-file mode, for the public function
`g(int x = (1))` of module `app`, the header receives `int app_g(int x = );`, the
prototype without the default value, and the text appended to the source is `(1)`
followed by the definition: the source does not receive the definition alone, and
the header prototype differs from the one heading the definition. The same happens
with a parenthesised array size, `sum(int[(4)] buf)`. -/
theorem EmitFunction_multi_file_paren_to_source :
    (appMulti.mode = Mode.MULTI_FILE ∧ parenArgDecl.isPublic = true
      ∧ parenSizeDecl.isPublic = true) ∧
    EmitFunction appMulti parenArgDecl Buffers.empty
      = some (Buffers.mk "int app_g(int x = );\n\n"
          "(1)int app_g(int x = (1)) \x7b\n\x7d\n\n") ∧
    EmitFunction appMulti parenSizeDecl Buffers.empty
      = some (Buffers.mk "int app_sum(int buf[]);\n\n"
          "(4)int app_sum(int buf[(4)]) \x7b\n\x7d\n\n") := by
  decide

/-- C9, the failing input evaluated: in single-file mode, for the function
`g(int x = (1))` of module `app`, the header receives `static int app_g(int x = );`
and the text appended to the source is `(1)static int app_g(int x = (1))` with the
body: it begins with `(1)`, not with `static `. The same happens with a
parenthesised array size, `sum(int[(4)] buf)`. -/
theorem EmitFunction_single_file_paren_first :
    (appSingle.mode = Mode.SINGLE_FILE ∧ parenArgDecl.name ≠ "main"
      ∧ parenSizeDecl.name ≠ "main") ∧
    EmitFunction appSingle parenArgDecl Buffers.empty
      = some (Buffers.mk "static int app_g(int x = );\n\n"
          "(1)static int app_g(int x = (1)) \x7b\n\x7d\n\n") ∧
    EmitFunction appSingle parenSizeDecl Buffers.empty
      = some (Buffers.mk "static int app_sum(int buf[]);\n\n"
          "(4)static int app_sum(int buf[(4)]) \x7b\n\x7d\n\n") := by
  decide

/-- C10, the code at the failing input: for a public enum whose constant has a
parenthesised initialiser `(5)` (or a boolean literal), `EmitTypeDecl` appends the
typedef, without the initialiser, to the header and the initialiser to the source
buffer, which the claim says stays unchanged. -/
theorem EmitTypeDecl_public_writes_source :
    parenEnum.isPublic = true ∧
      EmitTypeDecl gfxMulti parenEnum Buffers.empty
        = some (Buffers.mk "typedef enum \x7b\n    gfx_Green = ,\n\x7d Color;\n\n" "(5)") ∧
    boolEnum.isPublic = true ∧
      EmitTypeDecl gfxMulti boolEnum Buffers.empty
        = some (Buffers.mk "typedef enum \x7b\n    gfx_On = ,\n\x7d Flag;\n\n" "1") := by
  decide

/-- C11. When every import of every AST resolves in the module map, `EmitIncludes`
leaves the header as it is and appends to the source: one line `#include <n.h>` for
each name `n` of the list `sys`, then one line `#include "n.h"` for each name of the
list `loc`, then one empty line. Here `sys` is strictly ascending and holds exactly
the names of the imported plain-C modules; `loc` is strictly ascending and holds
exactly the names of the imported L modules when the mode is multi-file, and is
empty in single-file mode. -/
theorem EmitIncludes_text (G : CCodeGenerator) (modules : Modules) (entries : List AST)
    (b : Buffers)
    (hres : ∀ ast ∈ entries, ∀ D ∈ ast.imports, (modules D.moduleName).isSome = true) :
    ∃ sys loc : List String,
      sys.Sorted (fun x y => x < y) ∧ loc.Sorted (fun x y => x < y) ∧
      (∀ n, n ∈ sys ↔ includedAs modules entries true n) ∧
      (∀ n, n ∈ loc ↔ G.mode = Mode.MULTI_FILE ∧ includedAs modules entries false n) ∧
      (G.mode = Mode.SINGLE_FILE → loc = []) ∧
      EmitIncludes G modules entries b
        = some (Buffers.mk b.hbuf (b.cbuf
            ++ joinLines (sys.map (fun n => "#include <" ++ n ++ ".h>\n"))
            ++ joinLines (loc.map (fun n => "#include \"" ++ n ++ ".h\"\n")) ++ "\n")) := by
  have hall : ∀ D ∈ allImports entries, (modules D.moduleName).isSome = true := by
    intro D hD
    obtain ⟨ast, ha, hD⟩ := (mem_allImports entries D).1 hD
    exact hres ast ha D hD
  obtain ⟨r, hr, s1, s2, m1, m2⟩ :=
    collectImports_some G modules (allImports entries) ([], []) hall
  have flat : ∀ (plainC : Bool) (n : String),
      (∃ D ∈ allImports entries, ∃ P,
        modules D.moduleName = some P ∧ P.isPlainC = plainC ∧ P.name = n)
        ↔ includedAs modules entries plainC n := by
    intro plainC n
    simp only [mem_allImports, includedAs]
    constructor
    · rintro ⟨D, ⟨ast, ha, hD⟩, hP⟩
      exact ⟨ast, ha, D, hD, hP⟩
    · rintro ⟨ast, ha, D, hD, hP⟩
      exact ⟨D, ⟨ast, ha, hD⟩, hP⟩
  have hloc : ∀ n, n ∈ r.2 ↔ G.mode = Mode.MULTI_FILE ∧ includedAs modules entries false n := by
    intro n
    rw [m2 n, flat]
    simp
  refine ⟨r.1, r.2, s1 List.sorted_nil, s2 List.sorted_nil, fun n => ?_, hloc, fun hm => ?_, ?_⟩
  · rw [m1 n, flat]
    simp
  · refine List.eq_nil_iff_forall_not_mem.2 (fun n hn => ?_)
    have := ((hloc n).1 hn).1
    rw [hm] at this
    cases this
  · rw [EmitIncludes_eq, hr]
    rfl

/-- C11, witness: module `app` imports `stdio` (plain C) and `util` (L) in multi-file
mode; the source receives `#include <stdio.h>`, `#include "util.h"` and a blank
line. -/
theorem EmitIncludes_text_witness :
    (∀ ast ∈ [appImports], ∀ D ∈ ast.imports, (stdModules D.moduleName).isSome = true) ∧
    (∃ sys loc : List String,
      sys.Sorted (fun x y => x < y) ∧ loc.Sorted (fun x y => x < y) ∧
      (∀ n, n ∈ sys ↔ includedAs stdModules [appImports] true n) ∧
      (∀ n, n ∈ loc ↔
        appMulti.mode = Mode.MULTI_FILE ∧ includedAs stdModules [appImports] false n) ∧
      (appMulti.mode = Mode.SINGLE_FILE → loc = []) ∧
      EmitIncludes appMulti stdModules [appImports] Buffers.empty
        = some (Buffers.mk Buffers.empty.hbuf (Buffers.empty.cbuf
            ++ joinLines (sys.map (fun n => "#include <" ++ n ++ ".h>\n"))
            ++ joinLines (loc.map (fun n => "#include \"" ++ n ++ ".h\"\n")) ++ "\n"))) ∧
    EmitIncludes appMulti stdModules [appImports] Buffers.empty
      = some (Buffers.mk "" "#include <stdio.h>\n#include \"util.h\"\n\n") ∧
    EmitIncludes appSingle stdModules [appImports] Buffers.empty
      = some (Buffers.mk "" "#include <stdio.h>\n\n") :=
  ⟨by decide,
   EmitIncludes_text appMulti stdModules [appImports] Buffers.empty (by decide),
   by decide, by decide⟩

/-- C12. The text emitted by `EmitIncludes` (an abort included) depends only on the
set of imported modules: two lists of ASTs that import the same set of modules give
the same emission; in particular it is unchanged when the list of ASTs is permuted,
when the imports inside an AST are permuted, and when an import of an AST is repeated
`k` more times. -/
theorem EmitIncludes_set_only (G : CCodeGenerator) (modules : Modules) :
    (∀ es1 es2 : List AST, (∀ n, imported es1 n ↔ imported es2 n) →
      EmitIncludes G modules es1 = EmitIncludes G modules es2) ∧
    (∀ es1 es2 : List AST, es1.Perm es2 →
      EmitIncludes G modules es1 = EmitIncludes G modules es2) ∧
    (∀ (pre post : List AST) (ast : AST) (imports : List ImportDecl),
      ast.imports.Perm imports →
      EmitIncludes G modules (pre ++ ast :: post)
        = EmitIncludes G modules (pre ++ ast.withImports imports :: post)) ∧
    (∀ (pre post : List AST) (ast : AST) (D : ImportDecl) (k : Nat), D ∈ ast.imports →
      EmitIncludes G modules (pre ++ ast :: post)
        = EmitIncludes G modules
            (pre ++ ast.withImports (ast.imports ++ List.replicate k D) :: post)) := by
  refine ⟨EmitIncludes_congr G modules, fun es1 es2 hp => ?_,
    fun pre post ast imports hp => ?_, fun pre post ast D k hD => ?_⟩
  · refine EmitIncludes_congr G modules es1 es2 (fun n => ?_)
    simp only [imported]
    constructor
    · rintro ⟨a, ha, h⟩
      exact ⟨a, hp.mem_iff.1 ha, h⟩
    · rintro ⟨a, ha, h⟩
      exact ⟨a, hp.mem_iff.2 ha, h⟩
  · refine EmitIncludes_congr G modules _ _ (fun n => ?_)
    rw [imported_middle, imported_middle]
    have : (∃ D ∈ ast.imports, D.moduleName = n)
        ↔ (∃ D ∈ (ast.withImports imports).imports, D.moduleName = n) := by
      simp only [AST.withImports]
      constructor
      · rintro ⟨D, hD, h⟩
        exact ⟨D, hp.mem_iff.1 hD, h⟩
      · rintro ⟨D, hD, h⟩
        exact ⟨D, hp.mem_iff.2 hD, h⟩
    rw [this]
  · refine EmitIncludes_congr G modules _ _ (fun n => ?_)
    rw [imported_middle, imported_middle]
    have : (∃ E ∈ ast.imports, E.moduleName = n)
        ↔ (∃ E ∈ (ast.withImports (ast.imports ++ List.replicate k D)).imports,
            E.moduleName = n) := by
      simp only [AST.withImports, List.mem_append, List.mem_replicate]
      constructor
      · rintro ⟨E, hE, h⟩
        exact ⟨E, Or.inl hE, h⟩
      · rintro ⟨E, hE | ⟨_, rfl⟩, h⟩
        · exact ⟨E, hE, h⟩
        · exact ⟨E, hD, h⟩
    rw [this]

/-- C12, witness: `util`, `stdio`, `math` imported in this order, in another order,
and with `stdio` repeated twice more, give the same three include lines. -/
theorem EmitIncludes_set_only_witness :
    appUnsorted.imports.Perm
      [ImportDecl.mk "stdio", ImportDecl.mk "util", ImportDecl.mk "math"] ∧
    ImportDecl.mk "stdio" ∈ appUnsorted.imports ∧
    EmitIncludes appMulti stdModules ([] ++ appUnsorted :: [])
      = EmitIncludes appMulti stdModules
          ([] ++ appUnsorted.withImports
            [ImportDecl.mk "stdio", ImportDecl.mk "util", ImportDecl.mk "math"] :: []) ∧
    EmitIncludes appMulti stdModules ([] ++ appUnsorted :: [])
      = EmitIncludes appMulti stdModules
          ([] ++ appUnsorted.withImports
            (appUnsorted.imports ++ List.replicate 2 (ImportDecl.mk "stdio")) :: []) ∧
    EmitIncludes appMulti stdModules [appUnsorted] Buffers.empty
      = some (Buffers.mk ""
          "#include <math.h>\n#include <stdio.h>\n#include \"util.h\"\n\n") :=
  ⟨List.Perm.swap _ _ _, by simp [appUnsorted],
   (EmitIncludes_set_only appMulti stdModules).2.2.1 [] [] appUnsorted _
     (List.Perm.swap _ _ _),
   (EmitIncludes_set_only appMulti stdModules).2.2.2 [] [] appUnsorted
     (ImportDecl.mk "stdio") 2 (by simp [appUnsorted]),
   by decide⟩

/-- C13. For every list of ASTs, `generate` is the sequential composition, in this
order, of: the include guard; `EmitIncludes`; `EmitTypeDecl` for every type of every
AST (ASTs in list order, types in declaration order); `EmitVariable` for every
variable of every AST; `EmitFunction` for every function of every AST; `#endif` and a
newline in the header. Each declaration is emitted by the generator whose current
module is the module name of the AST that owns it, the file name, the mode and the
no-local-prefix setting being those of `generate`. For the two modules `app` and
`util`, in this order, on a fresh emitter: the enum of `util` comes before the
variable of `app`, the variable of `util` before the function of `app`, and every
name carries the prefix of its own module. -/
theorem generate_sequence (G : CCodeGenerator) (modules : Modules) (entries : List AST) :
    generate G modules entries
      = seqAll
          ([write Sink.hbuf ("#ifndef " ++ GenUtils.capital G.filename ++ "_H\n"
              ++ "#define " ++ GenUtils.capital G.filename ++ "_H\n" ++ "\n"),
            EmitIncludes G modules entries]
          ++ entries.flatMap (fun ast => ast.types.map
              (EmitTypeDecl (CCodeGenerator.mk G.filename ast.moduleName G.mode
                (CCodeGenerator.no_local_prefix G))))
          ++ entries.flatMap (fun ast => ast.vars.map
              (EmitVariable (CCodeGenerator.mk G.filename ast.moduleName G.mode
                (CCodeGenerator.no_local_prefix G))))
          ++ entries.flatMap (fun ast => ast.functions.map
              (EmitFunction (CCodeGenerator.mk G.filename ast.moduleName G.mode
                (CCodeGenerator.no_local_prefix G))))
          ++ [write Sink.hbuf "#endif\n"]) ∧
    generate (CCodeGenerator.mk "out" "" Mode.MULTI_FILE false) stdModules
        [appUnit, utilUnit] Buffers.empty
      = some (Buffers.mk
          ("#ifndef OUT_H\n#define OUT_H\n\n"
            ++ "typedef enum \x7b\n    app_On,\n\x7d State;\n\n"
            ++ "typedef enum \x7b\n    util_Low,\n\x7d Level;\n\n"
            ++ "extern int app_count;\n\n"
            ++ "extern int util_size;\n\n"
            ++ "int app_get(int n);\n\n"
            ++ "void util_reset();\n\n"
            ++ "#endif\n")
          ("\n"
            ++ "int app_count;\n\n"
            ++ "int util_size;\n\n"
            ++ "int app_get(int n) \x7b\n    return n;\n\x7d\n\n"
            ++ "void util_reset() \x7b\n\x7d\n\n")) := by
  have guard : ∀ rest : Emit,
      (write Sink.hbuf "#ifndef " >=> GenUtils.toCapital G.filename Sink.hbuf
        >=> write Sink.hbuf "_H\n" >=> write Sink.hbuf "#define "
        >=> GenUtils.toCapital G.filename Sink.hbuf >=> write Sink.hbuf "_H\n"
        >=> write Sink.hbuf "\n" >=> rest)
      = (write Sink.hbuf ("#ifndef " ++ GenUtils.capital G.filename ++ "_H\n"
          ++ "#define " ++ GenUtils.capital G.filename ++ "_H\n" ++ "\n") >=> rest) := by
    intro rest
    funext b
    simp only [GenUtils.toCapital, kleisli_apply, write, Option.some_bind, Buffers.put_put,
      String.append_assoc]
  refine ⟨?_, by decide⟩
  unfold generate generateBody
  rw [guard, seqAll_append, seqAll_append, seqAll_append, seqAll_append]
  simp only [seqAll, generatePass_eq_seqAll, comp_skip, comp_assoc, CCodeGenerator.withCurmod]

/-- C14. For every output file name and every input, `generate` on a fresh emitter
completes exactly when the passes between guard and `#endif` do, and then the header
buffer is `#ifndef C_H`, newline, `#define C_H`, newline, a blank line, the header
text of these passes, and `#endif`, newline, where `C` is the capitalised file name:
it begins with the guard and ends with `#endif` and a newline. -/
theorem generate_header_guard (G : CCodeGenerator) (modules : Modules)
    (entries : List AST) :
    generate G modules entries Buffers.empty
      = (appended (generateBody G modules entries)).map (fun d =>
          Buffers.mk
            ("#ifndef " ++ GenUtils.capital G.filename ++ "_H\n"
              ++ "#define " ++ GenUtils.capital G.filename ++ "_H\n"
              ++ ("\n" ++ d.hbuf) ++ "#endif\n")
            d.cbuf) := by
  have hb := generateBody_frame G modules entries
  unfold generate
  simp only [GenUtils.toCapital, kleisli_apply, write, Option.some_bind]
  rw [frame_eq_appended hb]
  cases appended (generateBody G modules entries) with
  | none => rfl
  | some d =>
    have e : ∀ x : String, "_H\n" ++ ("\n" ++ x) = "_H\n\n" ++ x := fun x => by
      rw [← String.append_assoc]; rfl
    simp [Buffers.put, Buffers.empty, Buffers.append_def, String.append_assoc, e]

/-- C15, the failing input evaluated: for a module that declares only a public enum
whose constant is initialised with `(5)`, `generate` completes; the parenthesised
initialiser is sent to the source buffer, which ends with `)` and not with a
newline. -/
theorem generate_source_ends_paren :
    generate (CCodeGenerator.mk "types" "" Mode.MULTI_FILE false) stdModules [typesOnly]
        Buffers.empty
      = some (Buffers.mk
          ("#ifndef TYPES_H\n#define TYPES_H\n\n"
            ++ "typedef enum \x7b\n    types_Green = ,\n\x7d Color;\n\n#endif\n")
          "\n(5)") := by
  decide

/-- C16. For every builtin kind `k` and const flag `c`, the index of `k` is inside
the table `builtin2cname` and the entry there is the C name that the closed table
of the spec gives for `k`; `EmitTypePreName` on the builtin type appends to the
sink `const ` when `c` is set, followed by that name, and nothing else. -/
theorem EmitTypePreName_builtin (G : CCodeGenerator) (k : BuiltinKind) (c : Bool)
    (output : Sink) (b : Buffers) :
    builtin2cname.get? k.toNat = some (builtinCName k) ∧
    EmitTypePreName G (QualType.builtin c k) output b
      = some (b.put output ((if c then "const " else "") ++ builtinCName k)) := by
  have h : builtin2cname.get? k.toNat = some (builtinCName k) := by cases k <;> rfl
  refine ⟨h, ?_⟩
  simp only [EmitTypePreName, writeBuiltin, h]
  cases c
  · simp [writeIf, kleisli_apply, skip, write]
  · simp [writeIf, kleisli_apply, write, Buffers.put_put]

/-- C17, counterexample: on the const-qualified array of `i32`, `EmitTypePreName`
appends `const int`, while the pre-name text of the element type `i32` is `int`. -/
theorem EmitTypePreName_const_array :
    appended (EmitTypePreName appMulti (QualType.array true i32 none) Sink.cbuf)
      = some (Buffers.mk "" "const int") ∧
    appended (EmitTypePreName appMulti i32 Sink.cbuf) = some (Buffers.mk "" "int") ∧
    appended (EmitTypePreName appMulti (QualType.array true i32 none) Sink.cbuf)
      ≠ appended (EmitTypePreName appMulti i32 Sink.cbuf) := by
  decide

/-- C17, amended. For an array type with element type `T`, `EmitTypePostName` is the
post-name of `T`, then `[`, then the size expression `e` as `EmitExpr` emits it (no
step when the size is absent), then `]`; for builtin, pointer, struct, enum and
function types it appends nothing; `EmitTypePreName` on an array type appends
`const ` when the array type is const-qualified and then exactly the pre-name of `T`,
so without the qualifier exactly the pre-name of `T`, and never a bracket. -/
theorem EmitTypePostName_array (G : CCodeGenerator) (c : Bool) (T : QualType)
    (output : Sink) :
    (∀ e, EmitTypePostName G (QualType.array c T (some e)) output
        = (EmitTypePostName G T output >=> write output "[" >=> EmitExpr G e output
            >=> write output "]")) ∧
    (EmitTypePostName G (QualType.array c T none) output
        = (EmitTypePostName G T output >=> write output "[" >=> write output "]")) ∧
    (∀ b, (∀ k, EmitTypePostName G (QualType.builtin c k) output b = some b) ∧
      EmitTypePostName G (QualType.pointer c T) output b = some b ∧
      (∀ n, EmitTypePostName G (QualType.struct c n) output b = some b) ∧
      (∀ n, EmitTypePostName G (QualType.enum c n) output b = some b) ∧
      (∀ n, EmitTypePostName G (QualType.function c n) output b = some b)) ∧
    (∀ e, EmitTypePreName G (QualType.array c T e) output
        = (writeIf c output "const " >=> EmitTypePreName G T output)) ∧
    (∀ e, EmitTypePreName G (QualType.array false T e) output
        = EmitTypePreName G T output) := by
  refine ⟨fun e => ?_, ?_, fun b => ⟨fun k => ?_, ?_, fun n => ?_, fun n => ?_, fun n => ?_⟩,
    fun e => ?_, fun e => ?_⟩
  · rw [EmitTypePostName, EmitSizeExpr]
  · rw [EmitTypePostName, EmitSizeExpr]; rfl
  · simp [EmitTypePostName, skip]
  · simp [EmitTypePostName, skip]
  · simp [EmitTypePostName, skip]
  · simp [EmitTypePostName, skip]
  · simp [EmitTypePostName, skip]
  · rw [EmitTypePreName]
  · rw [EmitTypePreName]; rfl

/-- C18, counterexample: the variable `a` whose type is the array of 3 elements whose
element type is the array of 5 elements of `i32` is emitted as `int a[5][3]`, not as
`int a[3][5]`. -/
theorem EmitVarDecl_nested_inner_first :
    appended (EmitVarDecl appMulti nested35 Sink.cbuf 0)
      = some (Buffers.mk "" "int a[5][3]") ∧
    appended (EmitVarDecl appMulti nested35 Sink.cbuf 0)
      ≠ some (Buffers.mk "" "int a[3][5]") := by
  decide

/-- C18, amended. For all integer sizes `m` and `n` and every element type `T` that is
not an array, a variable `a` whose type is the array of `m` elements whose element
type is the array of `n` elements of `T` is emitted with the dimension of the element
type first: the pre-name of `T`, a space, `a`, `[n]`, `[m]`, the sizes printed as
`EmitExpr` prints integer literals. -/
theorem EmitVarDecl_nested_array (G : CCodeGenerator) (name : String) (m n : Int)
    (T : QualType) (isPublic hasLocal : Bool) (output : Sink) (b : Buffers)
    (hT : T.isArrayType = false) :
    EmitVarDecl G (VarDecl.mk name
        (QualType.array false (QualType.array false T (some (Expr.integerLiteral n)))
          (some (Expr.integerLiteral m))) none isPublic hasLocal) output 0 b
      = (EmitTypePreName G T output
          >=> write output (" " ++ name ++ "[" ++ toString (castToInt n) ++ "]["
                ++ toString (castToInt m) ++ "]")) b := by
  have hp := EmitTypePostName_nonArray G T output hT
  have h0 : indent output 0 = skip := by
    funext x; simp [indent, write, skip, Buffers.put_empty]
  simp only [EmitVarDecl, EmitTypePreName, EmitTypePostName, EmitSizeExpr, EmitExpr,
    EmitInitValue, hp, h0, writeIf, kleisli_apply, skip, write, Option.some_bind,
    Bool.false_eq_true, if_false]
  cases EmitTypePreName G T output b with
  | none => rfl
  | some x => simp [Buffers.put_put, String.append_assoc]

/-- C18, witness: `int a[3][5]` is the declaration of the array of 5 elements whose
element type is the array of 3 elements of `i32`. -/
theorem EmitVarDecl_nested_array_witness :
    i32.isArrayType = false ∧
    EmitVarDecl appMulti nested53 Sink.cbuf 0 Buffers.empty
      = some (Buffers.mk "" "int a[3][5]") :=
  ⟨by decide, EmitVarDecl_nested_array appMulti "a" 5 3 i32 false false Sink.cbuf
    Buffers.empty (by decide)⟩

/-- C19, counterexample: on the alias `Buf` of `i32`, `EmitTypePreName` appends `int`,
the text of the type referred to, and not the identifier `Buf`. -/
theorem EmitTypePreName_alias_refers :
    appended (EmitTypePreName appMulti (QualType.alias false "Buf" i32) Sink.cbuf)
      = some (Buffers.mk "" "int") ∧
    appended (EmitTypePreName appMulti (QualType.alias false "Buf" i32) Sink.cbuf)
      ≠ some (Buffers.mk "" "Buf") := by
  decide

/-- C19, amended. For every alias type, `EmitTypePreName` appends `const ` when the
alias type is const-qualified and then the pre-name of the type the alias refers to;
the alias's own identifier has no part in the text. -/
theorem EmitTypePreName_alias (G : CCodeGenerator) (c : Bool) (name : String)
    (refType : QualType) (output : Sink) :
    EmitTypePreName G (QualType.alias c name refType) output
      = (writeIf c output "const " >=> EmitTypePreName G refType output) ∧
    (∀ other, EmitTypePreName G (QualType.alias c name refType) output
      = EmitTypePreName G (QualType.alias c other refType) output) := by
  refine ⟨?_, fun other => ?_⟩
  · rw [EmitTypePreName]
  · rw [EmitTypePreName, EmitTypePreName]

/-- C20, counterexample: with an empty current module the constant `Red` is emitted
as `Red`, not as `_Red`; and in module `gfx` a constant named `main` is emitted as
`main`, not as `gfx_main`. -/
theorem EmitEnumType_bare_constants :
    EmitEnumType (CCodeGenerator.mk "gfx" "" Mode.MULTI_FILE false)
        (EnumTypeDecl.mk "Color" true [EnumConstantDecl.mk "Red" none]) Sink.hbuf
        Buffers.empty
      = some (Buffers.mk "typedef enum \x7b\n    Red,\n\x7d Color;\n\n" "") ∧
    EmitEnumType gfxMulti
        (EnumTypeDecl.mk "Entry" true [EnumConstantDecl.mk "main" none]) Sink.hbuf
        Buffers.empty
      = some (Buffers.mk "typedef enum \x7b\n    main,\n\x7d Entry;\n\n" "") := by
  decide

/-- C20, amended. For every enum declaration `E` whose initialisers are integer
literals or absent, emitted with a non-empty current module `m` and no-local-prefix
off, `EmitEnumType` appends to the given sink: `typedef enum {`, newline, then for
each constant in declaration order four spaces, `m_<constant>` (a constant named
`main` is written bare), ` = ` and the literal exactly when it has an initialiser,
`,` and newline (also after the last constant), then `} `, the unmangled name of `E`,
`;`, newline, newline. -/
theorem EmitEnumType_text (G : CCodeGenerator) (E : EnumTypeDecl) (output : Sink)
    (b : Buffers) (hm : G.curmod ≠ "") (hp : CCodeGenerator.no_local_prefix G = false)
    (hinit : ∀ C ∈ E.constants, literalOrAbsent C.initValue = true) :
    EmitEnumType G E output b
      = some (b.put output ("typedef enum \x7b\n"
          ++ joinLines (E.constants.map (enumConstantLine G.curmod))
          ++ "\x7d " ++ E.name ++ ";\n\n")) := by
  simp only [EmitEnumType, kleisli_apply, write, Option.some_bind,
    EmitEnumConstants_text G hm hp output E.constants _ hinit]
  simp [Buffers.put_put, String.append_assoc]

/-- C20, witness: `enum Color { Red, Green = 5, Blue }` in module `gfx`. -/
theorem EmitEnumType_text_witness :
    (gfxMulti.curmod ≠ "" ∧ CCodeGenerator.no_local_prefix gfxMulti = false ∧
      ∀ C ∈ colorDecl.constants, literalOrAbsent C.initValue = true) ∧
    EmitEnumType gfxMulti colorDecl Sink.hbuf Buffers.empty
      = some (Buffers.mk
          "typedef enum \x7b\n    gfx_Red,\n    gfx_Green = 5,\n    gfx_Blue,\n\x7d Color;\n\n"
          "") :=
  ⟨⟨by decide, by decide, by decide⟩,
   EmitEnumType_text gfxMulti colorDecl Sink.hbuf Buffers.empty (by decide) (by decide)
     (by decide)⟩

/-- C21. For every struct or union declaration `S` whose members, at every depth, are
variables without initialiser and with integer-literal (or absent) array sizes, or
nested structs and unions, and for every sink and indent `i`, `EmitStructType`
completes and appends to the sink: `i` spaces, `typedef ` iff `S` is global,
`struct ` or `union `, an opening brace, newline, then for each member in order
either (variable) `i + 4` spaces, pre-name, a space, the name, post-name, `;`,
newline, or (nested struct or union) the text of `EmitStructType` for it at indent
`i + 4`, then `i` spaces, a closing brace, a space and the name iff the name is not
empty, `;`, newline, and one further newline iff `S` is global. -/
theorem EmitStructType_text (G : CCodeGenerator) (S : StructTypeDecl) (out : Sink)
    (i : Nat) (b : Buffers) (h : S.membersPlain = true) :
    ∃ text, structText G S i = some text ∧
      EmitStructType G S out i b = some (b.put out text) := by
  obtain ⟨h1, h2⟩ := EmitStructType_structText G S out i b h
  obtain ⟨text, ht⟩ := Option.isSome_iff_exists.1 h2
  exact ⟨text, ht, by rw [h1, ht]; rfl⟩

/-- C21, witness: scenario 3, the public `struct S { i32 x; union { i8 a; i16 b; }; }`
in the header. -/
theorem EmitStructType_text_witness :
    structS.membersPlain = true ∧
    (∃ text, structText appMulti structS 0 = some text ∧
      EmitStructType appMulti structS Sink.hbuf 0 Buffers.empty
        = some (Buffers.empty.put Sink.hbuf text)) ∧
    EmitStructType appMulti structS Sink.hbuf 0 Buffers.empty
      = some (Buffers.mk
          ("typedef struct \x7b\n    int x;\n    union \x7b\n        char a;\n"
            ++ "        short b;\n    \x7d;\n\x7d S;\n\n") "") :=
  ⟨by decide, EmitStructType_text appMulti structS Sink.hbuf 0 Buffers.empty (by decide),
   by decide⟩

/-- C22. For every function whose arguments render as `r1..rn` (each `EmitVarDecl`
appends exactly `ri` to the sink) and whose variadic flag is `v`, `EmitFunctionArgs`
appends to the sink `(`, the elements `r1..rn`, followed by `...` when `v`, joined by
`, ` with no leading or trailing separator, and `)`. -/
theorem EmitFunctionArgs_text (G : CCodeGenerator) (F : FunctionDecl) (rs : List String)
    (output : Sink)
    (hr : List.Forall₂ (fun A r => Renders (EmitVarDecl G A output 0) output r) F.args rs) :
    Renders (EmitFunctionArgs G F output) output
      ("(" ++ joinWith ", " (rs ++ (if F.isVariadic = true then ["..."] else [])) ++ ")") := by
  intro b
  unfold EmitFunctionArgs
  cases hv : F.isVariadic
  · have h := EmitArgsLoop_plain G output F.args rs hr
    simp only [Bool.false_eq_true, if_false, Int.add_zero, kleisli_apply, write,
      Option.some_bind, h _, writeIf, skip, List.append_nil]
    simp [Buffers.put_put, String.append_assoc]
  · have h := EmitArgsLoop_variadic G output F.args rs hr
    have h2 := h (b.put output "(")
    simp only [kleisli_apply, write] at h2
    simp only [if_true, kleisli_apply, write, Option.some_bind, writeIf]
    cases hl : EmitArgsLoop G F.args (↑F.args.length + 1) output (b.put output "(") with
    | none => rw [hl] at h2; cases h2
    | some x =>
      rw [hl] at h2
      simp only [Option.some_bind] at h2 ⊢
      simp only [Option.some.injEq] at h2
      rw [h2]
      simp [Buffers.put_put, String.append_assoc]

/-- C22, witness: `(int x, int y, ...)` for a variadic function with the arguments
`x` and `y`; and `()`, `(int x, int y)`, `(...)` for the other combinations. -/
theorem EmitFunctionArgs_text_witness :
    EmitFunctionArgs appMulti variadicDecl Sink.hbuf Buffers.empty
      = some (Buffers.mk "(int x, int y, ...)" "") ∧
    EmitFunctionArgs appMulti mainDecl Sink.hbuf Buffers.empty
      = some (Buffers.mk "()" "") ∧
    EmitFunctionArgs appMulti
        (FunctionDecl.mk "f" i32 variadicDecl.args false false []) Sink.hbuf Buffers.empty
      = some (Buffers.mk "(int x, int y)" "") ∧
    EmitFunctionArgs appMulti (FunctionDecl.mk "f" i32 [] true false []) Sink.hbuf
        Buffers.empty
      = some (Buffers.mk "(...)" "") :=
  ⟨EmitFunctionArgs_text appMulti variadicDecl ["int x", "int y"] Sink.hbuf
     (List.Forall₂.cons
       (fun b => uniform_eq (EmitVarDecl_uniform appMulti _ 0 (by decide) (by decide))
         (by decide) Sink.hbuf b)
       (List.Forall₂.cons
         (fun b => uniform_eq (EmitVarDecl_uniform appMulti _ 0 (by decide) (by decide))
           (by decide) Sink.hbuf b)
         List.Forall₂.nil)) Buffers.empty,
   by decide, by decide, by decide⟩

/-- C23. For every string `s`, `EmitStringLiteral` appends to the sink a double
quote, then for each byte of `s` in order its image under the escape rule of the
spec, then a double quote, and nothing else. -/
theorem EmitStringLiteral_text (s : String) (output : Sink) (b : Buffers) :
    EmitStringLiteral s output b
      = some (b.put output
          (String.mk (Char.ofNat 34 :: (s.data.flatMap escSpec ++ [Char.ofNat 34])))) := by
  simp only [EmitStringLiteral, kleisli_apply, write, Option.some_bind, Buffers.put_put,
    join_eq_joinLines, joinLines_escape]
  rfl

/-- C24, the failing input evaluated: for the character literal with value 10
(newline) `EmitExpr` appends a single quote, the raw newline byte and a single
quote, three bytes, not the escaped form of four bytes; the same byte in a string
literal is escaped by `EmitStringLiteral`. For every value the character is written
as it is, cast to `char`. -/
theorem EmitExpr_char_not_escaped :
    EmitExpr appMulti (Expr.characterLiteral 10) Sink.cbuf Buffers.empty
      = some (Buffers.mk "" (String.mk [Char.ofNat 39, Char.ofNat 10, Char.ofNat 39])) ∧
    EmitExpr appMulti (Expr.characterLiteral 10) Sink.cbuf Buffers.empty
      ≠ some (Buffers.mk ""
          (String.mk (Char.ofNat 39 :: (escSpec (Char.ofNat 10) ++ [Char.ofNat 39])))) ∧
    EmitStringLiteral (String.mk [Char.ofNat 10]) Sink.cbuf Buffers.empty
      = some (Buffers.mk ""
          (String.mk [Char.ofNat 34, Char.ofNat 92, Char.ofNat 110, Char.ofNat 34])) ∧
    (∀ (G : CCodeGenerator) (v : Nat) (output : Sink) (b : Buffers),
      EmitExpr G (Expr.characterLiteral v) output b
        = some (b.put output
            (String.mk [Char.ofNat 39, Char.ofNat (v % 256), Char.ofNat 39]))) := by
  refine ⟨by decide, by decide, by decide, fun G v output b => ?_⟩
  simp only [EmitExpr, kleisli_apply, write, Option.some_bind, Buffers.put_put]
  rfl

/-- C25, the failing input evaluated: the integer literal 4294967296 is emitted as
`0` and 2147483648 as `-2147483648`: the value is cast to `int` before it is
printed. In general the text is the decimal form of the value wrapped to 32 bits. -/
theorem EmitExpr_integer_truncated :
    EmitExpr appMulti (Expr.integerLiteral 4294967296) Sink.cbuf Buffers.empty
      = some (Buffers.mk "" "0") ∧
    EmitExpr appMulti (Expr.integerLiteral 2147483648) Sink.cbuf Buffers.empty
      = some (Buffers.mk "" "-2147483648") ∧
    (∀ (G : CCodeGenerator) (v : Int) (output : Sink) (b : Buffers),
      EmitExpr G (Expr.integerLiteral v) output b
        = some (b.put output (toString (castToInt v)))) := by
  refine ⟨by decide, by decide, fun G v output b => ?_⟩
  simp [EmitExpr, write]

/-- C26, the failing input evaluated: for the module-scoped array `buf` of module `m`,
`elemsof(buf)` is emitted with the bare identifier, while the identifier on its own
is emitted as `m_buf`; for the local array both are `buf`. -/
theorem EmitExpr_elemsof_unmangled :
    EmitExpr appMulti (Expr.builtin false (Expr.identifier "buf" moduleBuf)) Sink.cbuf
        Buffers.empty
      = some (Buffers.mk "" "sizeof(buf)/sizeof(buf[0])") ∧
    EmitExpr appMulti (Expr.identifier "buf" moduleBuf) Sink.cbuf Buffers.empty
      = some (Buffers.mk "" "m_buf") ∧
    EmitExpr appMulti (Expr.builtin false (Expr.identifier "buf" localBuf)) Sink.cbuf
        Buffers.empty
      = some (Buffers.mk "" "sizeof(buf)/sizeof(buf[0])") ∧
    EmitExpr appMulti (Expr.identifier "buf" localBuf) Sink.cbuf Buffers.empty
      = some (Buffers.mk "" "buf") := by
  decide

/-- C27, counterexample: `elemsof` on the enum constant `Red` does not abort; it
returns normally and leaves both buffers as they were. -/
theorem EmitExpr_elemsof_enum_returns :
    EmitExpr appMulti (Expr.builtin false (Expr.identifier "Red" redConstant)) Sink.cbuf
        Buffers.empty
      = some Buffers.empty := by
  decide

/-- C27, amended. `EmitExpr` on an `elemsof` expression whose operand is an
identifier aborts when the declaration of the identifier is neither an enum
constant nor an array-typed variable: a variable that is not an array, a function, a
type declaration, an array value, an import. On an enum constant it returns normally
and appends nothing. -/
theorem EmitExpr_elemsof_aborts (G : CCodeGenerator) (name : String) (D : Decl)
    (output : Sink) (b : Buffers) :
    (D.kind ≠ DeclKind.DECL_ENUMVALUE →
      ¬ (D.kind = DeclKind.DECL_VAR ∧ D.type.isArrayType = true) →
      EmitExpr G (Expr.builtin false (Expr.identifier name D)) output b = none) ∧
    (D.kind = DeclKind.DECL_ENUMVALUE →
      EmitExpr G (Expr.builtin false (Expr.identifier name D)) output b = some b) := by
  constructor
  · intro h1 h2
    simp only [EmitExpr, Bool.false_eq_true, if_false]
    cases hk : D.kind <;> simp only [hk] at h1 h2 ⊢
    · rfl
    · have h3 : D.type.isArrayType = false := by simpa using h2
      simp [h3, abort]
    · exact absurd rfl h1
    all_goals rfl
  · intro h1
    simp only [EmitExpr, Bool.false_eq_true, if_false, h1]
    rfl

/-- C27, witness: `elemsof(n)` for the local variable `n: i32` aborts. -/
theorem EmitExpr_elemsof_aborts_witness :
    (localInt.kind ≠ DeclKind.DECL_ENUMVALUE ∧
      ¬ (localInt.kind = DeclKind.DECL_VAR ∧ localInt.type.isArrayType = true)) ∧
    EmitExpr appMulti (Expr.builtin false (Expr.identifier "n" localInt)) Sink.cbuf
        Buffers.empty = none :=
  ⟨⟨by decide, by decide⟩,
   (EmitExpr_elemsof_aborts appMulti "n" localInt Sink.cbuf Buffers.empty).1
     (by decide) (by decide)⟩

/-- C28. `EmitStmt` called on a `case` or on a `default` statement aborts, for every
indent and buffer state, before anything is appended. They are emitted by the loop of
`EmitSwitchStmt` over the children of a switch: a `case` child as the indented line
`case <cond>:` followed by its statements, a `default` child as `default:` followed
by its statements; and a switch with a direct child that is neither aborts. -/
theorem EmitStmt_case_aborts (G : CCodeGenerator) (ind : Nat) (b : Buffers) :
    (∀ cond stmts, EmitStmt G (Stmt.caseStmt cond stmts) ind b = none) ∧
    (∀ stmts, EmitStmt G (Stmt.defaultStmt stmts) ind b = none) ∧
    (∀ cond cases, (∃ c ∈ cases, c.isCaseOrDefault = false) →
      EmitStmt G (Stmt.switchStmt cond cases) ind b = none) ∧
    (∀ cond cases, EmitStmt G (Stmt.switchStmt cond cases) ind
      = (write Sink.cbuf (spaces ind ++ "switch (") >=> EmitExpr G cond Sink.cbuf
          >=> write Sink.cbuf ") \x7b\n" >=> EmitCases G cases ind
          >=> write Sink.cbuf (spaces ind ++ "\x7d\n"))) ∧
    (∀ cond stmts rest, EmitCases G (Stmt.caseStmt cond stmts :: rest) ind
      = (write Sink.cbuf (spaces (ind + 4) ++ "case ") >=> EmitExpr G cond Sink.cbuf
          >=> write Sink.cbuf ":\n" >=> EmitStmtList G stmts (ind + 8)
          >=> EmitCases G rest ind)) ∧
    (∀ stmts rest, EmitCases G (Stmt.defaultStmt stmts :: rest) ind
      = (write Sink.cbuf (spaces (ind + 4) ++ "default:\n")
          >=> EmitStmtList G stmts (ind + 8) >=> EmitCases G rest ind)) := by
  refine ⟨fun cond stmts => ?_, fun stmts => ?_, fun cond cases h => ?_,
    fun cond cases => ?_, fun cond stmts rest => ?_, fun stmts rest => ?_⟩
  · simp [EmitStmt, abort]
  · simp [EmitStmt, abort]
  · rw [EmitStmt]
    have hc := fun x => EmitCases_bad G cases ind x h
    simp only [kleisli_apply, indent, write, Option.some_bind]
    cases EmitExpr G cond Sink.cbuf ((b.put Sink.cbuf _).put Sink.cbuf "switch (") with
    | none => rfl
    | some x => simp [hc]
  · rw [EmitStmt]
    funext x
    simp only [kleisli_apply, indent, write, Option.some_bind, Buffers.put_put, spaces]
  · rw [EmitCases]
    funext x
    simp only [kleisli_apply, indent, write, Option.some_bind, Buffers.put_put, spaces, INDENT]
  · rw [EmitCases]
    funext x
    simp only [kleisli_apply, indent, write, Option.some_bind, Buffers.put_put, spaces, INDENT]

/-- C28, witness: a switch with a `break` as direct child aborts; the switch with one
`case` and one `default` is emitted; a `case` outside a switch aborts. -/
theorem EmitStmt_case_aborts_witness :
    (∃ c ∈ [Stmt.caseStmt (Expr.integerLiteral 1) [], Stmt.breakStmt],
      c.isCaseOrDefault = false) ∧
    EmitStmt appMulti switchBad 0 Buffers.empty = none ∧
    EmitStmt appMulti switchN 0 Buffers.empty
      = some (Buffers.mk ""
          ("switch (n) \x7b\n    case 1:\n        break;\n    default:\n        n;\n\x7d\n")) ∧
    EmitStmt appMulti (Stmt.compoundStmt [Stmt.caseStmt (Expr.integerLiteral 1) []]) 0
        Buffers.empty = none :=
  ⟨⟨Stmt.breakStmt, by simp, rfl⟩,
   (EmitStmt_case_aborts appMulti 0 Buffers.empty).2.2.1 _ _ ⟨Stmt.breakStmt, by simp, rfl⟩,
   by decide, by decide⟩

/-- C29. For every `for` statement and indent `i`, `EmitForStmt` appends to the source
buffer `i` spaces and the header `for (`, the init text if present, `;`, a space and
the condition text if present, `;`, a space and the increment text if present, `) `,
and then emits the body (a compound body at indent `i` without a leading indent, any
other statement at indent 0); it aborts when a part of the header does. With all
three parts absent the header is exactly `for (;;) `. -/
theorem EmitStmt_for (G : CCodeGenerator) (init : Option Stmt) (cond incr : Option Expr)
    (body : Stmt) (ind : Nat) (b : Buffers) :
    EmitStmt G (Stmt.forStmt init cond incr body) ind b
      = (forHeader G init cond incr).bind (fun h =>
          (if body.isCompound then EmitCompoundCast G body ind false else EmitStmt G body 0)
            (Buffers.mk b.hbuf (b.cbuf ++ spaces ind ++ h))) ∧
    forHeader G none none none = some "for (;;) " ∧
    (∀ e, forHeader G none (some e) none
      = (exprText G e).map (fun t => "for (; " ++ t ++ ";) ")) := by
  have f1 : ∀ x : String, ";" ++ (" " ++ x) = "; " ++ x := fun x => by
    rw [← String.append_assoc]; rfl
  have f2 : ∀ x : String, ";;" ++ (" " ++ x) = ";; " ++ x := fun x => by
    rw [← String.append_assoc]; rfl
  have f3 : ∀ x : String, "for (;" ++ (" " ++ x) = "for (; " ++ x := fun x => by
    rw [← String.append_assoc]; rfl
  have f4 : ∀ x : String, "for (;;" ++ (" " ++ x) = "for (;; " ++ x := fun x => by
    rw [← String.append_assoc]; rfl
  refine ⟨?_, rfl, fun e => ?_⟩
  · simp only [EmitStmt, kleisli_apply, indent, write, Option.some_bind, forHeader]
    cases init with
    | none =>
      cases cond with
      | none =>
        cases incr with
        | none =>
          simp [skip, EmitOptExpr, Buffers.put, spaces, String.append_assoc, f1, f2, f3, f4]
        | some e3 =>
          simp only [skip, EmitOptExpr, Option.some_bind, kleisli_apply, write, EmitExpr_text]
          cases exprText G e3 <;>
            simp [Buffers.put, spaces, String.append_assoc, f1, f2, f3, f4]
      | some e2 =>
        simp only [skip, EmitOptExpr, Option.some_bind, kleisli_apply, write, EmitExpr_text]
        cases exprText G e2 with
        | none => simp
        | some t2 =>
          cases incr with
          | none => simp [skip, Buffers.put, spaces, String.append_assoc, f1, f2, f3, f4]
          | some e3 =>
            simp only [Option.map_some', Option.some_bind, kleisli_apply, write, EmitExpr_text]
            cases exprText G e3 <;>
              simp [Buffers.put, spaces, String.append_assoc, f1, f2, f3, f4]
    | some s =>
      simp only [EmitCastExpr]
      cases s.castExpr with
      | none => simp [abort]
      | some e1 =>
        simp only [EmitExpr_text, Option.some_bind]
        cases exprText G e1 with
        | none => simp
        | some t1 =>
          cases cond with
          | none =>
            cases incr with
            | none =>
              simp [skip, EmitOptExpr, Buffers.put, spaces, String.append_assoc, f1, f2, f3, f4]
            | some e3 =>
              simp only [skip, EmitOptExpr, Option.map_some', Option.some_bind, kleisli_apply,
                write, EmitExpr_text]
              cases exprText G e3 <;>
                simp [Buffers.put, spaces, String.append_assoc, f1, f2, f3, f4]
          | some e2 =>
            simp only [skip, EmitOptExpr, Option.map_some', Option.some_bind, kleisli_apply,
              write, EmitExpr_text]
            cases exprText G e2 with
            | none => simp
            | some t2 =>
              cases incr with
              | none => simp [skip, Buffers.put, spaces, String.append_assoc, f1, f2, f3, f4]
              | some e3 =>
                simp only [Option.map_some', Option.some_bind, kleisli_apply, write,
                  EmitExpr_text]
                cases exprText G e3 <;>
                  simp [Buffers.put, spaces, String.append_assoc, f1, f2, f3, f4]
  · simp only [forHeader, Option.some_bind, Option.map_some']
    cases exprText G e <;> simp [String.append_assoc, f3]

/-- C29, witness: `for (n; n < 10; n++) n;` at indent 4, and `for (;;) ` with an empty
compound body. -/
theorem EmitStmt_for_witness :
    EmitStmt appMulti forN 4 Buffers.empty
      = some (Buffers.mk "" "    for (n; n < 10; n++) n;\n") ∧
    EmitStmt appMulti (Stmt.forStmt none none none (Stmt.compoundStmt [])) 0 Buffers.empty
      = some (Buffers.mk "" "for (;;) \x7b\n\x7d\n") :=
  ⟨(EmitStmt_for appMulti _ _ _ useN 4 Buffers.empty).1.trans (by decide),
   (EmitStmt_for appMulti none none none (Stmt.compoundStmt []) 0 Buffers.empty).1.trans
     (by decide)⟩

/-- C30, the failing input evaluated: with the header as sink, the member expression
`p.x` is appended to the source buffer and the header receives nothing; so is
`p->x`. -/
theorem EmitExpr_member_writes_source :
    EmitExpr appMulti memberPX Sink.hbuf Buffers.empty = some (Buffers.mk "" "p.x") ∧
    EmitExpr appMulti
        (Expr.member false localInt (Expr.identifier "p" localPoint) true "x") Sink.hbuf
        Buffers.empty
      = some (Buffers.mk "" "p->x") := by
  decide

/-- C31, counterexample: in `{ 1, { 2 } }` the second element is an init list, yet no
newline follows the opening brace; the text is `{ 1, { 2 }`, newline, ` }`. -/
theorem EmitExpr_initList_no_leading_newline :
    EmitExpr appMulti nestedSecond Sink.cbuf Buffers.empty
      = some (Buffers.mk "" "\x7b 1, \x7b 2 \x7d\n \x7d") := by
  decide

/-- C31, amended. For every init-list expression whose elements render as the texts
`v0..vn-1`, `EmitExpr` appends an opening brace and a space, the elements with `, `
after each but the last, and a space and a closing brace; a newline is emitted right
after the opening brace and space exactly when the first element is itself an init
list, and a newline is emitted after each element that is an init list (after its
`, ` when it is not the last). When no element is an init list the text between the
braces is the elements separated by `, `. -/
theorem EmitExpr_initList (G : CCodeGenerator) (values : List Expr) (ts : List String)
    (output : Sink)
    (hr : List.Forall₂ (fun v t => Renders (EmitExpr G v output) output t) values ts) :
    Renders (EmitExpr G (Expr.initList values) output) output
      ("\x7b " ++ initListBody ((values.map Expr.isInitList).zip ts) true ++ " \x7d") ∧
    ((∀ v ∈ values, v.isInitList = false) →
      initListBody ((values.map Expr.isInitList).zip ts) true = joinWith ", " ts) := by
  refine ⟨fun b => ?_, initListBody_flat values ts true hr.length_eq⟩
  simp only [EmitExpr, kleisli_apply, write, Option.some_bind,
    EmitInitValues_text G output values ts true hr _]
  simp [Buffers.put_put, String.append_assoc]

/-- C31, witness: `{ { 1 }, 2 }` with the element texts `{ 1 }` and `2`: a newline
after the opening brace and after the nested element. -/
theorem EmitExpr_initList_witness :
    EmitExpr appMulti nestedFirst Sink.cbuf Buffers.empty
      = some (Buffers.mk "" "\x7b \n\x7b 1 \x7d, \n2 \x7d") ∧
    EmitExpr appMulti
        (Expr.initList [Expr.integerLiteral 1, Expr.integerLiteral 2]) Sink.hbuf
        Buffers.empty
      = some (Buffers.mk "\x7b 1, 2 \x7d" "") :=
  ⟨(EmitExpr_initList appMulti _ ["\x7b 1 \x7d", "2"] Sink.cbuf
      (List.Forall₂.cons (fun b => by simp [EmitExpr, EmitInitValues, Expr.isInitList, writeIf,
          skip, kleisli_apply, write, castToInt, Buffers.put_put]; rfl)
        (List.Forall₂.cons (fun b => by simp [EmitExpr, write, castToInt]; rfl)
          List.Forall₂.nil))).1 Buffers.empty,
   (EmitExpr_initList appMulti _ ["1", "2"] Sink.hbuf
      (List.Forall₂.cons (fun b => by simp [EmitExpr, write, castToInt]; rfl)
        (List.Forall₂.cons (fun b => by simp [EmitExpr, write, castToInt]; rfl)
          List.Forall₂.nil))).1 Buffers.empty⟩

/-- C32, counterexample: with no-local-prefix set, module `util` defines its function
as `helper` and its variable as `var`, while a reference from module `app` is emitted
as `util_helper` and `util_var`. -/
theorem EmitExpr_use_differs_from_definition :
    EmitFunction utilLocal helperDecl Buffers.empty
      = some (Buffers.mk "" "static void helper() \x7b\n\x7d\n\n") ∧
    EmitExpr appLocal (Expr.identifier "helper" utilHelper) Sink.cbuf Buffers.empty
      = some (Buffers.mk "" "util_helper") ∧
    EmitVariable utilLocal varDecl Buffers.empty
      = some (Buffers.mk "extern int var;\n\n" "int var = 7;\n\n") ∧
    EmitExpr appLocal (Expr.identifier "var" utilVar) Sink.cbuf Buffers.empty
      = some (Buffers.mk "" "util_var") := by
  decide

/-- C32, amended. For a function or variable named `s` declared at module scope in an
L module `M` whose mangling prefix equals its name, emitted at its definition with
the current module `M` (`Gdef`) and referenced with any current module (`Guse`) under
the same setting of no-local-prefix: the identifier that `EmitExpr` emits at the use
site is the one that the definition emits (the step `addPrefix` of
`EmitFunctionProto` and of `EmitVariable`) when no-local-prefix is off, and when it is
set and the reference is made from `M` itself. When no-local-prefix is set and the
reference is made from another module, the use site emits `M_s` (for `s` other than
`main`) while the definition emits `s`. -/
theorem EmitExpr_use_equals_definition (Gdef Guse : CCodeGenerator) (i s : String)
    (k : DeclKind) (M : Module) (t : QualType) (output : Sink)
    (hname : M.cname = M.name) (hdef : Gdef.curmod = M.name)
    (hflag : CCodeGenerator.no_local_prefix Guse = CCodeGenerator.no_local_prefix Gdef) :
    ((CCodeGenerator.no_local_prefix Guse = false ∨ Guse.curmod = M.name) →
      EmitExpr Guse (Expr.identifier i (Decl.mk k s (some M) t)) output
        = addPrefix Gdef Gdef.curmod s output) ∧
    (CCodeGenerator.no_local_prefix Guse = true → Guse.curmod ≠ M.name → M.name ≠ "" →
      s ≠ "main" →
      Renders (EmitExpr Guse (Expr.identifier i (Decl.mk k s (some M) t)) output) output
          (M.name ++ "_" ++ s) ∧
        Renders (addPrefix Gdef Gdef.curmod s output) output s) ∧
    (∀ F : FunctionDecl, EmitFunctionProto Gdef F output
      = (writeIf (decide (Gdef.mode = Mode.SINGLE_FILE ∧ F.name ≠ "main")) output "static "
          >=> EmitTypePreName Gdef F.returnType output
          >=> EmitTypePostName Gdef F.returnType output >=> write output " "
          >=> addPrefix Gdef Gdef.curmod F.name output >=> EmitFunctionArgs Gdef F output)) ∧
    (∀ V : VarDecl, ¬ (V.isPublic = true ∧ Gdef.mode ≠ Mode.SINGLE_FILE) →
      EmitVariable Gdef V
        = (write Sink.cbuf "static " >=> EmitTypePreName Gdef V.type Sink.cbuf
            >=> write Sink.cbuf " " >=> addPrefix Gdef Gdef.curmod V.name Sink.cbuf
            >=> EmitTypePostName Gdef V.type Sink.cbuf
            >=> EmitInitValue Gdef V.initValue Sink.cbuf
            >=> write Sink.cbuf ";\n" >=> write Sink.cbuf "\n")) := by
  refine ⟨fun h => ?_, fun hp hne hm hs => ⟨fun b => ?_, fun b => ?_⟩, fun F => rfl,
    fun V hV => ?_⟩
  · simp only [EmitExpr, EmitDecl, Decl.module, Decl.name, addPrefix, hname, hdef, hflag]
    rcases h with h | h
    · rw [hflag] at h
      simp [h]
    · simp [h]
  · have hne2 : ¬ (M.name = Guse.curmod) := fun h => hne h.symm
    simp [EmitExpr, EmitDecl, Decl.module, Decl.name, addPrefix, GenUtils.addName, hname, hm,
      hne2, hs, write]
  · rw [hflag] at hp
    simp [addPrefix, hdef, hp, write]
  · simp only [EmitVariable, hV, if_false]

/-- C32, witness: `helper` and `var` of module `util`, referenced from `util` itself
under no-local-prefix and from `app` without it. -/
theorem EmitExpr_use_equals_definition_witness :
    (utilModule.cname = utilModule.name ∧ utilLocal.curmod = utilModule.name) ∧
    EmitExpr utilLocal (Expr.identifier "helper" utilHelper) Sink.cbuf
      = addPrefix utilLocal utilLocal.curmod "helper" Sink.cbuf ∧
    EmitExpr appMulti (Expr.identifier "var" utilVar) Sink.cbuf
      = addPrefix (CCodeGenerator.mk "out" "util" Mode.MULTI_FILE false) "util" "var"
          Sink.cbuf ∧
    EmitExpr appMulti (Expr.identifier "var" utilVar) Sink.cbuf Buffers.empty
      = some (Buffers.mk "" "util_var") ∧
    EmitVariable (CCodeGenerator.mk "out" "util" Mode.MULTI_FILE false) varDecl Buffers.empty
      = some (Buffers.mk "extern int util_var;\n\n" "int util_var = 7;\n\n") :=
  ⟨⟨rfl, rfl⟩,
   (EmitExpr_use_equals_definition utilLocal utilLocal "helper" "helper" DeclKind.DECL_FUNC
      utilModule (QualType.function false "helper") Sink.cbuf rfl rfl rfl).1 (Or.inr rfl),
   (EmitExpr_use_equals_definition (CCodeGenerator.mk "out" "util" Mode.MULTI_FILE false)
      appMulti "var" "var" DeclKind.DECL_VAR utilModule i32 Sink.cbuf rfl rfl rfl).1
      (Or.inl rfl),
   by decide, by decide⟩

/-- C33, the failing input evaluated: for the string `a"b` the emitted text is
`"a"b"`, with the inner double quote unescaped, and for `a\` it is `"a\"`, with the
backslash unescaped: the escape rule of `EmitStringLiteral` maps both bytes to
themselves. -/
theorem EmitStringLiteral_quote_unescaped :
    EmitStringLiteral "a\"b" Sink.cbuf Buffers.empty = some (Buffers.mk "" "\"a\"b\"") ∧
    EmitStringLiteral "a\\" Sink.cbuf Buffers.empty = some (Buffers.mk "" "\"a\\\"") ∧
    escapeChar (Char.ofNat 34) = String.mk [Char.ofNat 34] ∧
    escapeChar (Char.ofNat 92) = String.mk [Char.ofNat 92] := by
  decide

/-- C34, counterexample: the pointer to `i32[10]` has one array constructor and is
emitted as `int*`, without a bracket; the array of 4 such pointers has two and is
emitted as `int*[4]`, with one bracket pair. -/
theorem EmitType_pointer_to_array_loses_dimension :
    (EmitTypePreName appMulti pointerToArray Sink.cbuf
        >=> EmitTypePostName appMulti pointerToArray Sink.cbuf) Buffers.empty
      = some (Buffers.mk "" "int*") ∧
    pointerToArray.arrayCount = 1 ∧
    (EmitTypePreName appMulti arrayOfPointers Sink.cbuf
        >=> EmitTypePostName appMulti arrayOfPointers Sink.cbuf) Buffers.empty
      = some (Buffers.mk "" "int*[4]") ∧
    arrayOfPointers.arrayCount = 2 := by
  decide

/-- C34, amended. For every type built from builtin, pointer and array constructors
(array sizes being integer literals), the text of `EmitTypePreName` followed by
`EmitTypePostName` is the pre-name, which contains no bracket, followed by one
`[size]` pair for each array constructor that is reached from the top of the type
through array constructors only: the text contains exactly as many `[` and as many
`]` as there are such constructors. An array constructor under a pointer gives no
bracket pair; when no array occurs under a pointer, these are all the array
constructors of the type. -/
theorem EmitType_brackets (G : CCodeGenerator) (t : QualType) (output : Sink)
    (h : t.isPlain = true) :
    Renders (EmitTypePreName G t output >=> EmitTypePostName G t output) output
      (t.plainPre ++ joinLines t.outerBrackets) ∧
    noBracket t.plainPre ∧
    t.outerBrackets.length = t.outerArrays ∧
    countChar (Char.ofNat 91) (t.plainPre ++ joinLines t.outerBrackets) = t.outerArrays ∧
    countChar (Char.ofNat 93) (t.plainPre ++ joinLines t.outerBrackets) = t.outerArrays ∧
    (t.noArrayUnderPointer = true → t.outerArrays = t.arrayCount) := by
  have hp := plainPre_noBracket t
  have c0 := countChar_noBracket hp
  have c1 := outerBrackets_count t h
  refine ⟨fun b => ?_, hp, outerBrackets_length t, ?_, ?_, outerArrays_eq_arrayCount t⟩
  · simp [kleisli_apply, EmitTypePreName_plain G output t h _,
      EmitTypePostName_plain G output t h _, Buffers.put_put]
  · rw [countChar_append, c0.1, c1.1]; omega
  · rw [countChar_append, c0.2, c1.2]; omega

/-- C34, witness: `i32[5][3]`, the array of 3 arrays of 5, is emitted with two bracket
pairs, `int[5][3]`. -/
theorem EmitType_brackets_witness :
    nested35.type.isPlain = true ∧
    (EmitTypePreName appMulti nested35.type Sink.hbuf
        >=> EmitTypePostName appMulti nested35.type Sink.hbuf) Buffers.empty
      = some (Buffers.mk "int[5][3]" "") ∧
    nested35.type.outerArrays = 2 ∧ nested35.type.arrayCount = 2 :=
  ⟨by decide,
   ((EmitType_brackets appMulti nested35.type Sink.hbuf (by decide)).1 Buffers.empty).trans
     (by decide),
   by decide, by decide⟩

/-- C35. For every statement tree built only from Return, If, Break, Continue and
Compound nodes, every indent and every buffer state: if the legacy `Expr::generateC`
renders each expression to the text that the live path appends to the source buffer
for it, then `EmitStmt` leaves the header as it is and appends to the source buffer
exactly the text that `Stmt::generateC` appends to its buffer, and it aborts exactly
when the legacy path does. -/
theorem generateC_refines_EmitStmt (G : CCodeGenerator) (exprC : Expr → Nat → LegacyEmit)
    (otherC : Stmt → Nat → LegacyEmit) (S : Stmt) (ind : Nat) (b : Buffers)
    (hcore : S.inCore = true)
    (hexpr : ∀ e buffer, exprC e 0 buffer = (exprText G e).map (fun t => buffer ++ t)) :
    EmitStmt G S ind b
      = (S.generateC exprC otherC ind b.cbuf).map (fun c => Buffers.mk b.hbuf c) :=
  generateC_eq_EmitStmt G exprC otherC hexpr S ind b hcore

/-- C35, witness: the block `{ if (n) { return 0; } else break; continue; return; }`
at indent 4, with expressions rendered alike on both paths. -/
theorem generateC_refines_EmitStmt_witness :
    coreBlock.inCore = true ∧
    (∀ e buffer, sameExprC appMulti e 0 buffer
      = (exprText appMulti e).map (fun t => buffer ++ t)) ∧
    EmitStmt appMulti coreBlock 4 Buffers.empty
      = (coreBlock.generateC (sameExprC appMulti) (fun _ _ => labort) 4
          Buffers.empty.cbuf).map (fun c => Buffers.mk Buffers.empty.hbuf c) ∧
    coreBlock.generateC (sameExprC appMulti) (fun _ _ => labort) 4 ""
      = some ("    \x7b\n        if (n)\n        \x7b\n            return 0;\n        \x7d\n"
          ++ "        else\n        break;\n        continue;\n        return;\n    \x7d\n") :=
  ⟨by decide, fun _ _ => rfl,
   generateC_refines_EmitStmt appMulti (sameExprC appMulti) (fun _ _ => labort) coreBlock 4
     Buffers.empty (by decide) (fun _ _ => rfl),
   by decide⟩

/-- C36, the failing input evaluated: two array types with the same builtin element
type are compatible; `isCompatible` on an array against an array is the answer for
the element types, whatever the sizes; only against a type that is not an array it
is `false`. -/
theorem isCompatible_array_true :
    legacyIntArray.isCompatible legacyIntArray = some true ∧
    (∀ (r r2 : LegacyType) (e e2 : Option Expr),
      (LegacyType.array r e).isCompatible (LegacyType.array r2 e2) = r.isCompatible r2) ∧
    (∀ (r : LegacyType) (e : Option Expr) (n : NamePtr),
      (LegacyType.array r e).isCompatible (LegacyType.builtin n) = some false) := by
  refine ⟨by decide, fun r r2 e e2 => ?_, fun r e n => ?_⟩
  · rw [LegacyType.isCompatible]
  · simp [LegacyType.isCompatible]

/-- C37, the failing input evaluated: for an array type without size expression
`printName` does not return: after `[]` is written, `printArray` calls `expr->print`
through the null pointer. With a size expression the text is the name of the element
type, `[`, the size as `Expr::print` prints it, and `]`. -/
theorem printName_array_null_size (exprC exprPrint : Expr → Nat → LegacyEmit) :
    (∀ buffer, LegacyType.printName exprC exprPrint legacyIntArray buffer = none) ∧
    (∀ (r : LegacyType) (buffer : String),
      LegacyType.printName exprC exprPrint (LegacyType.array r none) buffer = none) ∧
    (∀ (r : LegacyType) (e : Expr),
      LegacyType.printName exprC exprPrint (LegacyType.array r (some e))
        = (LegacyType.printName exprC exprPrint r >=> lwrite "[" >=> exprPrint e 0
            >=> lwrite "]")) := by
  have h : ∀ (r : LegacyType) (buffer : String),
      LegacyType.printName exprC exprPrint (LegacyType.array r none) buffer = none := by
    intro r buffer
    simp only [LegacyType.printName, printArray, lkleisli_apply, lwrite, labort]
    cases LegacyType.printName exprC exprPrint r buffer <;> rfl
  refine ⟨fun buffer => h _ buffer, h, fun r e => ?_⟩
  rw [LegacyType.printName, printArray]

end C2C
